import Mathlib

/-!
cwm: client geometry, maximize toggles and MRU cycling

A shallow embedding of the parts of `client.c` that the properties below are
about.  C `int` values are modelled by `Int` (signed overflow is undefined
behaviour in C and is not modelled), C `/` and `%` by `Int.tdiv` and
`Int.tmod` (truncation toward zero), `MAX`/`MIN` by `max`/`min`.
Pointers into a TAILQ are modelled by positions in a `List`.
-/

namespace Cwm

/-! ## Data model -/

/-- Window geometry, the `geom` / `savegeom` members of `struct client_ctx`. -/
structure Geom where
  x : Int
  y : Int
  width : Int
  height : Int
deriving DecidableEq, Repr

/-- The normalized size hints, the `hint` member of `struct client_ctx`.
`mina` and `maxa` hold the values of the two C `float` members. -/
structure Hint where
  basew : Int
  baseh : Int
  minw : Int
  minh : Int
  maxw : Int
  maxh : Int
  incw : Int
  inch : Int
  mina : Rat
  maxa : Rat
deriving DecidableEq, Repr

/-! ## client_applysizehints (client.c 795-842) -/

/-- `client_applysizehints`, acting on `cc->geom` with `cc->hint`.

The two assignments of the aspect step (lines 811-816) are computed in C
floating point; their effect on `(width, height)` is the parameter `fadj`,
so every result below holds whatever the floating-point step computes. -/
def client_applysizehints (fadj : Hint → Int → Int → Int × Int)
    (hint : Hint) (geom : Geom) : Geom :=
  let baseismin : Bool :=
    decide (hint.basew = hint.minw) && decide (hint.baseh = hint.minh)
  -- temporarily remove base dimensions, ICCCM 4.1.2.3
  let g1 : Geom :=
    if !baseismin then
      { geom with width := geom.width - hint.basew,
                  height := geom.height - hint.baseh }
    else geom
  -- adjust for aspect limits
  let g2 : Geom :=
    if 0 < hint.mina ∧ 0 < hint.maxa then
      { g1 with width := (fadj hint g1.width g1.height).1,
                height := (fadj hint g1.width g1.height).2 }
    else g1
  -- remove base dimensions for increment
  let g3 : Geom :=
    if baseismin then
      { g2 with width := g2.width - hint.basew,
                height := g2.height - hint.baseh }
    else g2
  -- adjust for increment value
  let g4 : Geom :=
    { g3 with width := g3.width - Int.tmod g3.width hint.incw,
              height := g3.height - Int.tmod g3.height hint.inch }
  -- restore base dimensions
  let g5 : Geom :=
    { g4 with width := g4.width + hint.basew,
              height := g4.height + hint.baseh }
  -- adjust for min width/height
  let g6 : Geom :=
    { g5 with width := max g5.width hint.minw,
              height := max g5.height hint.minh }
  -- adjust for max width/height
  let g7 : Geom :=
    if hint.maxw ≠ 0 then { g6 with width := min g6.width hint.maxw } else g6
  let g8 : Geom :=
    if hint.maxh ≠ 0 then { g7 with height := min g7.height hint.maxh } else g7
  g8

/-- A floating-point step that leaves the geometry alone; used for concrete
evaluations on hints without aspect limits, where it is never called. -/
def fadjNone (_ : Hint) (w h : Int) : Int × Int := (w, h)

/-- Hints with base 0, minimum 5, increment 10 and no maximum or aspect. -/
def hintMinOffGrid : Hint :=
  { basew := 0, baseh := 0, minw := 5, minh := 5, maxw := 0, maxh := 0,
    incw := 10, inch := 10, mina := 0, maxa := 0 }

/-- Hints whose maximum lies below their minimum. -/
def hintMaxBelowMin : Hint :=
  { basew := 0, baseh := 0, minw := 10, minh := 10, maxw := 5, maxh := 5,
    incw := 1, inch := 1, mina := 0, maxa := 0 }

/-- Hints of a terminal-like client: base 4, minimum 4, cells of 7 by 13. -/
def hintTerm : Hint :=
  { basew := 4, baseh := 4, minw := 4, minh := 4, maxw := 0, maxh := 0,
    incw := 7, inch := 13, mina := 0, maxa := 0 }

/-! ## Clients, screens and the X environment -/

/-- Modelled from the spec: the client flag set. The `CLIENT_*` bit constants
are declared in `calmwm.h`, which is not among the sources; the spec lists
the flags as Hidden, Ignore, Freeze, VMaximized, HMaximized, with
"Maximized" the union of the last two. Each field is the outcome of the
test `cc->flags & CLIENT_X`; `CLIENT_MAXFLAGS` and `CLIENT_MAXIMIZED` both
stand for the pair of maximize bits. -/
structure Flags where
  hidden : Bool := false
  ignore : Bool := false
  freeze : Bool := false
  vmaximized : Bool := false
  hmaximized : Bool := false
deriving DecidableEq, Repr

/-- The members of `struct client_ctx` used here. `group` is the group
pointer (`none` for NULL). -/
structure Client where
  geom : Geom := ⟨0, 0, 0, 0⟩
  savegeom : Geom := ⟨0, 0, 0, 0⟩
  bwidth : Int := 0
  flags : Flags := {}
  group : Option Nat := none
deriving DecidableEq, Repr

/-- The `gap` member of `struct screen_ctx`. -/
structure Gap where
  top : Int := 0
  bottom : Int := 0
  left : Int := 0
  right : Int := 0
deriving DecidableEq, Repr

/-- The members of `struct screen_ctx` used here. `mruq` is the per-screen
MRU queue, head first; a client of the queue is named by its position. -/
structure Screen where
  xmax : Int
  ymax : Int
  gap : Gap := {}
  altpersist : Bool := false
  mruq : List Client := []
deriving DecidableEq, Repr

/-- One monitor rectangle, as returned by `screen_find_xinerama`. -/
structure XineramaScreenInfo where
  x_org : Int
  y_org : Int
  width : Int
  height : Int
deriving DecidableEq, Repr

/-- What the functions read from outside `client.c`: the configured border
width `Conf.bwidth`, the global `HasXinerama`, and the monitor lookup
`screen_find_xinerama(sc, x, y)` (`none` for NULL). -/
structure XEnv where
  conf_bwidth : Int
  HasXinerama : Bool
  screen_find_xinerama : Int → Int → Option XineramaScreenInfo

/-- The part of `XSizeHints` read by `client_placecalc` and
`client_getsizehints`: `position` is the test
`size->flags & (USPosition|PPosition)`, and `pbasesize`, `pminsize`,
`pmaxsize`, `presizeinc`, `paspect` are the tests `size->flags & PBaseSize`
and so on; `min_aspect_x` is `min_aspect.x`, likewise the other three. -/
structure XSizeHints where
  position : Bool := false
  x : Int := 0
  y : Int := 0
  pbasesize : Bool := false
  pminsize : Bool := false
  pmaxsize : Bool := false
  presizeinc : Bool := false
  paspect : Bool := false
  base_width : Int := 0
  base_height : Int := 0
  min_width : Int := 0
  min_height : Int := 0
  max_width : Int := 0
  max_height : Int := 0
  width_inc : Int := 0
  height_inc : Int := 0
  min_aspect_x : Int := 0
  min_aspect_y : Int := 0
  max_aspect_x : Int := 0
  max_aspect_y : Int := 0
deriving DecidableEq, Repr

/-- C `abs` on `int`. -/
def c_abs (a : Int) : Int := if a < 0 then -a else a

/-! ## client_client_align_adjust (client.c 1029-1069) -/

/-- The direction mask `movedir`. The constants `CWM_UP`, `CWM_LEFT`,
`CWM_RIGHT`, `CWM_DOWN` are declared in `calmwm.h`, which is not among the
sources; each field is the outcome of the test `movedir & CWM_X`. -/
structure MoveDir where
  up : Bool := false
  left : Bool := false
  right : Bool := false
  down : Bool := false
deriving DecidableEq, Repr

/-- The direction mask with only `CWM_RIGHT` set. -/
def CWM_RIGHT : MoveDir := { right := true }

/-- Macro `TOP(cc)`. -/
def TOP (cc : Client) : Int := cc.geom.y

/-- Macro `LEFT(cc)`. -/
def LEFT (cc : Client) : Int := cc.geom.x

/-- Macro `RIGHT(cc)`. -/
def RIGHT (cc : Client) : Int := cc.geom.x + cc.geom.width + 2 * cc.bwidth

/-- Macro `BOTTOM(cc)`. -/
def BOTTOM (cc : Client) : Int := cc.geom.y + cc.geom.height + 2 * cc.bwidth

/-- Macro `DIFF(a,b)`, that is `abs(abs(a) - abs(b))`. -/
def DIFF (a b : Int) : Int := c_abs (c_abs a - c_abs b)

/-- `client_client_align_adjust(to, cc, movedir, pmoveamt)`, with `to_cc` for
the parameter `to`: the returned pair is (non-zero return value, `*pmoveamt` afterwards). -/
def client_client_align_adjust (to_cc cc : Client) (movedir : MoveDir)
    (moveamt : Int) : Bool × Int :=
  if movedir.up ∧ TOP cc > BOTTOM to_cc ∧ DIFF (TOP cc) (BOTTOM to_cc) < moveamt then
    (true, moveamt - (moveamt - DIFF (TOP cc) (BOTTOM to_cc)))
  else if movedir.left ∧ LEFT cc > RIGHT to_cc ∧ DIFF (LEFT cc) (RIGHT to_cc) < moveamt then
    (true, moveamt - (moveamt - DIFF (LEFT cc) (RIGHT to_cc)))
  else if movedir.right ∧ RIGHT cc < LEFT to_cc ∧ DIFF (RIGHT cc) (LEFT to_cc) < moveamt then
    (true, moveamt - (moveamt - DIFF (RIGHT cc) (LEFT to_cc)))
  else if movedir.down ∧ BOTTOM cc < TOP to_cc ∧ DIFF (BOTTOM cc) (TOP to_cc) < moveamt then
    (true, moveamt - (moveamt - DIFF (BOTTOM cc) (TOP to_cc)))
  else
    (false, moveamt)

/-- A mover lying wholly left of the screen origin: `RIGHT` is -3. -/
def moverOffLeft : Client := { geom := ⟨-13, 0, 10, 10⟩ }

/-- A stationary sibling whose left edge is at 5. -/
def siblingAt5 : Client := { geom := ⟨5, 0, 10, 10⟩ }

/-- A mover whose `RIGHT` is -10. -/
def moverFarLeft : Client := { geom := ⟨-20, 0, 10, 10⟩ }

/-- A stationary sibling whose left edge is at 12. -/
def siblingAt12 : Client := { geom := ⟨12, 0, 10, 10⟩ }

/-! ## client_placecalc (client.c 666-734) -/

/-- `client_placecalc`. `ptr` is the pointer position returned by
`xu_ptr_getpos(sc->rootwin, ...)`, `size` is `cc->size`. -/
def client_placecalc (env : XEnv) (sc : Screen) (size : XSizeHints)
    (ptr : Int × Int) (cc : Client) : Client :=
  if size.position then
    let xslack := sc.xmax - cc.geom.width - cc.bwidth * 2
    let yslack := sc.ymax - cc.geom.height - cc.bwidth * 2
    let g1 : Geom := if size.x > 0 then { cc.geom with x := min size.x xslack } else cc.geom
    let g2 : Geom := if size.y > 0 then { g1 with y := min size.y yslack } else g1
    { cc with geom := g2 }
  else
    -- (xorig, yorig, xmax, ymax)
    let mon : Int × Int × Int × Int :=
      if env.HasXinerama then
        match env.screen_find_xinerama ptr.1 ptr.2 with
        | none => (0, 0, sc.xmax, sc.ymax)
        | some info => (info.x_org, info.y_org, info.x_org + info.width,
                        info.y_org + info.height)
      else (0, 0, sc.xmax, sc.ymax)
    let xorig := mon.1
    let yorig := mon.2.1
    let xmax := mon.2.2.1
    let ymax := mon.2.2.2
    let xmouse0 := max ptr.1 xorig - Int.tdiv cc.geom.width 2
    let ymouse0 := max ptr.2 yorig - Int.tdiv cc.geom.height 2
    let xmouse := max xmouse0 xorig
    let ymouse := max ymouse0 yorig
    let xslack := xmax - cc.geom.width - cc.bwidth * 2
    let yslack := ymax - cc.geom.height - cc.bwidth * 2
    let g1 : Geom :=
      if xslack ≥ xorig then
        let x0 := max (min xmouse xslack) (xorig + sc.gap.left)
        { cc.geom with x := if x0 > xslack - sc.gap.right then x0 - sc.gap.right else x0 }
      else
        { cc.geom with x := xorig + sc.gap.left, width := xmax - sc.gap.left }
    let g2 : Geom :=
      if yslack ≥ yorig then
        let y0 := max (min ymouse yslack) (yorig + sc.gap.top)
        { g1 with y := if y0 > yslack - sc.gap.bottom then y0 - sc.gap.bottom else y0 }
      else
        { g1 with y := yorig + sc.gap.top, height := ymax - sc.gap.top }
    { cc with geom := g2 }

/-- An environment without Xinerama and with configured border width 1. -/
def envPlain : XEnv :=
  { conf_bwidth := 1, HasXinerama := false, screen_find_xinerama := fun _ _ => none }

/-- A 100 by 100 screen with a gap of 10 on every side. -/
def screenGap10 : Screen :=
  { xmax := 100, ymax := 100, gap := { top := 10, bottom := 10, left := 10, right := 10 } }

/-- A new 75 by 50 client without border. -/
def newClient75 : Client := { geom := ⟨0, 0, 75, 50⟩ }

/-! ## client_freeze and the maximize toggles (client.c 267-426)

`client_resize` only issues X requests from the fields computed before it
and changes no field of the client, so it leaves no trace here. -/

/-- `client_freeze`. -/
def client_freeze (cc : Client) : Client :=
  if cc.flags.freeze then { cc with flags := { cc.flags with freeze := false } }
  else { cc with flags := { cc.flags with freeze := true } }

/-- `client_maximize`. -/
def client_maximize (env : XEnv) (sc : Screen) (cc : Client) : Client :=
  if cc.flags.freeze then cc
  else if cc.flags.vmaximized && cc.flags.hmaximized then
    { cc with
      flags := { cc.flags with vmaximized := false, hmaximized := false },
      geom := cc.savegeom,
      bwidth := env.conf_bwidth }
  else
    let s1 : Geom :=
      if !cc.flags.vmaximized then
        { cc.savegeom with height := cc.geom.height, y := cc.geom.y }
      else cc.savegeom
    let s2 : Geom :=
      if !cc.flags.hmaximized then
        { s1 with width := cc.geom.width, x := cc.geom.x }
      else s1
    -- (x_org, y_org, xmax, ymax)
    let mon : Int × Int × Int × Int :=
      if env.HasXinerama then
        match env.screen_find_xinerama (cc.geom.x + Int.tdiv cc.geom.width 2)
            (cc.geom.y + Int.tdiv cc.geom.height 2) with
        | none => (0, 0, sc.xmax, sc.ymax)
        | some xine => (xine.x_org, xine.y_org, xine.width, xine.height)
      else (0, 0, sc.xmax, sc.ymax)
    { cc with
      savegeom := s2,
      geom := { x := mon.1 + sc.gap.left,
                y := mon.2.1 + sc.gap.top,
                height := mon.2.2.2 - (sc.gap.top + sc.gap.bottom),
                width := mon.2.2.1 - (sc.gap.left + sc.gap.right) },
      bwidth := 0,
      flags := { cc.flags with vmaximized := true, hmaximized := true } }

/-- `client_vertmaximize`. -/
def client_vertmaximize (env : XEnv) (sc : Screen) (cc : Client) : Client :=
  if cc.flags.freeze then cc
  else if cc.flags.vmaximized then
    let g1 : Geom := { cc.geom with y := cc.savegeom.y, height := cc.savegeom.height }
    let bw : Int := env.conf_bwidth
    let g2 : Geom :=
      if cc.flags.hmaximized then { g1 with width := g1.width - bw * 2 } else g1
    { cc with geom := g2, bwidth := bw,
              flags := { cc.flags with vmaximized := false } }
  else
    let save : Geom := { cc.savegeom with y := cc.geom.y, height := cc.geom.height }
    -- if this will make us fully maximized then remove boundary
    let full : Bool := !cc.flags.vmaximized && cc.flags.hmaximized
    let g1 : Geom :=
      if full then { cc.geom with width := cc.geom.width + env.conf_bwidth * 2 }
      else cc.geom
    let bw : Int := if full then 0 else cc.bwidth
    -- (y_org, ymax)
    let mon : Int × Int :=
      if env.HasXinerama then
        match env.screen_find_xinerama (g1.x + Int.tdiv g1.width 2)
            (g1.y + Int.tdiv g1.height 2) with
        | none => (0, sc.ymax)
        | some xine => (xine.y_org, xine.height)
      else (0, sc.ymax)
    { cc with
      savegeom := save,
      geom := { g1 with y := mon.1 + sc.gap.top,
                        height := mon.2 - (bw * 2) - (sc.gap.top + sc.gap.bottom) },
      bwidth := bw,
      flags := { cc.flags with vmaximized := true } }

/-- `client_horizmaximize`. -/
def client_horizmaximize (env : XEnv) (sc : Screen) (cc : Client) : Client :=
  if cc.flags.freeze then cc
  else if cc.flags.hmaximized then
    let g1 : Geom := { cc.geom with x := cc.savegeom.x, width := cc.savegeom.width }
    let bw : Int := env.conf_bwidth
    let g2 : Geom :=
      if cc.flags.vmaximized then { g1 with height := g1.height - bw * 2 } else g1
    { cc with geom := g2, bwidth := bw,
              flags := { cc.flags with hmaximized := false } }
  else
    let save : Geom := { cc.savegeom with x := cc.geom.x, width := cc.geom.width }
    -- if this will make us fully maximized then remove boundary
    let full : Bool := cc.flags.vmaximized && !cc.flags.hmaximized
    let g1 : Geom :=
      if full then { cc.geom with height := cc.geom.height + cc.bwidth * 2 }
      else cc.geom
    let bw : Int := if full then 0 else cc.bwidth
    -- (x_org, xmax)
    let mon : Int × Int :=
      if env.HasXinerama then
        match env.screen_find_xinerama (g1.x + Int.tdiv g1.width 2)
            (g1.y + Int.tdiv g1.height 2) with
        | none => (0, sc.xmax)
        | some xine => (xine.x_org, xine.width)
      else (0, sc.xmax)
    { cc with
      savegeom := save,
      geom := { g1 with x := mon.1 + sc.gap.left,
                        width := mon.2 - (bw * 2) - (sc.gap.left + sc.gap.right) },
      bwidth := bw,
      flags := { cc.flags with hmaximized := true } }

/-- The user commands that act on the maximize state of a client. -/
inductive MaxOp where
  | maximize
  | vertmaximize
  | horizmaximize
  | freeze
deriving DecidableEq, Repr

/-- One command applied to a client. -/
def MaxOp.apply (env : XEnv) (sc : Screen) : MaxOp → Client → Client
  | .maximize, cc => client_maximize env sc cc
  | .vertmaximize, cc => client_vertmaximize env sc cc
  | .horizmaximize, cc => client_horizmaximize env sc cc
  | .freeze, cc => client_freeze cc

/-- A sequence of commands applied to a client, first command first. -/
def runMaxOps (env : XEnv) (sc : Screen) : List MaxOp → Client → Client
  | [], cc => cc
  | op :: ops, cc => runMaxOps env sc ops (op.apply env sc cc)

/-- A 1000 by 800 screen without gaps. -/
def screen1000 : Screen := { xmax := 1000, ymax := 800 }

/-- A screen of 20 by 800 with no gap. -/
def screenNarrow : Screen := { xmax := 20, ymax := 800 }

/-- A client at (10, 20) of size 300 by 200 with the configured border
width 1 of `envPlain`. -/
def clientBordered : Client := { geom := ⟨10, 20, 300, 200⟩, bwidth := 1 }

/-- A client at (10, 20) of size 300 by 200 without border, as
`client_gethints` leaves a window whose Motif hints ask for no decoration
(lines 857-862), under the configured border width 1 of `envPlain`. -/
def clientBorderless : Client := { geom := ⟨10, 20, 300, 200⟩, bwidth := 0 }

/-! ## client_cycle, client_mrunext, client_mruprev (client.c 603-664) -/

/-- The `flags` argument of `client_cycle`. The constants `CWM_RCYCLE` and
`CWM_INGROUP` are declared in `calmwm.h`, which is not among the sources;
each field is the outcome of the test `flags & CWM_X`. -/
structure CycleFlags where
  rcycle : Bool := false
  ingroup : Bool := false
deriving DecidableEq, Repr

/-- The client at position `i` of an MRU queue. -/
def clientAt (mruq : List Client) (i : Nat) : Client := mruq.getD i {}

/-- `client_mrunext`: `TAILQ_NEXT`, or `TAILQ_FIRST` at the tail. -/
def client_mrunext (mruq : List Client) (cc : Nat) : Nat :=
  if cc + 1 < mruq.length then cc + 1 else 0

/-- `client_mruprev`: `TAILQ_PREV`, or `TAILQ_LAST` at the head. -/
def client_mruprev (mruq : List Client) (cc : Nat) : Nat :=
  if 0 < cc then cc - 1 else mruq.length - 1

/-- The `while (again)` loop of `client_cycle`, started with `newcc`.
`none`: the fuel ran out; `some none`: the `return` at "No windows
visible"; `some (some newcc)`: the loop was left with this `newcc`. -/
def client_cycle_loop (mruq : List Client) (flags : CycleFlags) (oldcc : Nat) :
    Nat → Nat → Option (Option Nat)
  | 0, _ => none
  | fuel + 1, newcc =>
    let newcc1 : Nat :=
      if flags.rcycle then client_mruprev mruq newcc else client_mrunext mruq newcc
    -- Only cycle visible and non-ignored windows.
    let again : Bool :=
      ((clientAt mruq newcc1).flags.hidden || (clientAt mruq newcc1).flags.ignore)
        || (flags.ingroup && decide ((clientAt mruq newcc1).group ≠ (clientAt mruq oldcc).group))
    -- Is oldcc the only non-hidden window?
    if newcc1 = oldcc then
      if again then some none else some (some newcc1)
    else if again then client_cycle_loop mruq flags oldcc fuel newcc1
    else some (some newcc1)

/-- What a call of `client_cycle` leaves behind: the screen (with its
`altpersist`), the client `client_ptrsave` was called on and the client
`client_ptrwarp` was called on, the selected one. -/
structure CycleResult where
  sc : Screen
  ptrsave : Option Nat
  ptrwarp : Option Nat
deriving DecidableEq, Repr

/-- `client_cycle(sc, flags)`; `cur` is `client_current()`. The loop is run
with as much fuel as the queue has clients; `none` would mean that this was
not enough. -/
def client_cycle (sc : Screen) (cur : Option Nat) (flags : CycleFlags) :
    Option CycleResult :=
  -- If no windows then you cant cycle
  if sc.mruq.isEmpty then some { sc := sc, ptrsave := none, ptrwarp := none }
  else
    let oldcc : Nat :=
      match cur with
      | some cc => cc
      | none => if flags.rcycle then sc.mruq.length - 1 else 0
    match client_cycle_loop sc.mruq flags oldcc sc.mruq.length oldcc with
    | none => none
    | some none => some { sc := sc, ptrsave := none, ptrwarp := none }
    | some (some newcc) =>
      some { sc := { sc with altpersist := true }, ptrsave := some oldcc,
             ptrwarp := some newcc }

/-- The start client of a cycle: the current client, or the head of the
queue (the tail for reverse cycling) when there is none. -/
def cycle_start (sc : Screen) (cur : Option Nat) (flags : CycleFlags) : Nat :=
  match cur with
  | some cc => cc
  | none => if flags.rcycle then sc.mruq.length - 1 else 0

/-- Cyclic MRU order: the position `k` steps after `start` in a queue of
`n` clients, or `k` steps before it for reverse cycling. -/
def walkPos (n start : Nat) (rcycle : Bool) (k : Nat) : Nat :=
  if rcycle then (start + n - k) % n else (start + k) % n

/-- The candidates of a cycle in the order of the wrapping walk: the
clients 1, 2, ..., `n` steps from the start, the last being the start. -/
def cycle_candidates (n start : Nat) (rcycle : Bool) : List Nat :=
  (List.range' 1 n).map (walkPos n start rcycle)

/-- A client is a cycle candidate that counts: it has neither the Hidden
nor the Ignore flag and, for in-group cycling, is in the start client's
group. -/
def eligible (mruq : List Client) (flags : CycleFlags) (start j : Nat) : Bool :=
  !(clientAt mruq j).flags.hidden && !(clientAt mruq j).flags.ignore
    && (!flags.ingroup || decide ((clientAt mruq j).group = (clientAt mruq start).group))

/-- The selection as the spec words it: the first candidate in cyclic MRU
order that counts, if any. -/
def cycle_spec (mruq : List Client) (flags : CycleFlags) (start : Nat) : Option Nat :=
  (cycle_candidates mruq.length start flags.rcycle).find? (eligible mruq flags start)

/-- An MRU queue A, B, C with nothing hidden. -/
def mruABC : Screen :=
  { xmax := 1000, ymax := 800, mruq := [{}, {}, {}] }

/-- An MRU queue A, B, C with B hidden. -/
def mruAhiddenBC : Screen :=
  { xmax := 1000, ymax := 800, mruq := [{}, { flags := { hidden := true } }, {}] }

/-- An MRU queue in which every client is hidden or ignored. -/
def mruNoneVisible : Screen :=
  { xmax := 1000, ymax := 800,
    mruq := [{ flags := { hidden := true } }, { flags := { ignore := true } }] }

/-! ## client_setname (client.c 565-601) -/

/-- The name members of `struct client_ctx`: the queue `nameq` of earlier
names, oldest first, its counter `nameqlen`, and the current `name`. -/
structure ClientName where
  nameq : List String := []
  nameqlen : Int := 0
  name : String := ""
deriving DecidableEq, Repr

/-- The name `client_setname` fetches: `_NET_WM_NAME` if that property can
be read, else `WM_NAME`, else the empty string (lines 571-573). -/
def fetched_name (net_wm_name wm_name : Option String) : String :=
  match net_wm_name with
  | some s => s
  | none =>
    match wm_name with
    | some s => s
    | none => ""

/-- `client_setname`. `maxnameqlen` is the constant `CLIENT_MAXNAMEQLEN`,
declared in `calmwm.h`, which is not among the sources. `strcmp` equality
is equality of strings; the first entry that compares equal is unlinked and
linked again at the tail. At the garbage collection the queue holds at least
the entry just linked at its tail, so the `assert` holds and the head that
is removed is `List.tail`. -/
def client_setname (maxnameqlen : Int) (net_wm_name wm_name : Option String)
    (cc : ClientName) : ClientName :=
  let newname : String := fetched_name net_wm_name wm_name
  let hit : Bool := decide (newname ∈ cc.nameq)
  -- Move to the last since we got a hit, else link a new entry
  let q1 : List String :=
    if hit then cc.nameq.erase newname ++ [newname] else cc.nameq ++ [newname]
  let len1 : Int := if hit then cc.nameqlen else cc.nameqlen + 1
  -- Now, do some garbage collection.
  if len1 > maxnameqlen then
    { nameq := q1.tail, nameqlen := len1 - 1, name := newname }
  else
    { nameq := q1, nameqlen := len1, name := newname }

/-- A sequence of name changes, each fetched from `_NET_WM_NAME` alone,
applied first name first. -/
def runSetname (maxnameqlen : Int) : List String → ClientName → ClientName
  | [], cc => cc
  | n :: ns, cc => runSetname maxnameqlen ns (client_setname maxnameqlen (some n) none cc)

/-! ## The client registry (client.c 58-265, 486-509, 736-751)

`client_new`, `client_delete`, `client_setactive`, `client_hide`,
`client_unhide` and `client_mtf` on one screen. A client record is named by
its address; the queues hold addresses or records in queue order. -/

/-- A client record as the registry functions see it: its address `cc`,
its window `win` (0 is `None`), the `active` member, and `hidden`, the test
`flags & CLIENT_HIDDEN`. -/
structure ClientCtx where
  cc : Nat
  win : Nat
  active : Bool := false
  hidden : Bool := false
deriving DecidableEq, Repr

/-- The registry state: the global queue `Clientq`, the MRU queue
`sc->mruq` (addresses, head first), the global `_curcc` (`none` for NULL),
`sc->altpersist`, the root-window properties `_NET_CLIENT_LIST` and
`_NET_ACTIVE_WINDOW`, and the next address `xcalloc` hands out. -/
structure WM where
  Clientq : List ClientCtx := []
  mruq : List Nat := []
  curcc : Option Nat := none
  altpersist : Bool := false
  net_client_list : List Nat := []
  net_active_window : Nat := 0
  brk : Nat := 0
deriving DecidableEq, Repr

/-- The assignment `cc->active = v` on the record at address `cc`. -/
def setActive (q : List ClientCtx) (cc : Nat) (v : Bool) : List ClientCtx :=
  q.map (fun c => if c.cc = cc then { c with active := v } else c)

/-- The assignment of the Hidden flag on the record at address `cc`. -/
def setHidden (q : List ClientCtx) (cc : Nat) (v : Bool) : List ClientCtx :=
  q.map (fun c => if c.cc = cc then { c with hidden := v } else c)

/-- The window `cc->win` of the record at address `cc`. -/
def winOf (q : List ClientCtx) (cc : Nat) : Nat :=
  match q.find? (fun c => decide (c.cc = cc)) with
  | some c => c.win
  | none => 0

/-- The idiom `if (cc == NULL) cc = _curcc;`. -/
def orCurrent (wm : WM) (cc : Option Nat) : Option Nat :=
  match cc with
  | some c => some c
  | none => wm.curcc

/-- `client_none`. -/
def client_none (wm : WM) : WM :=
  { wm with net_active_window := 0, curcc := none }

/-- `client_current`. -/
def client_current (wm : WM) : Option Nat := wm.curcc

/-- `client_hide`. -/
def client_hide (wm : WM) (cc : Nat) : WM :=
  let wm1 : WM :=
    { wm with Clientq := setHidden (setActive wm.Clientq cc false) cc true }
  if wm1.curcc = some cc then client_none wm1 else wm1

/-- `client_unhide`. -/
def client_unhide (wm : WM) (cc : Nat) : WM :=
  { wm with Clientq := setHidden wm.Clientq cc false }

/-- `client_mtf`. -/
def client_mtf (wm : WM) (cc : Option Nat) : WM :=
  match orCurrent wm cc with
  | none => wm
  | some c =>
    -- Move to front.
    { wm with mruq := c :: wm.mruq.erase c }

/-- The call `client_setactive(cc, 0)`: `client_leave` only talks to the X
server, the test `fg && _curcc != cc` fails, and `cc->active` becomes 0. -/
def client_setactive_bg (wm : WM) (cc : Option Nat) : WM :=
  match orCurrent wm cc with
  | none => wm
  | some c => { wm with Clientq := setActive wm.Clientq c false }

/-- `client_setactive(cc, fg)`. Its recursive call `client_setactive(NULL, 0)`
is `client_setactive_bg wm none`. -/
def client_setactive (wm : WM) (cc : Option Nat) (fg : Bool) : WM :=
  if fg then
    match orCurrent wm cc with
    | none => wm
    | some c =>
      -- If we're in the middle of alt-tabbing, don't change the order please.
      let wm1 : WM := if !wm.altpersist then client_mtf wm (some c) else wm
      let wm2 : WM :=
        if wm1.curcc ≠ some c then
          { client_setactive_bg wm1 none with
            curcc := some c, net_active_window := winOf wm1.Clientq c }
        else wm1
      { wm2 with Clientq := setActive wm2.Clientq c true }
  else client_setactive_bg wm cc

/-- `client_new(win, sc, mapped)`, as far as the registry goes. `iconic` is
the outcome of `state == IconicState` after `xu_getstate`. The new record is
zeroed by `xcalloc`; `client_hide` or `client_unhide` runs on it before it is
linked into the queues. -/
def client_new (wm : WM) (win : Nat) (iconic : Bool) : WM :=
  if win = 0 then wm
  else
    let cc : Nat := wm.brk
    let rec0 : ClientCtx := { cc := cc, win := win }
    let rec1 : ClientCtx :=
      if iconic then { rec0 with active := false, hidden := true }
      else { rec0 with hidden := false }
    let wm1 : WM := if iconic ∧ wm.curcc = some cc then client_none wm else wm
    { wm1 with
      mruq := wm1.mruq ++ [cc],
      Clientq := wm1.Clientq ++ [rec1],
      -- append to the client list
      net_client_list := wm1.net_client_list ++ [win],
      brk := wm1.brk + 1 }

/-- `client_delete`, as far as the registry goes. -/
def client_delete (wm : WM) (cc : Nat) : WM :=
  let mruq1 : List Nat := wm.mruq.erase cc
  let q1 : List ClientCtx := wm.Clientq.filter (fun c => decide (c.cc ≠ cc))
  -- redo the whole thing from scratch
  let i : Nat := q1.length
  let prop1 : List Nat := if i > 0 then q1.map (fun c => c.win) else wm.net_client_list
  let wm1 : WM := { wm with mruq := mruq1, Clientq := q1, net_client_list := prop1 }
  if wm.curcc = some cc then client_none wm1 else wm1

/-- The registry calls that the window manager makes. -/
inductive RegOp where
  | new (win : Nat) (iconic : Bool)
  | setactive (cc : Option Nat) (fg : Bool)
  | hide (cc : Nat)
  | unhide (cc : Nat)
  | delete (cc : Nat)
deriving DecidableEq, Repr

/-- One registry call applied to a state. -/
def RegOp.apply : RegOp → WM → WM
  | .new win iconic, wm => client_new wm win iconic
  | .setactive cc fg, wm => client_setactive wm cc fg
  | .hide cc, wm => client_hide wm cc
  | .unhide cc, wm => client_unhide wm cc
  | .delete cc, wm => client_delete wm cc

/-- A sequence of registry calls applied to a state, first call first. -/
def runRegOps : List RegOp → WM → WM
  | [], wm => wm
  | op :: ops, wm => runRegOps ops (op.apply wm)

/-- The exported client list agrees with the global queue. -/
def clientListSynced (wm : WM) : Prop :=
  wm.net_client_list = wm.Clientq.map (fun c => c.win)

/-- Decidability of `clientListSynced`, by comparing the two lists. -/
instance (wm : WM) : Decidable (clientListSynced wm) := by
  unfold clientListSynced
  infer_instance

/-- The registry invariant on the global queue `q`, the current client `cur`
and the allocation mark `brk`: addresses are distinct and below the mark,
and a record whose `active` member is set is the current client. -/
def RegInv (q : List ClientCtx) (cur : Option Nat) (brk : Nat) : Prop :=
  (q.map (fun c => c.cc)).Nodup ∧
  (∀ c ∈ q, c.cc < brk) ∧
  (∀ c ∈ q, c.active = true → cur = some c.cc)

/-! ## client_ptrsave and client_inbound (client.c 471-484, 889-894) -/

/-- The `ptr` member of `struct client_ctx`, the saved pointer position;
(-1, -1) is the unset value `client_new` starts with (lines 86-87). -/
structure Ptr where
  x : Int := -1
  y : Int := -1
deriving DecidableEq, Repr

/-- A client together with its saved pointer position. -/
structure ClientPtr where
  cc : Client := {}
  ptr : Ptr := {}
deriving DecidableEq, Repr

/-- `client_inbound`. -/
def client_inbound (cc : Client) (x y : Int) : Bool :=
  decide (x < cc.geom.width) && decide (x ≥ 0) &&
    decide (y < cc.geom.height) && decide (y ≥ 0)

/-- `client_ptrsave`; `pos` is the pointer position relative to the window,
as `xu_ptr_getpos(cc->win, ...)` returns it. -/
def client_ptrsave (pos : Int × Int) (c : ClientPtr) : ClientPtr :=
  if client_inbound c.cc pos.1 pos.2 then
    { c with ptr := { x := pos.1, y := pos.2 } }
  else
    { c with ptr := { x := -1, y := -1 } }

/-- The calls that save the pointer or change the geometry. -/
inductive PtrOp where
  | ptrsave (pos : Int × Int)
  | maximize
  | vertmaximize
  | horizmaximize
deriving DecidableEq, Repr

/-- One call applied to a client and its saved pointer; the maximize
toggles do not touch `ptr`. -/
def PtrOp.apply (env : XEnv) (sc : Screen) : PtrOp → ClientPtr → ClientPtr
  | .ptrsave pos, c => client_ptrsave pos c
  | .maximize, c => { c with cc := client_maximize env sc c.cc }
  | .vertmaximize, c => { c with cc := client_vertmaximize env sc c.cc }
  | .horizmaximize, c => { c with cc := client_horizmaximize env sc c.cc }

/-- A sequence of calls applied to a client and its saved pointer. -/
def runPtrOps (env : XEnv) (sc : Screen) : List PtrOp → ClientPtr → ClientPtr
  | [], c => c
  | op :: ops, c => runPtrOps env sc ops (op.apply env sc c)

/-- The saved pointer is unset or inside the current window. -/
def ptrValid (c : ClientPtr) : Prop :=
  (c.ptr.x = -1 ∧ c.ptr.y = -1) ∨
  (0 ≤ c.ptr.x ∧ c.ptr.x < c.cc.geom.width ∧ 0 ≤ c.ptr.y ∧ c.ptr.y < c.cc.geom.height)

/-- Decidability of `ptrValid`, by comparing the coordinates. -/
instance (c : ClientPtr) : Decidable (ptrValid c) := by
  unfold ptrValid
  infer_instance

/-! ## client_snapcalc (client.c 896-923) -/

/-- `client_snapcalc`. -/
def client_snapcalc (n dn nmax bwidth snapdist : Int) : Int :=
  let n0 : Int := n
  let n1 : Int := n + dn + (bwidth * 2)
  let s0 : Int := if c_abs n0 ≤ snapdist then -n0 else 0
  let s1 : Int := if nmax - snapdist ≤ n1 ∧ n1 ≤ nmax + snapdist then nmax - n1 else 0
  -- possible to snap in both directions
  if s0 ≠ 0 ∧ s1 ≠ 0 then
    if c_abs s0 < c_abs s1 then s0 else s1
  else if s0 ≠ 0 then s0
  else if s1 ≠ 0 then s1
  else 0

/-! ## client_getsizehints (client.c 753-794) -/

/-- `client_getsizehints`, acting on `cc->size` and `cc->hint`. `got` is the
return value of `XGetWMNormalHints` and `size` is `cc->size` after that call;
when the call fails the flags become `PSize`, so every flag test modelled
here fails. The two aspect quotients are computed in C floating point;
`fdiv y x` stands for `(float)y / x`. -/
def client_getsizehints (fdiv : Int → Int → Rat) (got : Bool) (size : XSizeHints)
    (hint : Hint) : XSizeHints × Hint :=
  let size1 : XSizeHints :=
    if !got then
      { size with position := false, pbasesize := false, pminsize := false,
                  pmaxsize := false, presizeinc := false, paspect := false }
    else size
  let h1 : Hint :=
    if size1.pbasesize then
      { hint with basew := size1.base_width, baseh := size1.base_height }
    else if size1.pminsize then
      { hint with basew := size1.min_width, baseh := size1.min_height }
    else hint
  let h2 : Hint :=
    if size1.pminsize then
      { h1 with minw := size1.min_width, minh := size1.min_height }
    else if size1.pbasesize then
      { h1 with minw := size1.base_width, minh := size1.base_height }
    else h1
  let h3 : Hint :=
    if size1.pmaxsize then
      { h2 with maxw := size1.max_width, maxh := size1.max_height }
    else h2
  let h4 : Hint :=
    if size1.presizeinc then
      { h3 with incw := size1.width_inc, inch := size1.height_inc }
    else h3
  let h5 : Hint := { h4 with incw := max 1 h4.incw, inch := max 1 h4.inch }
  let h6 : Hint :=
    if size1.paspect then
      let h6a : Hint :=
        if size1.min_aspect_x > 0 then
          { h5 with mina := fdiv size1.min_aspect_y size1.min_aspect_x }
        else h5
      if size1.max_aspect_y > 0 then
        { h6a with maxa := fdiv size1.max_aspect_x size1.max_aspect_y }
      else h6a
    else h5
  (size1, h6)

/-- The zeroed hint record of a client that `xcalloc` has just allocated. -/
def hintZero : Hint :=
  { basew := 0, baseh := 0, minw := 0, minh := 0, maxw := 0, maxh := 0,
    incw := 0, inch := 0, mina := 0, maxa := 0 }

/-- Exact division, standing in for the C floating-point division in
concrete evaluations. -/
def fdivExact (y x : Int) : Rat := (y : Rat) / (x : Rat)

/-! ## The menu (menu.c)

A menu entry is named by its position in the caller's queue `menuq` (the
`entry` linkage); the result queue `resultq` (the `resultentry` linkage) is
a list of such positions, head first. -/

/-- Modelled from the spec: a menu entry, `struct menu` of `calmwm.h`, which
is not among the sources. The spec lists text, optional precomputed display
text, dummy flag and abort flag; `menu.c` uses them as `text`, `print`,
`dummy` and `abort`. -/
structure Menu where
  text : String := ""
  print : String := ""
  dummy : Bool := false
  abort : Bool := false
deriving DecidableEq, Repr

/-- `enum ctltype`. -/
inductive ctltype where
  | CTL_NONE
  | CTL_ERASEONE
  | CTL_WIPE
  | CTL_UP
  | CTL_DOWN
  | CTL_RETURN
  | CTL_ABORT
  | CTL_ALL
deriving DecidableEq, Repr

/-- `struct menu_ctx`, without the two callbacks, which are in `MenuEnv`. -/
structure menu_ctx where
  searchstr : String := ""
  dispstr : String := ""
  promptstr : String := ""
  hasprompt : Bool := false
  list : Bool := false
  listing : Bool := false
  changed : Bool := false
  noresult : Bool := false
  prev : Int := 0
  entry : Int := 0
  width : Int := 0
  num : Int := 0
  x : Int := 0
  y : Int := 0
deriving DecidableEq, Repr

/-- What the menu reads from outside `menu.c`: the constant `MENU_MAXENTRY`
(`calmwm.h`), the font metrics `font_height(sc)` and `font_width(sc, ...)`,
and the callbacks `mc->match` and `mc->print` (`none` for a NULL `print`).
`matchfn menuq resultq searchstr` is the result queue that the match
callback builds; `printfn mi listing` is what the print callback leaves in
`mi->print`. -/
structure MenuEnv where
  MENU_MAXENTRY : Nat
  font_height : Int
  font_width : String → Int
  matchfn : List Menu → List Nat → String → List Nat
  printfn : Option (Menu → Bool → String)

/-- A `struct menu *` that a menu function returns: an entry of the
caller's queue, or an entry that the function has just allocated. -/
inductive MenuPtr where
  | queued (i : Nat)
  | fresh (mi : Menu)
deriving DecidableEq, Repr

/-- `strlcpy` into an array of `MENU_MAXENTRY + 1` characters. -/
def strlcpy (src : String) (maxentry : Nat) : String :=
  ⟨src.data.take maxentry⟩

/-- `strlcat` onto an array of `MENU_MAXENTRY + 1` characters. -/
def strlcat (dst src : String) (maxentry : Nat) : String :=
  ⟨(dst.data ++ src.data).take maxentry⟩

/-- The keysym constants of `X11/keysymdef.h` that `menu_keycode` names. -/
def XK_BackSpace : Int := 0xff08

/-- Keysym of the Return key. -/
def XK_Return : Int := 0xff0d

/-- Keysym of the Escape key. -/
def XK_Escape : Int := 0xff1b

/-- Keysym of the Up key. -/
def XK_Up : Int := 0xff52

/-- Keysym of the Down key. -/
def XK_Down : Int := 0xff54

/-- `menu_keycode`. `ks` is the keysym that `XKeycodeToKeysym` returns,
`control` and `mod1` are the tests `state & ControlMask` and
`state & Mod1Mask`. The result is `none` for the return value -1 and
`some (ctl, chr)` otherwise; the letter keysyms are their character
codes. -/
def menu_keycode (ks : Int) (control mod1 : Bool) : Option (ctltype × Char) :=
  -- Look for control characters.
  let ctl1 : ctltype :=
    if ks = XK_BackSpace then .CTL_ERASEONE
    else if ks = XK_Return then .CTL_RETURN
    else if ks = XK_Up then .CTL_UP
    else if ks = XK_Down then .CTL_DOWN
    else if ks = XK_Escape then .CTL_ABORT
    else .CTL_NONE
  let ctl2 : ctltype :=
    if ctl1 = .CTL_NONE ∧ control then
      if ks = 0x73 ∨ ks = 0x53 then .CTL_DOWN
      else if ks = 0x72 ∨ ks = 0x52 then .CTL_UP
      else if ks = 0x75 ∨ ks = 0x55 then .CTL_WIPE
      else if ks = 0x68 ∨ ks = 0x48 then .CTL_ERASEONE
      else if ks = 0x61 ∨ ks = 0x41 then .CTL_ALL
      else ctl1
    else ctl1
  let ctl3 : ctltype :=
    if ctl2 = .CTL_NONE ∧ mod1 then
      if ks = 0x6a ∨ ks = 0x4a then .CTL_DOWN
      else if ks = 0x6b ∨ ks = 0x4b then .CTL_UP
      else ctl2
    else ctl2
  if ctl3 ≠ .CTL_NONE then some (ctl3, Char.ofNat 0)
  else if ks < 0x20 ∨ ks > 0x07e then none
  else some (ctl3, Char.ofNat ks.toNat)

/-- The assignment `mi->abort = v` on entry `i` of the caller's queue. -/
def setAbort (menuq : List Menu) (i : Nat) (v : Bool) : List Menu :=
  match menuq[i]? with
  | some mi => menuq.set i { mi with abort := v }
  | none => menuq

/-- What `menu_handle_key` returns and leaves behind. -/
structure KeyResult where
  ret : Option MenuPtr
  mc : menu_ctx
  menuq : List Menu
  resultq : List Nat
deriving DecidableEq, Repr

/-- The part of `menu_handle_key` after the `switch` (lines 275-297). -/
def menu_handle_key_tail (env : MenuEnv) (chr : Char) (mc : menu_ctx)
    (menuq : List Menu) (resultq : List Nat) : KeyResult :=
  let mc1 : menu_ctx :=
    if chr ≠ Char.ofNat 0 then
      { mc with changed := true,
                searchstr := strlcat mc.searchstr (String.singleton chr) env.MENU_MAXENTRY }
    else mc
  let mc2 : menu_ctx := { mc1 with noresult := false }
  let hit : Bool := mc2.changed && decide (mc2.searchstr ≠ "")
  let rq1 : List Nat :=
    if hit then env.matchfn menuq resultq mc2.searchstr
    else if mc2.changed then []
    else resultq
  -- If menuq is empty, never show we've failed
  let mc3 : menu_ctx :=
    if hit then { mc2 with noresult := rq1.isEmpty && !menuq.isEmpty } else mc2
  if !mc3.list && mc3.listing && !mc3.changed then
    { ret := none, mc := { mc3 with listing := false }, menuq := menuq, resultq := [] }
  else
    { ret := none, mc := mc3, menuq := menuq, resultq := rq1 }

/-- `menu_handle_key`. `key` is what `menu_keycode` returns for the event;
`heap` is the content of the memory that `xmalloc` hands out, which stays in
the members the function does not assign. -/
def menu_handle_key (env : MenuEnv) (heap : Menu) (key : Option (ctltype × Char))
    (mc : menu_ctx) (menuq : List Menu) (resultq : List Nat) : KeyResult :=
  match key with
  | none => { ret := none, mc := mc, menuq := menuq, resultq := resultq }
  | some (ctl, chr) =>
    match ctl with
    | .CTL_ERASEONE =>
      if mc.searchstr.length > 0 then
        menu_handle_key_tail env chr
          { mc with searchstr := ⟨mc.searchstr.data.dropLast⟩, changed := true } menuq resultq
      else menu_handle_key_tail env chr mc menuq resultq
    | .CTL_UP =>
      match resultq.getLast? with
      | none => menu_handle_key_tail env chr mc menuq resultq
      | some mi => menu_handle_key_tail env chr mc menuq (mi :: resultq.dropLast)
    | .CTL_DOWN =>
      match resultq with
      | [] => menu_handle_key_tail env chr mc menuq resultq
      | mi :: rest => menu_handle_key_tail env chr mc menuq (rest ++ [mi])
    | .CTL_RETURN =>
      -- Return whatever the cursor is currently on.
      match resultq.head? with
      | none =>
        { ret := some (.fresh { heap with text := strlcpy mc.searchstr env.MENU_MAXENTRY,
                                          dummy := true, abort := false }),
          mc := mc, menuq := menuq, resultq := resultq }
      | some i =>
        { ret := some (.queued i), mc := mc, menuq := setAbort menuq i false,
          resultq := resultq }
    | .CTL_WIPE =>
      menu_handle_key_tail env chr { mc with searchstr := "", changed := true } menuq resultq
    | .CTL_ALL =>
      menu_handle_key_tail env chr { mc with list := !mc.list } menuq resultq
    | .CTL_ABORT =>
      { ret := some (.fresh { heap with text := "", dummy := true, abort := true }),
        mc := mc, menuq := menuq, resultq := resultq }
    | .CTL_NONE => menu_handle_key_tail env chr mc menuq resultq

/-- The `dummy` member of the entry a `struct menu *` points to. -/
def MenuPtr.isDummy (menuq : List Menu) : MenuPtr → Bool
  | .queued i => (menuq.getD i {}).dummy
  | .fresh mi => mi.dummy

/-- The end of `menu_filter` (lines 191-195, 207): the entry the event loop
left in `mi` becomes NULL when the caller passed `dummy == 0` and the entry
is a dummy. -/
def menu_filter_out (dummy : Bool) (menuq : List Menu) (mi : MenuPtr) : Option MenuPtr :=
  if !dummy && mi.isDummy menuq then none else some mi

/-- The closing bracket `PROMPT_ECHAR` of the display string, two bytes. -/
def PROMPT_ECHAR : String := ⟨[Char.ofNat 0xc2, Char.ofNat 0xab]⟩

/-- The opening bracket `PROMPT_SCHAR` of the prompt, two bytes. -/
def PROMPT_SCHAR : String := ⟨[Char.ofNat 0xc2, Char.ofNat 0xbb]⟩

/-- The text that is drawn for an entry: `mi->print` unless it is empty. -/
def entryText (mi : Menu) : String :=
  if mi.print ≠ "" then mi.print else mi.text

/-- The layout step of `menu_draw` (lines 362-376) inside the bounds
`xmin`, `xmax`, `ymin`, `ymax`: the new `mc->x`, `mc->y` and `dy`. -/
def menu_draw_layout (xmin xmax ymin ymax : Int) (x y width dy : Int) : Int × Int × Int :=
  let x1 : Int :=
    if x < xmin then xmin
    else if x + width ≥ xmax then xmax - width
    else x
  let y1 : Int := if y + dy ≥ ymax then ymax - dy else y
  -- never hide the top of the menu
  if y1 < ymin then (x1, ymin, ymax - ymin) else (x1, y1, dy)

/-- The bounds `menu_draw` lays the menu out in (lines 350-360): the
monitor that `screen_find_xinerama` returns for the anchor, or the screen:
`(xmin, xmax, ymin, ymax)`. -/
def menu_draw_bounds (xenv : XEnv) (sc : Screen) (x y : Int) : Int × Int × Int × Int :=
  match xenv.screen_find_xinerama x y with
  | some xine =>
    (xine.x_org, xine.x_org + xine.width, xine.y_org, xine.y_org + xine.height)
  | none => (0, sc.xmax, 0, sc.ymax)

/-- The assignment of `mi->print` on entry `i` by the first loop of
`menu_draw` (lines 336-342). -/
def setPrint (env : MenuEnv) (listing : Bool) (menuq : List Menu) (i : Nat) : List Menu :=
  match menuq[i]? with
  | some mi =>
    menuq.set i { mi with print := match env.printfn with
                                   | some f => f mi listing
                                   | none => "" }
  | none => menuq

/-- The text whose width the first loop of `menu_draw` measures for entry
`i`: `mi->print` with a print callback, `mi->text` without. -/
def measuredText (env : MenuEnv) (listing : Bool) (menuq : List Menu) (i : Nat) : String :=
  match env.printfn with
  | some f => f (menuq.getD i {}) listing
  | none => (menuq.getD i {}).text

/-- What `menu_draw` leaves behind, with the height `dy` it gives the
window. -/
structure DrawResult where
  mc : menu_ctx
  menuq : List Menu
  resultq : List Nat
  dy : Int
deriving DecidableEq, Repr

/-- `menu_draw`, up to the requests that paint the window. -/
def menu_draw (env : MenuEnv) (xenv : XEnv) (sc : Screen) (mc : menu_ctx)
    (menuq : List Menu) (resultq : List Nat) : DrawResult :=
  -- Copy them all over.
  let copy : Bool := mc.list && resultq.isEmpty
  let rq1 : List Nat := if copy then List.range menuq.length else resultq
  let listing1 : Bool :=
    if mc.list then
      if resultq.isEmpty then true
      else if mc.changed then false
      else mc.listing
    else mc.listing
  let dispstr1 : String :=
    if mc.hasprompt then
      ⟨(mc.promptstr.data ++ mc.searchstr.data ++ PROMPT_ECHAR.data).take
        (env.MENU_MAXENTRY * 2)⟩
    else mc.dispstr
  let width0 : Int := if mc.hasprompt then env.font_width dispstr1 else 0
  let dy0 : Int := if mc.hasprompt then env.font_height else 0
  let num0 : Int := if mc.hasprompt then 1 else 0
  let width1 : Int :=
    rq1.foldl (fun w i =>
      max w (env.font_width ⟨(measuredText env listing1 menuq i).data.take env.MENU_MAXENTRY⟩))
      width0
  let menuq1 : List Menu := rq1.foldl (setPrint env listing1) menuq
  let dy1 : Int := dy0 + env.font_height * rq1.length
  let num1 : Int := num0 + rq1.length
  let b : Int × Int × Int × Int := menu_draw_bounds xenv sc mc.x mc.y
  let l : Int × Int × Int := menu_draw_layout b.1 b.2.1 b.2.2.1 b.2.2.2 mc.x mc.y width1 dy1
  { mc := { mc with listing := listing1, dispstr := dispstr1, width := width1,
                    num := num1, x := l.1, y := l.2.1 },
    menuq := menuq1, resultq := rq1, dy := l.2.2 }

/-- `menu_calc_entry`. -/
def menu_calc_entry (env : MenuEnv) (mc : menu_ctx) (x y : Int) : Int :=
  let entry : Int := Int.tdiv y env.font_height
  -- in bounds?
  let entry1 : Int :=
    if x ≤ 0 ∨ x > mc.width ∨ y ≤ 0 ∨ y > env.font_height * mc.num ∨ entry < 0
        ∨ entry ≥ mc.num then -1
    else entry
  if mc.hasprompt ∧ entry1 = 0 then -1 else entry1

/-- The loop of `menu_get_entry_text` over the entries that follow `mi` in
the `entry` linkage, with counter `j`. -/
def menu_get_entry_text_loop (i : Int) : Int → List Menu → Option String
  | _, [] => none
  | j, mi :: rest =>
    if j = i then some (entryText mi) else menu_get_entry_text_loop i (j + 1) rest

/-- `menu_get_entry_text(q, i)`, called with the result queue for `q`. The
loop is `TAILQ_FOREACH(mi, q, entry)`: it starts at the head of `q` and
steps through the `entry` linkage, which is the linkage of the caller's
queue (`menu_draw` walks `menuq` with it at line 313 and `resultq` with
`resultentry` at line 333). `none` is NULL. -/
def menu_get_entry_text (menuq : List Menu) (q : List Nat) (i : Int) : Option String :=
  match q.head? with
  | none => none
  | some h => menu_get_entry_text_loop i 0 (menuq.drop h)

/-- What `menu_handle_move` leaves behind: the context, the row it redraws
plain with the text it draws there, and the row it fills and draws
highlighted with the text it draws there (`none` in a text is NULL). -/
structure MoveResult where
  mc : menu_ctx
  plain : Option (Int × Option String)
  highlight : Option (Int × Option String)
deriving DecidableEq, Repr

/-- `menu_handle_move`; `mq` is the result queue, `(x, y)` the pointer
position of the event. -/
def menu_handle_move (env : MenuEnv) (mc : menu_ctx) (menuq : List Menu) (mq : List Nat)
    (x y : Int) : MoveResult :=
  let mc1 : menu_ctx := { mc with prev := mc.entry }
  let mc2 : menu_ctx := { mc1 with entry := menu_calc_entry env mc1 x y }
  { mc := mc2,
    plain :=
      if mc2.prev > 0 then some (mc2.prev, menu_get_entry_text menuq mq (mc2.prev - 1))
      else none,
    highlight :=
      if mc2.entry > 0 then some (mc2.entry, menu_get_entry_text menuq mq (mc2.entry - 1))
      else none }

/-- The loop of `menu_handle_release` over the result queue with counter
`i`: the entry at which it breaks, `none` when it runs off the end. -/
def menu_handle_release_loop (entry : Int) : Int → List Nat → Option Nat
  | _, [] => none
  | i, mi :: rest =>
    if entry = i then some mi else menu_handle_release_loop entry (i + 1) rest

/-- `menu_handle_release`. -/
def menu_handle_release (env : MenuEnv) (heap : Menu) (mc : menu_ctx) (resultq : List Nat)
    (x y : Int) : MenuPtr :=
  let entry : Int := menu_calc_entry env mc x y
  let i : Int := if mc.hasprompt then 1 else 0
  match menu_handle_release_loop entry i resultq with
  | some mi => .queued mi
  | none => .fresh { heap with text := "", dummy := true }

/-- The text of the entry a `struct menu *` points to, as it is drawn. -/
def MenuPtr.text (menuq : List Menu) : MenuPtr → String
  | .queued i => entryText (menuq.getD i {})
  | .fresh mi => entryText mi

/-- The state of the event loop of `menu_filter`. -/
structure MenuState where
  mc : menu_ctx
  menuq : List Menu
  resultq : List Nat
deriving DecidableEq, Repr

/-- The events that the loop of `menu_filter` acts on. -/
inductive MenuEvent where
  | KeyPress (key : Option (ctltype × Char))
  | Expose
  | MotionNotify (x y : Int)
deriving DecidableEq, Repr

/-- One turn of the event loop of `menu_filter` (lines 165-189) that does
not leave the loop: `mc.changed` is cleared, a key press that returns NULL
falls through to `menu_draw`. A key press that returns an entry leaves the
state at the point of the `goto out`. -/
def menu_filter_step (env : MenuEnv) (xenv : XEnv) (sc : Screen) (heap : Menu)
    (ev : MenuEvent) (st : MenuState) : MenuState :=
  let mc0 : menu_ctx := { st.mc with changed := false }
  match ev with
  | .KeyPress key =>
    let k : KeyResult := menu_handle_key env heap key mc0 st.menuq st.resultq
    match k.ret with
    | some _ => { mc := k.mc, menuq := k.menuq, resultq := k.resultq }
    | none =>
      let d : DrawResult := menu_draw env xenv sc k.mc k.menuq k.resultq
      { mc := d.mc, menuq := d.menuq, resultq := d.resultq }
  | .Expose =>
    let d : DrawResult := menu_draw env xenv sc mc0 st.menuq st.resultq
    { mc := d.mc, menuq := d.menuq, resultq := d.resultq }
  | .MotionNotify x y =>
    { st with mc := (menu_handle_move env mc0 st.menuq st.resultq x y).mc }

/-- A sequence of events run through the loop, first event first. -/
def runMenu (env : MenuEnv) (xenv : XEnv) (sc : Screen) (heap : Menu) :
    List MenuEvent → MenuState → MenuState
  | [], st => st
  | ev :: evs, st => runMenu env xenv sc heap evs (menu_filter_step env xenv sc heap ev st)

/-- The state in which `menu_filter` enters its event loop (lines 116-146):
the context is zeroed, `list` is set when there is no prompt, the search
string is the initial string, and the result queue is empty. `ptr` is the
pointer position. -/
def menu_filter_init (env : MenuEnv) (menuq : List Menu) (prompt initial : Option String)
    (ptr : Int × Int) : MenuState :=
  let mc0 : menu_ctx := { x := ptr.1, y := ptr.2 }
  let mc1 : menu_ctx :=
    match prompt with
    | none => { mc0 with promptstr := "", list := true }
    | some p =>
      let promptstr : String := ⟨(p.data ++ PROMPT_SCHAR.data).take env.MENU_MAXENTRY⟩
      let dispstr : String :=
        ⟨(promptstr.data ++ mc0.searchstr.data ++ PROMPT_ECHAR.data).take
          (env.MENU_MAXENTRY * 2)⟩
      { mc0 with promptstr := promptstr, dispstr := dispstr,
                 width := env.font_width dispstr, hasprompt := true }
  let mc2 : menu_ctx :=
    match initial with
    | some s => { mc1 with searchstr := strlcpy s env.MENU_MAXENTRY }
    | none => { mc1 with searchstr := "" }
  { mc := { mc2 with entry := -1, prev := -1 }, menuq := menuq, resultq := [] }

/-- A menu environment for concrete evaluations: entries of at most 50
characters, lines 10 high, characters 6 wide, a match callback that keeps
the entries whose text contains the search string, and no print callback. -/
def envMenu : MenuEnv :=
  { MENU_MAXENTRY := 50, font_height := 10,
    font_width := fun s => 6 * (s.length : Int),
    matchfn := fun menuq _ str =>
      (List.range menuq.length).filter
        (fun i => decide (List.IsInfix str.data (menuq.getD i {}).text.data)),
    printfn := none }

/-- The entries alpha, beta, gamma. -/
def menuABG : List Menu := [{ text := "alpha" }, { text := "beta" }, { text := "gamma" }]

/-! ## client_align_adjust (client.c 938-1027) and the resize requests -/

/-- The clients that `TAILQ_FOREACH(scc, &gc->clients, entry)` (line 948)
visits. The loop starts at the first client of the group and steps with the
linkage `entry`, which is the linkage of the global queue `Clientq` (lines
51, 128, 161, 168): every client is on `Clientq` through `entry` from
`client_new` to `client_delete`, so the list of a group is held together by
another linkage, and the step `TAILQ_NEXT(scc, entry)` leads to the client
that follows on `Clientq`. A client is a pair of its address and its record;
`gc` is the list of the group, as addresses, of which only the head is
read. -/
def align_group_walk (Clientq : List (Nat × Client)) (gc : List Nat) : List (Nat × Client) :=
  match gc.head? with
  | none => []
  | some h => Clientq.dropWhile (fun c => c.1 != h)

/-- The body of the inner loop of `client_align_adjust` (lines 949-952) run
over the clients the loop visits; `cc` is the mover. `some r` is the
`return 1` with `*pmoveamt` set to `r`; `none` means the loop ran to its
end. -/
def align_entry_loop (cc : Nat × Client) (movedir : MoveDir) (moveamt : Int) :
    List (Nat × Client) → Option Int
  | [] => none
  | scc :: rest =>
    if cc.1 = scc.1 ∨ scc.2.flags.hidden = true then
      align_entry_loop cc movedir moveamt rest
    else if (client_client_align_adjust scc.2 cc.2 movedir moveamt).1 then
      some (client_client_align_adjust scc.2 cc.2 movedir moveamt).2
    else align_entry_loop cc movedir moveamt rest

/-- The loop over the clients of one group in `client_align_adjust` (lines
948-953). -/
def align_group_loop (Clientq : List (Nat × Client)) (cc : Nat × Client) (movedir : MoveDir)
    (moveamt : Int) (gc : List Nat) : Option Int :=
  align_entry_loop cc movedir moveamt (align_group_walk Clientq gc)

/-- The loop over the groups of the screen in `client_align_adjust` (lines
947-954). -/
def align_groupq_loop (Clientq : List (Nat × Client)) (cc : Nat × Client) (movedir : MoveDir)
    (moveamt : Int) : List (List Nat) → Option Int
  | [] => none
  | gc :: rest =>
    match align_group_loop Clientq cc movedir moveamt gc with
    | some r => some r
    | none => align_groupq_loop Clientq cc movedir moveamt rest

/-- The pseudo-window `fakecc` with the members that
`client_client_align_adjust` reads. -/
def fakecc (x y width height : Int) : Client :=
  { geom := { x := x, y := y, width := width, height := height }, bwidth := 0 }

/-- `client_align_adjust`. `Clientq` is the global queue, `groupq` is
`sc->groupq` with the list of each group as addresses. The result is (return
value is non-zero, `*pmoveamt` afterwards). -/
def client_align_adjust (xenv : XEnv) (sc : Screen) (Clientq : List (Nat × Client))
    (groupq : List (List Nat)) (cc : Nat × Client) (movedir : MoveDir) (moveamt : Int) :
    Bool × Int :=
  match align_groupq_loop Clientq cc movedir moveamt groupq with
  | some r => (true, r)
  | none =>
    -- (top, left, right, bottom)
    let e : Int × Int × Int × Int :=
      match xenv.screen_find_xinerama (cc.2.geom.x + Int.tdiv cc.2.geom.width 2)
          (cc.2.geom.y + Int.tdiv cc.2.geom.height 2) with
      | some xine =>
        (xine.y_org, xine.x_org, xine.x_org + xine.width, xine.y_org + xine.height)
      | none => (0, 0, sc.xmax, sc.ymax)
    let top := e.1
    let left := e.2.1
    let right := e.2.2.1
    let bottom := e.2.2.2
    let try_ (f : Client) : Bool := (client_client_align_adjust f cc.2 movedir moveamt).1
    let amt (f : Client) : Int := (client_client_align_adjust f cc.2 movedir moveamt).2
    -- top side
    if sc.gap.top ≠ 0 ∧ try_ (fakecc left (top + sc.gap.top) (right - left) 0) then
      (true, amt (fakecc left (top + sc.gap.top) (right - left) 0))
    else if try_ (fakecc left top (right - left) 0) then
      (true, amt (fakecc left top (right - left) 0))
    -- bottom side
    else if sc.gap.bottom ≠ 0 ∧ try_ (fakecc left (bottom - sc.gap.bottom) (right - left) 0) then
      (true, amt (fakecc left (bottom - sc.gap.bottom) (right - left) 0))
    else if try_ (fakecc left bottom (right - left) 0) then
      (true, amt (fakecc left bottom (right - left) 0))
    -- left side
    else if sc.gap.left ≠ 0 ∧ try_ (fakecc (left + sc.gap.left) top 0 (bottom - top)) then
      (true, amt (fakecc (left + sc.gap.left) top 0 (bottom - top)))
    else if try_ (fakecc left top 0 (bottom - top)) then
      (true, amt (fakecc left top 0 (bottom - top)))
    -- right side
    else if sc.gap.right ≠ 0 ∧ try_ (fakecc (right - sc.gap.right) top 0 (bottom - top)) then
      (true, amt (fakecc (right - sc.gap.right) top 0 (bottom - top)))
    else if try_ (fakecc right top 0 (bottom - top)) then
      (true, amt (fakecc right top 0 (bottom - top)))
    else (false, moveamt)

/-- The boundary pseudo-windows that `client_align_adjust` tries after the
clients (lines 961-1024), in the order of the tests: top-gap, top,
bottom-gap, bottom, left-gap, left, right-gap, right, a gap variant being
present when that gap is not 0. -/
def align_boundaries (xenv : XEnv) (sc : Screen) (cc : Nat × Client) : List Client :=
  let e : Int × Int × Int × Int :=
    match xenv.screen_find_xinerama (cc.2.geom.x + Int.tdiv cc.2.geom.width 2)
        (cc.2.geom.y + Int.tdiv cc.2.geom.height 2) with
    | some xine =>
      (xine.y_org, xine.x_org, xine.x_org + xine.width, xine.y_org + xine.height)
    | none => (0, 0, sc.xmax, sc.ymax)
  let top := e.1
  let left := e.2.1
  let right := e.2.2.1
  let bottom := e.2.2.2
  (if sc.gap.top ≠ 0 then [fakecc left (top + sc.gap.top) (right - left) 0] else [])
    ++ [fakecc left top (right - left) 0]
    ++ (if sc.gap.bottom ≠ 0 then [fakecc left (bottom - sc.gap.bottom) (right - left) 0]
        else [])
    ++ [fakecc left bottom (right - left) 0]
    ++ (if sc.gap.left ≠ 0 then [fakecc (left + sc.gap.left) top 0 (bottom - top)] else [])
    ++ [fakecc left top 0 (bottom - top)]
    ++ (if sc.gap.right ≠ 0 then [fakecc (right - sc.gap.right) top 0 (bottom - top)] else [])
    ++ [fakecc right top 0 (bottom - top)]

/-- The candidates in the order in which the code of `client_align_adjust`
tries them: for each group in turn the clients from the first client of the
group to the end of `Clientq`, without the mover and the hidden ones, then
the boundary pseudo-windows. -/
def align_scan (xenv : XEnv) (sc : Screen) (Clientq : List (Nat × Client))
    (groupq : List (List Nat)) (cc : Nat × Client) : List Client :=
  (((groupq.map (align_group_walk Clientq)).flatten.filter
      (fun scc => !(decide (cc.1 = scc.1) || scc.2.flags.hidden))).map (fun scc => scc.2))
    ++ align_boundaries xenv sc cc

/-- The clients of a group in the order of its list: each address of the
list with the record it has on `Clientq`. -/
def group_clients (Clientq : List (Nat × Client)) (gc : List Nat) : List (Nat × Client) :=
  gc.filterMap (fun a => Clientq.find? (fun c => c.1 == a))

/-- The candidates of `client_align_adjust` in scan order, as the spec
words it: the siblings that are neither the mover nor hidden, group by
group in list order, then the boundary pseudo-windows top-gap, top,
bottom-gap, bottom, left-gap, left, right-gap, right. -/
def align_candidates (xenv : XEnv) (sc : Screen) (Clientq : List (Nat × Client))
    (groupq : List (List Nat)) (cc : Nat × Client) : List Client :=
  (((groupq.map (group_clients Clientq)).flatten.filter
      (fun scc => !(decide (cc.1 = scc.1) || scc.2.flags.hidden))).map (fun scc => scc.2))
    ++ align_boundaries xenv sc cc

/-- The first-hit policy as the spec words it: the adjustment against the
first candidate that qualifies, and no adjustment when none does. -/
def align_first_hit (cands : List Client) (cc : Client) (movedir : MoveDir)
    (moveamt : Int) : Bool × Int :=
  match cands.find? (fun c => (client_client_align_adjust c cc movedir moveamt).1) with
  | some c => (true, (client_client_align_adjust c cc movedir moveamt).2)
  | none => (false, moveamt)

/-- A request that `client_resize` sends for a client: the border width and
the geometry of `XMoveResizeWindow`. -/
structure ResizeReq where
  bwidth : Int
  geom : Geom
deriving DecidableEq, Repr

/-- `client_resize`, as the request it sends. -/
def client_resize (cc : Client) : ResizeReq := { bwidth := cc.bwidth, geom := cc.geom }

/-- The resize requests of one maximize toggle: the three functions return
before the label `resize` when the Freeze flag is set (lines 283-284,
338-339, 386-387) and reach `client_resize(cc)` on every other path. -/
def MaxOp.requests (env : XEnv) (sc : Screen) (op : MaxOp) (cc : Client) : List ResizeReq :=
  match op with
  | .freeze => []
  | _ => if cc.flags.freeze then [] else [client_resize (op.apply env sc cc)]

/-- A mover 10 wide at x = 0, at address 0; the two siblings are at x = 18
and x = 13. -/
def alignMover : Nat × Client := (0, { geom := ⟨0, 0, 10, 10⟩ })

/-- The farther sibling, at address 1: the gap to the mover is 8. -/
def alignFar : Nat × Client := (1, { geom := ⟨18, 0, 10, 10⟩ })

/-- The nearer sibling, at address 2: the gap to the mover is 3. -/
def alignNear : Nat × Client := (2, { geom := ⟨13, 0, 10, 10⟩ })

/-- A hint record left by an earlier read: maximum 500 by 400, increments
of 7 by 13. -/
def hintStale : Hint :=
  { basew := 4, baseh := 4, minw := 4, minh := 4, maxw := 500, maxh := 400,
    incw := 7, inch := 13, mina := 0, maxa := 0 }

/-- A sequence of key presses handled one after the other by
`menu_handle_key`, none of them leaving the loop. -/
def menu_keys (env : MenuEnv) (heap : Menu) :
    List (Option (ctltype × Char)) → menu_ctx → List Menu → List Nat → KeyResult
  | [], mc, menuq, resultq => { ret := none, mc := mc, menuq := menuq, resultq := resultq }
  | k :: ks, mc, menuq, resultq =>
    menu_keys env heap ks (menu_handle_key env heap k mc menuq resultq).mc
      (menu_handle_key env heap k mc menuq resultq).menuq
      (menu_handle_key env heap k mc menuq resultq).resultq

/-- The key that `menu_keycode` decodes to the move-down control code. -/
def keyDown : Option (ctltype × Char) := some (.CTL_DOWN, Char.ofNat 0)

/-- The key that `menu_keycode` decodes to the move-up control code. -/
def keyUp : Option (ctltype × Char) := some (.CTL_UP, Char.ofNat 0)

/-! ## Theorems -/

/-- The width after the increment and base steps, before clamping. -/
theorem applysizehints_width_cases (fadj : Hint → Int → Int → Int × Int)
    (hint : Hint) (geom : Geom) :
    ∃ w : Int, (client_applysizehints fadj hint geom).width
        = (if hint.maxw ≠ 0 then min (max (w - Int.tmod w hint.incw + hint.basew) hint.minw) hint.maxw
           else max (w - Int.tmod w hint.incw + hint.basew) hint.minw) := by
  unfold client_applysizehints
  simp only []
  split_ifs <;> exact ⟨_, rfl⟩

/-- The height after the increment and base steps, before clamping. -/
theorem applysizehints_height_cases (fadj : Hint → Int → Int → Int × Int)
    (hint : Hint) (geom : Geom) :
    ∃ h : Int, (client_applysizehints fadj hint geom).height
        = (if hint.maxh ≠ 0 then min (max (h - Int.tmod h hint.inch + hint.baseh) hint.minh) hint.maxh
           else max (h - Int.tmod h hint.inch + hint.baseh) hint.minh) := by
  unfold client_applysizehints
  simp only []
  split_ifs <;> exact ⟨_, rfl⟩

/-- Rounding down to a multiple of the increment and restoring the base
leaves a value on the increment grid. -/
theorem grid_tmod (w b i : Int) : Int.tmod (w - Int.tmod w i + b - b) i = 0 := by
  have h := Int.tmod_add_tdiv w i
  have e : w - Int.tmod w i + b - b = i * w.tdiv i := by omega
  rw [e]
  exact Int.mul_tmod_right i (w.tdiv i)

/-- C1 (as stated, refuted): with base 0, minimum 5 and increment 10, a
requested 3 by 3 geometry comes out 5 by 5, and `(5 - 0) % 10` is not 0:
the clamp to the minimum size runs after the increment rounding. -/
theorem C1_counterexample :
    1 ≤ hintMinOffGrid.incw ∧ 1 ≤ hintMinOffGrid.inch ∧
    (client_applysizehints fadjNone hintMinOffGrid ⟨0, 0, 3, 3⟩).width = 5 ∧
    ¬ (Int.tmod ((client_applysizehints fadjNone hintMinOffGrid ⟨0, 0, 3, 3⟩).width
          - hintMinOffGrid.basew) hintMinOffGrid.incw = 0) := by
  decide

/-- C1 (amended): for increments at least 1 and every input geometry, the
width produced by `client_applysizehints` is on the increment grid,
`(width - basew) % incw = 0`, unless it was clamped to `minw` or to a
non-zero `maxw`; likewise the height with `baseh`, `inch`, `minh`, `maxh`.
This holds whatever the aspect step computes. -/
theorem C1_applysizehints_increment (fadj : Hint → Int → Int → Int × Int)
    (hint : Hint) (geom : Geom) (_hw : 1 ≤ hint.incw) (_hh : 1 ≤ hint.inch) :
    (Int.tmod ((client_applysizehints fadj hint geom).width - hint.basew) hint.incw = 0
      ∨ (client_applysizehints fadj hint geom).width = hint.minw
      ∨ (hint.maxw ≠ 0 ∧ (client_applysizehints fadj hint geom).width = hint.maxw))
    ∧
    (Int.tmod ((client_applysizehints fadj hint geom).height - hint.baseh) hint.inch = 0
      ∨ (client_applysizehints fadj hint geom).height = hint.minh
      ∨ (hint.maxh ≠ 0 ∧ (client_applysizehints fadj hint geom).height = hint.maxh)) := by
  constructor
  · obtain ⟨w, hw⟩ := applysizehints_width_cases fadj hint geom
    rw [hw]
    by_cases hm : hint.maxw ≠ 0
    · rw [if_pos hm]
      rcases min_choice (max (w - Int.tmod w hint.incw + hint.basew) hint.minw) hint.maxw
        with h1 | h1
      · rw [h1]
        rcases max_choice (w - Int.tmod w hint.incw + hint.basew) hint.minw with h2 | h2
        · rw [h2]; exact Or.inl (grid_tmod w hint.basew hint.incw)
        · rw [h2]; exact Or.inr (Or.inl rfl)
      · rw [h1]; exact Or.inr (Or.inr ⟨hm, rfl⟩)
    · rw [if_neg hm]
      rcases max_choice (w - Int.tmod w hint.incw + hint.basew) hint.minw with h2 | h2
      · rw [h2]; exact Or.inl (grid_tmod w hint.basew hint.incw)
      · rw [h2]; exact Or.inr (Or.inl rfl)
  · obtain ⟨h, hh⟩ := applysizehints_height_cases fadj hint geom
    rw [hh]
    by_cases hm : hint.maxh ≠ 0
    · rw [if_pos hm]
      rcases min_choice (max (h - Int.tmod h hint.inch + hint.baseh) hint.minh) hint.maxh
        with h1 | h1
      · rw [h1]
        rcases max_choice (h - Int.tmod h hint.inch + hint.baseh) hint.minh with h2 | h2
        · rw [h2]; exact Or.inl (grid_tmod h hint.baseh hint.inch)
        · rw [h2]; exact Or.inr (Or.inl rfl)
      · rw [h1]; exact Or.inr (Or.inr ⟨hm, rfl⟩)
    · rw [if_neg hm]
      rcases max_choice (h - Int.tmod h hint.inch + hint.baseh) hint.minh with h2 | h2
      · rw [h2]; exact Or.inl (grid_tmod h hint.baseh hint.inch)
      · rw [h2]; exact Or.inr (Or.inl rfl)

/-- C1 witness: a terminal-like client (base 4, cells 7 by 13) asked for
200 by 300 gets 200 by 290, both on the increment grid. -/
theorem C1_applysizehints_increment_witness :
    (1 ≤ hintTerm.incw ∧ 1 ≤ hintTerm.inch) ∧
    (client_applysizehints fadjNone hintTerm ⟨0, 0, 200, 300⟩).width = 200 ∧
    (client_applysizehints fadjNone hintTerm ⟨0, 0, 200, 300⟩).height = 290 ∧
    ((Int.tmod ((client_applysizehints fadjNone hintTerm ⟨0, 0, 200, 300⟩).width
          - hintTerm.basew) hintTerm.incw = 0
      ∨ (client_applysizehints fadjNone hintTerm ⟨0, 0, 200, 300⟩).width = hintTerm.minw
      ∨ (hintTerm.maxw ≠ 0 ∧
          (client_applysizehints fadjNone hintTerm ⟨0, 0, 200, 300⟩).width = hintTerm.maxw))
    ∧
    (Int.tmod ((client_applysizehints fadjNone hintTerm ⟨0, 0, 200, 300⟩).height
          - hintTerm.baseh) hintTerm.inch = 0
      ∨ (client_applysizehints fadjNone hintTerm ⟨0, 0, 200, 300⟩).height = hintTerm.minh
      ∨ (hintTerm.maxh ≠ 0 ∧
          (client_applysizehints fadjNone hintTerm ⟨0, 0, 200, 300⟩).height = hintTerm.maxh))) :=
  ⟨by decide, by decide, by decide,
    C1_applysizehints_increment fadjNone hintTerm ⟨0, 0, 200, 300⟩ (by decide) (by decide)⟩

/-- C2 (as stated, refuted): with minimum 10 and maximum 5 a requested width
of 20 comes out as 5, below the minimum: the clamp to a non-zero maximum
runs last and wins. -/
theorem C2_counterexample :
    (client_applysizehints fadjNone hintMaxBelowMin ⟨0, 0, 20, 20⟩).width = 5 ∧
    ¬ (hintMaxBelowMin.minw ≤ (client_applysizehints fadjNone hintMaxBelowMin ⟨0, 0, 20, 20⟩).width
        ∧ (hintMaxBelowMin.maxw = 0 ∨
            (client_applysizehints fadjNone hintMaxBelowMin ⟨0, 0, 20, 20⟩).width
              ≤ hintMaxBelowMin.maxw)) := by
  decide

/-- C2 (amended): for all size hints and every input geometry the produced
width is at most `maxw` whenever `maxw` is not 0, and at least `minw`
whenever `maxw` is 0 (unbounded) or `minw ≤ maxw`; likewise the height. -/
theorem C2_applysizehints_bounds (fadj : Hint → Int → Int → Int × Int)
    (hint : Hint) (geom : Geom) :
    (hint.maxw ≠ 0 → (client_applysizehints fadj hint geom).width ≤ hint.maxw) ∧
    (hint.maxw = 0 ∨ hint.minw ≤ hint.maxw →
      hint.minw ≤ (client_applysizehints fadj hint geom).width) ∧
    (hint.maxh ≠ 0 → (client_applysizehints fadj hint geom).height ≤ hint.maxh) ∧
    (hint.maxh = 0 ∨ hint.minh ≤ hint.maxh →
      hint.minh ≤ (client_applysizehints fadj hint geom).height) := by
  obtain ⟨w, hw⟩ := applysizehints_width_cases fadj hint geom
  obtain ⟨h, hh⟩ := applysizehints_height_cases fadj hint geom
  rw [hw, hh]
  refine ⟨?_, ?_, ?_, ?_⟩
  · intro hm
    rw [if_pos hm]
    exact min_le_right _ _
  · intro hm
    by_cases h0 : hint.maxw ≠ 0
    · rw [if_pos h0]
      rcases hm with hm | hm
      · exact absurd hm h0
      · exact le_min (le_max_right _ _) hm
    · rw [if_neg h0]
      exact le_max_right _ _
  · intro hm
    rw [if_pos hm]
    exact min_le_right _ _
  · intro hm
    by_cases h0 : hint.maxh ≠ 0
    · rw [if_pos h0]
      rcases hm with hm | hm
      · exact absurd hm h0
      · exact le_min (le_max_right _ _) hm
    · rw [if_neg h0]
      exact le_max_right _ _

/-- C2 witness: hints with minimum 4 and no maximum keep a requested 2 by 2
geometry at the minimum 4 by 4. -/
theorem C2_applysizehints_bounds_witness :
    (hintTerm.maxw = 0 ∨ hintTerm.minw ≤ hintTerm.maxw) ∧
    (client_applysizehints fadjNone hintTerm ⟨0, 0, 2, 2⟩).width = 4 ∧
    hintTerm.minw ≤ (client_applysizehints fadjNone hintTerm ⟨0, 0, 2, 2⟩).width :=
  ⟨by decide, by decide,
    (C2_applysizehints_bounds fadjNone hintTerm ⟨0, 0, 2, 2⟩).2.1 (by decide)⟩

/-- C3 (the code at the failing inputs): moving right with amount 10.
With the mover's right edge at -3 and the sibling's left edge at 5 the true
gap is 8, yet the amount is set to 2; with edges at -10 and 12 the true gap
22 exceeds the amount, yet an adjustment to 2 is reported. `DIFF` takes the
absolute values of the two edges before subtracting them. -/
theorem C3_align_adjust_mixed_sign :
    (LEFT siblingAt5 - RIGHT moverOffLeft = 8 ∧
      client_client_align_adjust siblingAt5 moverOffLeft CWM_RIGHT 10 = (true, 2)) ∧
    (LEFT siblingAt12 - RIGHT moverFarLeft = 22 ∧
      client_client_align_adjust siblingAt12 moverFarLeft CWM_RIGHT 10 = (true, 2)) := by
  decide

/-- When the two facing edges are not on opposite sides of coordinate 0, the
right-moving case does what is intended: the amount becomes the gap when
`0 < g < amount`, and nothing changes when `g > amount`. -/
theorem align_adjust_right_same_sign (to_cc cc : Client) (amt : Int)
    (hs : 0 ≤ RIGHT cc ∨ LEFT to_cc ≤ 0) :
    (0 < LEFT to_cc - RIGHT cc → LEFT to_cc - RIGHT cc < amt →
      client_client_align_adjust to_cc cc CWM_RIGHT amt = (true, LEFT to_cc - RIGHT cc)) ∧
    (amt < LEFT to_cc - RIGHT cc →
      client_client_align_adjust to_cc cc CWM_RIGHT amt = (false, amt)) := by
  have hd : RIGHT cc < LEFT to_cc → DIFF (RIGHT cc) (LEFT to_cc) = LEFT to_cc - RIGHT cc := by
    intro hlt
    unfold DIFF c_abs
    split_ifs <;> omega
  constructor
  · intro h0 h1
    have hlt : RIGHT cc < LEFT to_cc := by omega
    simp only [client_client_align_adjust, CWM_RIGHT, hd hlt]
    simp [hlt, h1]
  · intro h1
    by_cases hlt : RIGHT cc < LEFT to_cc
    · simp only [client_client_align_adjust, CWM_RIGHT, hd hlt]
      have : ¬ (LEFT to_cc - RIGHT cc < amt) := by omega
      simp [this]
    · simp [client_client_align_adjust, CWM_RIGHT, hlt]

/-- C4 (the code at the failing input): a 75 by 50 client fits a 100 by 100
screen together with gaps of 10, yet with the pointer at (53, 50) it is
placed at x = 6, inside the left gap: the position is first clamped to the
left gap and then shifted left by the whole right gap. -/
theorem C4_placecalc_left_gap :
    (newClient75.geom.width + 2 * newClient75.bwidth + screenGap10.gap.left
        + screenGap10.gap.right ≤ screenGap10.xmax - 0 ∧
      newClient75.geom.height + 2 * newClient75.bwidth + screenGap10.gap.top
        + screenGap10.gap.bottom ≤ screenGap10.ymax - 0) ∧
    (client_placecalc envPlain screenGap10 {} (53, 50) newClient75).geom = ⟨6, 25, 75, 50⟩ ∧
    ¬ (0 + screenGap10.gap.left ≤
        (client_placecalc envPlain screenGap10 {} (53, 50) newClient75).geom.x) := by
  decide

/-- What `client_placecalc` does guarantee on the x axis, without Xinerama
and with non-negative gaps, for a window that fits together with both gaps:
the right gap is always clear, the left edge is at most `gap.right` short
of the left gap, and the left gap is clear as soon as the spare room is at
least `gap.right`. -/
theorem placecalc_x_bounds (env : XEnv) (sc : Screen) (size : XSizeHints)
    (ptr : Int × Int) (cc : Client)
    (hx : env.HasXinerama = false) (hp : size.position = false)
    (hl : 0 ≤ sc.gap.left) (hr : 0 ≤ sc.gap.right)
    (hfit : cc.geom.width + 2 * cc.bwidth + sc.gap.left + sc.gap.right ≤ sc.xmax) :
    (client_placecalc env sc size ptr cc).geom.x + cc.geom.width + 2 * cc.bwidth
        ≤ sc.xmax - sc.gap.right ∧
    sc.gap.left - sc.gap.right ≤ (client_placecalc env sc size ptr cc).geom.x ∧
    (cc.geom.width + 2 * cc.bwidth + sc.gap.left + 2 * sc.gap.right ≤ sc.xmax →
      sc.gap.left ≤ (client_placecalc env sc size ptr cc).geom.x) := by
  have hslack : sc.xmax - cc.geom.width - cc.bwidth * 2 ≥ 0 := by omega
  have hgx : (client_placecalc env sc size ptr cc).geom.x =
      (if max (min (max (max ptr.1 0 - Int.tdiv cc.geom.width 2) 0)
            (sc.xmax - cc.geom.width - cc.bwidth * 2)) (0 + sc.gap.left)
          > sc.xmax - cc.geom.width - cc.bwidth * 2 - sc.gap.right
        then max (min (max (max ptr.1 0 - Int.tdiv cc.geom.width 2) 0)
            (sc.xmax - cc.geom.width - cc.bwidth * 2)) (0 + sc.gap.left) - sc.gap.right
        else max (min (max (max ptr.1 0 - Int.tdiv cc.geom.width 2) 0)
            (sc.xmax - cc.geom.width - cc.bwidth * 2)) (0 + sc.gap.left)) := by
    simp only [client_placecalc, hx, hp, Bool.false_eq_true, if_false, if_pos hslack]
    split_ifs <;> rfl
  rw [hgx]
  have h1 : 0 + sc.gap.left ≤
      max (min (max (max ptr.1 0 - Int.tdiv cc.geom.width 2) 0)
        (sc.xmax - cc.geom.width - cc.bwidth * 2)) (0 + sc.gap.left) := le_max_right _ _
  have h2 : max (min (max (max ptr.1 0 - Int.tdiv cc.geom.width 2) 0)
        (sc.xmax - cc.geom.width - cc.bwidth * 2)) (0 + sc.gap.left)
      ≤ sc.xmax - cc.geom.width - cc.bwidth * 2 :=
    max_le (min_le_right _ _) (by omega)
  generalize max (min (max (max ptr.1 0 - Int.tdiv cc.geom.width 2) 0)
        (sc.xmax - cc.geom.width - cc.bwidth * 2)) (0 + sc.gap.left) = x0 at h1 h2 ⊢
  clear hgx
  refine ⟨?_, ?_, ?_⟩
  · split_ifs <;> omega
  · split_ifs <;> omega
  · intro h
    split_ifs <;> omega

/-- After maximize, vertmaximize, maximize the client is fully maximized
with the original geometry saved. -/
theorem maximize_vert_maximize (env : XEnv) (sc : Screen) (cc : Client)
    (hf : cc.flags.freeze = false) (hv : cc.flags.vmaximized = false)
    (hh : cc.flags.hmaximized = false) :
    (runMaxOps env sc [.maximize, .vertmaximize, .maximize] cc).flags
        = { cc.flags with vmaximized := true, hmaximized := true } ∧
    (runMaxOps env sc [.maximize, .vertmaximize, .maximize] cc).savegeom = cc.geom ∧
    (runMaxOps env sc [.maximize, .vertmaximize, .maximize] cc).bwidth = 0 := by
  obtain ⟨g, s, b, ⟨hid, ign, fr, vm, hm⟩, grp⟩ := cc
  simp only at hf hv hh
  subst hf hv hh
  simp [runMaxOps, MaxOp.apply, client_maximize, client_vertmaximize]

/-- After maximize and vertmaximize, horizmaximize undoes what is left of the
maximize. -/
theorem maximize_vert_horiz (env : XEnv) (sc : Screen) (cc : Client)
    (hf : cc.flags.freeze = false) (hv : cc.flags.vmaximized = false)
    (hh : cc.flags.hmaximized = false) :
    (runMaxOps env sc [.maximize, .vertmaximize, .horizmaximize] cc).geom = cc.geom ∧
    (runMaxOps env sc [.maximize, .vertmaximize, .horizmaximize] cc).bwidth
        = env.conf_bwidth ∧
    (runMaxOps env sc [.maximize, .vertmaximize, .horizmaximize] cc).flags = cc.flags := by
  obtain ⟨g, s, b, ⟨hid, ign, fr, vm, hm⟩, grp⟩ := cc
  simp only at hf hv hh
  subst hf hv hh
  simp [runMaxOps, MaxOp.apply, client_maximize, client_vertmaximize, client_horizmaximize]

/-- Undoing a full maximize restores the saved geometry and the configured
border width. -/
theorem maximize_undo (env : XEnv) (sc : Screen) (cc : Client)
    (hf : cc.flags.freeze = false) (hv : cc.flags.vmaximized = true)
    (hh : cc.flags.hmaximized = true) :
    client_maximize env sc cc =
      { cc with flags := { cc.flags with vmaximized := false, hmaximized := false },
                geom := cc.savegeom, bwidth := env.conf_bwidth } := by
  simp [client_maximize, hf, hv, hh]

/-- C5 (as stated, refuted): on a 1000 by 800 screen a bordered 300 by 200
client is, after maximize, vertmaximize, maximize, fully maximized again at
1000 by 800 with border 0 rather than back at its original geometry; and a
borderless client taken through the same calls and one more maximize ends
with border width 1, not its original 0. -/
theorem C5_counterexample :
    (runMaxOps envPlain screen1000 [.maximize, .vertmaximize, .maximize] clientBordered).geom
        = ⟨0, 0, 1000, 800⟩ ∧
    ¬ ((runMaxOps envPlain screen1000 [.maximize, .vertmaximize, .maximize] clientBordered).geom
          = clientBordered.geom ∧
       (runMaxOps envPlain screen1000 [.maximize, .vertmaximize, .maximize] clientBordered).bwidth
          = clientBordered.bwidth) ∧
    (runMaxOps envPlain screen1000
        [.maximize, .vertmaximize, .maximize, .maximize] clientBorderless).bwidth
      ≠ clientBorderless.bwidth := by
  decide

/-- C5 (amended): for every non-frozen client with no maximize flag set,
maximize then vertmaximize then maximize leaves it fully maximized with the
original geometry saved (the third call maximizes again, since only the
horizontal flag is then set), and one further maximize restores the original
geometry and flags and sets the border width to the configured one; so does
horizmaximize in place of the third call. -/
theorem C5_maximize_vert_roundtrip (env : XEnv) (sc : Screen) (cc : Client)
    (hf : cc.flags.freeze = false) (hv : cc.flags.vmaximized = false)
    (hh : cc.flags.hmaximized = false) :
    ((runMaxOps env sc [.maximize, .vertmaximize, .maximize] cc).flags.vmaximized = true ∧
     (runMaxOps env sc [.maximize, .vertmaximize, .maximize] cc).flags.hmaximized = true ∧
     (runMaxOps env sc [.maximize, .vertmaximize, .maximize] cc).savegeom = cc.geom) ∧
    (runMaxOps env sc [.maximize, .vertmaximize, .maximize, .maximize] cc).geom = cc.geom ∧
    (runMaxOps env sc [.maximize, .vertmaximize, .maximize, .maximize] cc).bwidth
        = env.conf_bwidth ∧
    (runMaxOps env sc [.maximize, .vertmaximize, .maximize, .maximize] cc).flags = cc.flags ∧
    (runMaxOps env sc [.maximize, .vertmaximize, .horizmaximize] cc).geom = cc.geom ∧
    (runMaxOps env sc [.maximize, .vertmaximize, .horizmaximize] cc).bwidth
        = env.conf_bwidth ∧
    (runMaxOps env sc [.maximize, .vertmaximize, .horizmaximize] cc).flags = cc.flags := by
  have hmvh := maximize_vert_horiz env sc cc hf hv hh
  obtain ⟨h1, h2, _⟩ := maximize_vert_maximize env sc cc hf hv hh
  have e4 : runMaxOps env sc [.maximize, .vertmaximize, .maximize, .maximize] cc
      = client_maximize env sc
          (runMaxOps env sc [.maximize, .vertmaximize, .maximize] cc) := by
    simp [runMaxOps, MaxOp.apply]
  have hf3 : (runMaxOps env sc [.maximize, .vertmaximize, .maximize] cc).flags.freeze = false := by
    rw [h1]; exact hf
  have hv3 : (runMaxOps env sc [.maximize, .vertmaximize, .maximize] cc).flags.vmaximized = true := by
    rw [h1]
  have hh3 : (runMaxOps env sc [.maximize, .vertmaximize, .maximize] cc).flags.hmaximized = true := by
    rw [h1]
  refine ⟨⟨hv3, hh3, h2⟩, ?_, ?_, ?_, hmvh⟩
  · rw [e4, maximize_undo env sc _ hf3 hv3 hh3]
    exact h2
  · rw [e4, maximize_undo env sc _ hf3 hv3 hh3]
  · rw [e4, maximize_undo env sc _ hf3 hv3 hh3, h1]
    obtain ⟨g, s, b, ⟨hid, ign, fr, vm, hm⟩, grp⟩ := cc
    simp only at hv hh
    subst hv hh
    rfl

/-- C5 witness: the bordered client on the 1000 by 800 screen. -/
theorem C5_maximize_vert_roundtrip_witness :
    (clientBordered.flags.freeze = false ∧ clientBordered.flags.vmaximized = false ∧
      clientBordered.flags.hmaximized = false) ∧
    (runMaxOps envPlain screen1000
        [.maximize, .vertmaximize, .maximize, .maximize] clientBordered).geom
      = ⟨10, 20, 300, 200⟩ ∧
    (runMaxOps envPlain screen1000
        [.maximize, .vertmaximize, .maximize, .maximize] clientBordered).bwidth = 1 :=
  ⟨by decide,
    (C5_maximize_vert_roundtrip envPlain screen1000 clientBordered rfl rfl rfl).2.1,
    (C5_maximize_vert_roundtrip envPlain screen1000 clientBordered rfl rfl rfl).2.2.1⟩

/-- C6 (as stated, refuted): a borderless client under configured border
width 1 comes back from each double toggle with border width 1, not 0. -/
theorem C6_counterexample :
    clientBorderless.flags.freeze = false ∧ clientBorderless.flags.vmaximized = false ∧
    clientBorderless.flags.hmaximized = false ∧
    (runMaxOps envPlain screen1000 [.maximize, .maximize] clientBorderless).bwidth = 1 ∧
    (runMaxOps envPlain screen1000 [.vertmaximize, .vertmaximize] clientBorderless).bwidth = 1 ∧
    (runMaxOps envPlain screen1000 [.horizmaximize, .horizmaximize] clientBorderless).bwidth = 1 ∧
    ¬ ((runMaxOps envPlain screen1000 [.maximize, .maximize] clientBorderless).bwidth
        = clientBorderless.bwidth) := by
  decide

/-- C6 (amended): for every non-frozen client with no maximize flag set,
applying any one of maximize, vertmaximize, horizmaximize twice in
succession restores the original geometry and the original flags and leaves
the border width at the configured `Conf.bwidth`. -/
theorem C6_toggle_twice (env : XEnv) (sc : Screen) (cc : Client) (op : MaxOp)
    (hop : op ≠ MaxOp.freeze)
    (hf : cc.flags.freeze = false) (hv : cc.flags.vmaximized = false)
    (hh : cc.flags.hmaximized = false) :
    (runMaxOps env sc [op, op] cc).geom = cc.geom ∧
    (runMaxOps env sc [op, op] cc).bwidth = env.conf_bwidth ∧
    (runMaxOps env sc [op, op] cc).flags = cc.flags := by
  obtain ⟨g, s, b, ⟨hid, ign, fr, vm, hm⟩, grp⟩ := cc
  simp only at hf hv hh
  subst hf hv hh
  cases op with
  | maximize => simp [runMaxOps, MaxOp.apply, client_maximize]
  | vertmaximize => simp [runMaxOps, MaxOp.apply, client_vertmaximize]
  | horizmaximize => simp [runMaxOps, MaxOp.apply, client_horizmaximize]
  | freeze => exact absurd rfl hop

/-- C6 witness: vertmaximize twice on the bordered client. -/
theorem C6_toggle_twice_witness :
    (MaxOp.vertmaximize ≠ MaxOp.freeze ∧ clientBordered.flags.freeze = false ∧
      clientBordered.flags.vmaximized = false ∧ clientBordered.flags.hmaximized = false) ∧
    (runMaxOps envPlain screen1000 [.vertmaximize, .vertmaximize] clientBordered).geom
      = ⟨10, 20, 300, 200⟩ ∧
    (runMaxOps envPlain screen1000 [.vertmaximize, .vertmaximize] clientBordered).bwidth
      = clientBordered.bwidth :=
  ⟨by decide,
    (C6_toggle_twice envPlain screen1000 clientBordered .vertmaximize (by decide)
      rfl rfl rfl).1,
    (C6_toggle_twice envPlain screen1000 clientBordered .vertmaximize (by decide)
      rfl rfl rfl).2.1⟩

/-- C7 (the code at the failing input): for a borderless client under
configured border width 1 on a 1000 by 800 screen without Xinerama,
vertmaximize then horizmaximize gives the same client as maximize, but
horizmaximize then vertmaximize gives width 1002 where maximize gives 1000:
`client_vertmaximize` widens by `Conf.bwidth * 2` where its sibling
`client_horizmaximize` uses `cc->bwidth * 2`. -/
theorem C7_horiz_then_vert_width :
    (clientBorderless.flags.freeze = false ∧ clientBorderless.flags.vmaximized = false ∧
      clientBorderless.flags.hmaximized = false) ∧
    (client_maximize envPlain screen1000 clientBorderless).geom = ⟨0, 0, 1000, 800⟩ ∧
    runMaxOps envPlain screen1000 [.vertmaximize, .horizmaximize] clientBorderless
      = client_maximize envPlain screen1000 clientBorderless ∧
    (runMaxOps envPlain screen1000 [.horizmaximize, .vertmaximize] clientBorderless).geom
      = ⟨0, 0, 1002, 800⟩ ∧
    (runMaxOps envPlain screen1000 [.horizmaximize, .vertmaximize] clientBorderless).geom
      ≠ (client_maximize envPlain screen1000 clientBorderless).geom := by
  decide

/-- Without Xinerama, and for a client whose border width is the configured
one, toggling one axis then the other gives exactly the client that a single
maximize gives, in either order. -/
theorem axes_compose_configured_border (env : XEnv) (sc : Screen) (cc : Client)
    (hx : env.HasXinerama = false) (hb : cc.bwidth = env.conf_bwidth)
    (hf : cc.flags.freeze = false) (hv : cc.flags.vmaximized = false)
    (hh : cc.flags.hmaximized = false) :
    runMaxOps env sc [.vertmaximize, .horizmaximize] cc = client_maximize env sc cc ∧
    runMaxOps env sc [.horizmaximize, .vertmaximize] cc = client_maximize env sc cc := by
  obtain ⟨g, s, b, ⟨hid, ign, fr, vm, hm⟩, grp⟩ := cc
  simp only at hb hf hv hh
  subst hb hf hv hh
  obtain ⟨gx, gy, gw, gh⟩ := g
  constructor
  · simp [runMaxOps, MaxOp.apply, client_maximize, client_vertmaximize,
      client_horizmaximize, hx]
    omega
  · simp [runMaxOps, MaxOp.apply, client_maximize, client_vertmaximize,
      client_horizmaximize, hx]
    omega

/-- The border-width invariant of the maximize toggles, relative to the
border width `b0` the client started with. -/
theorem border_invariant_step (env : XEnv) (sc : Screen) (b0 : Int) (op : MaxOp)
    (cc : Client)
    (h : (cc.flags.vmaximized = true ∧ cc.flags.hmaximized = true → cc.bwidth = 0) ∧
         (¬ (cc.flags.vmaximized = true ∧ cc.flags.hmaximized = true) →
            cc.bwidth = b0 ∨ cc.bwidth = env.conf_bwidth)) :
    ((op.apply env sc cc).flags.vmaximized = true ∧
        (op.apply env sc cc).flags.hmaximized = true → (op.apply env sc cc).bwidth = 0) ∧
    (¬ ((op.apply env sc cc).flags.vmaximized = true ∧
        (op.apply env sc cc).flags.hmaximized = true) →
      (op.apply env sc cc).bwidth = b0 ∨ (op.apply env sc cc).bwidth = env.conf_bwidth) := by
  obtain ⟨g, s, b, ⟨hid, ign, fr, vm, hm⟩, grp⟩ := cc
  simp only at h
  cases op <;> cases fr <;> cases vm <;> cases hm <;>
    simp_all [MaxOp.apply, client_maximize, client_vertmaximize, client_horizmaximize,
      client_freeze]

/-- The border-width invariant along a whole command sequence. -/
theorem border_invariant_run (env : XEnv) (sc : Screen) (b0 : Int) (ops : List MaxOp) :
    ∀ cc : Client,
      ((cc.flags.vmaximized = true ∧ cc.flags.hmaximized = true → cc.bwidth = 0) ∧
       (¬ (cc.flags.vmaximized = true ∧ cc.flags.hmaximized = true) →
          cc.bwidth = b0 ∨ cc.bwidth = env.conf_bwidth)) →
      (((runMaxOps env sc ops cc).flags.vmaximized = true ∧
          (runMaxOps env sc ops cc).flags.hmaximized = true →
            (runMaxOps env sc ops cc).bwidth = 0) ∧
       (¬ ((runMaxOps env sc ops cc).flags.vmaximized = true ∧
          (runMaxOps env sc ops cc).flags.hmaximized = true) →
            (runMaxOps env sc ops cc).bwidth = b0 ∨
            (runMaxOps env sc ops cc).bwidth = env.conf_bwidth)) := by
  induction ops with
  | nil => intro cc h; exact h
  | cons op ops ih =>
    intro cc h
    exact ih (op.apply env sc cc) (border_invariant_step env sc b0 op cc h)

/-- C8 (as stated, refuted): a borderless client (border width 0 before any
maximize) under configured border width 1 has, after maximize and maximize
again, no maximize flag set and border width 1. -/
theorem C8_counterexample :
    clientBorderless.flags.vmaximized = false ∧ clientBorderless.flags.hmaximized = false ∧
    ¬ ((runMaxOps envPlain screen1000 [.maximize, .maximize] clientBorderless).flags.vmaximized
          = true ∧
       (runMaxOps envPlain screen1000 [.maximize, .maximize] clientBorderless).flags.hmaximized
          = true) ∧
    (runMaxOps envPlain screen1000 [.maximize, .maximize] clientBorderless).bwidth
      ≠ clientBorderless.bwidth := by
  decide

/-- C8 (amended): in every state reached from a client with no maximize flag
set by any sequence of maximize, vertmaximize, horizmaximize and freeze, the
border width is 0 whenever both maximize flags are set, and whenever they
are not both set it is the border width the client started with or the
configured `Conf.bwidth`. -/
theorem C8_border_invariant (env : XEnv) (sc : Screen) (ops : List MaxOp) (cc : Client)
    (hv : cc.flags.vmaximized = false) (_hh : cc.flags.hmaximized = false) :
    ((runMaxOps env sc ops cc).flags.vmaximized = true ∧
        (runMaxOps env sc ops cc).flags.hmaximized = true →
          (runMaxOps env sc ops cc).bwidth = 0) ∧
    (¬ ((runMaxOps env sc ops cc).flags.vmaximized = true ∧
        (runMaxOps env sc ops cc).flags.hmaximized = true) →
          (runMaxOps env sc ops cc).bwidth = cc.bwidth ∨
          (runMaxOps env sc ops cc).bwidth = env.conf_bwidth) := by
  apply border_invariant_run env sc cc.bwidth ops cc
  constructor
  · intro h
    rw [hv] at h
    exact absurd h.1 (by decide)
  · intro _
    exact Or.inl rfl

/-- C8 witness: the bordered client after vertmaximize, freeze, maximize
(ignored while frozen), freeze, horizmaximize is fully maximized with border
width 0. -/
theorem C8_border_invariant_witness :
    (clientBordered.flags.vmaximized = false ∧ clientBordered.flags.hmaximized = false) ∧
    ((runMaxOps envPlain screen1000
        [.vertmaximize, .freeze, .maximize, .freeze, .horizmaximize]
        clientBordered).flags.vmaximized = true ∧
     (runMaxOps envPlain screen1000
        [.vertmaximize, .freeze, .maximize, .freeze, .horizmaximize]
        clientBordered).flags.hmaximized = true) ∧
    (runMaxOps envPlain screen1000
        [.vertmaximize, .freeze, .maximize, .freeze, .horizmaximize]
        clientBordered).bwidth = 0 :=
  ⟨by decide, by decide,
    (C8_border_invariant envPlain screen1000
      [.vertmaximize, .freeze, .maximize, .freeze, .horizmaximize]
      clientBordered rfl rfl).1 (by decide)⟩

/-- Reduction modulo `n` of a number below `2 * n`. -/
theorem mod_wrap (a n : Nat) (h : a < 2 * n) : a % n = if a < n then a else a - n := by
  split_ifs with h1
  · exact Nat.mod_eq_of_lt h1
  · rw [Nat.mod_eq_sub_mod (by omega)]
    exact Nat.mod_eq_of_lt (by omega)

/-- Zero steps from the start is the start. -/
theorem walkPos_zero (n start : Nat) (rc : Bool) (hs : start < n) :
    walkPos n start rc 0 = start := by
  unfold walkPos
  cases rc
  · simp [Nat.mod_eq_of_lt hs]
  · simp [Nat.mod_eq_of_lt hs]

/-- One call of `client_mrunext` (`client_mruprev` for reverse cycling) is
one more step of the walk. -/
theorem walkPos_step (mruq : List Client) (start k : Nat) (rc : Bool)
    (hs : start < mruq.length) (hk : k < mruq.length) :
    (if rc then client_mruprev mruq (walkPos mruq.length start rc k)
      else client_mrunext mruq (walkPos mruq.length start rc k))
      = walkPos mruq.length start rc (k + 1) := by
  cases rc
  · simp only [walkPos, client_mrunext, Bool.false_eq_true, if_false]
    rw [mod_wrap (start + k) _ (by omega), mod_wrap (start + (k + 1)) _ (by omega)]
    split_ifs <;> omega
  · simp only [walkPos, client_mruprev, if_true]
    rw [mod_wrap (start + mruq.length - k) _ (by omega),
      mod_wrap (start + mruq.length - (k + 1)) _ (by omega)]
    split_ifs <;> omega

/-- The walk is back at the start exactly after `n` steps. -/
theorem walkPos_eq_start (n start k : Nat) (rc : Bool) (hs : start < n)
    (h1 : 1 ≤ k) (hk : k ≤ n) : walkPos n start rc k = start ↔ k = n := by
  cases rc
  · simp only [walkPos, Bool.false_eq_true, if_false]
    rw [mod_wrap (start + k) _ (by omega)]
    split_ifs <;> omega
  · simp only [walkPos, if_true]
    rw [mod_wrap (start + n - k) _ (by omega)]
    split_ifs <;> omega

/-- The loop of `client_cycle`, entered `k` steps into the walk with the
remaining `n - k` steps as fuel, returns the first candidate that counts
among the remaining ones. -/
theorem client_cycle_loop_eq (mruq : List Client) (flags : CycleFlags) (start : Nat)
    (hs : start < mruq.length) :
    ∀ fuel k : Nat, k + (fuel + 1) = mruq.length →
      client_cycle_loop mruq flags start (fuel + 1) (walkPos mruq.length start flags.rcycle k)
        = some (((List.range' (k + 1) (fuel + 1)).map
            (walkPos mruq.length start flags.rcycle)).find? (eligible mruq flags start)) := by
  intro fuel
  induction fuel with
  | zero =>
    intro k hk
    have hstep := walkPos_step mruq start k flags.rcycle hs (by omega)
    have hback : walkPos mruq.length start flags.rcycle (k + 1) = start :=
      (walkPos_eq_start _ start (k + 1) flags.rcycle hs (by omega) (by omega)).2 (by omega)
    simp only [client_cycle_loop, hstep, hback, List.range'_succ, List.range'_zero,
      List.map_cons, List.map_nil, List.find?_cons, List.find?_nil, eligible]
    cases h1 : (clientAt mruq start).flags.hidden <;>
      cases h2 : (clientAt mruq start).flags.ignore <;>
      cases h3 : flags.ingroup <;> simp
  | succ fuel ih =>
    intro k hk
    have hstep := walkPos_step mruq start k flags.rcycle hs (by omega)
    have hne : walkPos mruq.length start flags.rcycle (k + 1) ≠ start := by
      intro h
      have := (walkPos_eq_start _ start (k + 1) flags.rcycle hs (by omega) (by omega)).1 h
      omega
    have ih1 := ih (k + 1) (by omega)
    rw [client_cycle_loop]
    simp only [hstep, hne, if_false]
    rw [List.range'_succ, List.map_cons, List.find?_cons, ih1]
    simp only [eligible]
    cases h1 : (clientAt mruq (walkPos mruq.length start flags.rcycle (k + 1))).flags.hidden <;>
      cases h2 : (clientAt mruq (walkPos mruq.length start flags.rcycle (k + 1))).flags.ignore <;>
      cases h3 : flags.ingroup <;> simp
    by_cases hg : (clientAt mruq (walkPos mruq.length start flags.rcycle (k + 1))).group
        = (clientAt mruq start).group
    · simp [hg]
    · simp [hg]

/-- On a non-empty queue holding the start client, `client_cycle` returns,
and what it leaves behind is determined by the first candidate that counts. -/
theorem client_cycle_eq (sc : Screen) (cur : Option Nat) (flags : CycleFlags)
    (hne : sc.mruq ≠ []) (hs : cycle_start sc cur flags < sc.mruq.length) :
    client_cycle sc cur flags = some
      (match cycle_spec sc.mruq flags (cycle_start sc cur flags) with
       | none => { sc := sc, ptrsave := none, ptrwarp := none }
       | some newcc =>
         { sc := { sc with altpersist := true },
           ptrsave := some (cycle_start sc cur flags), ptrwarp := some newcc }) := by
  have hlen : sc.mruq.length - 1 + 1 = sc.mruq.length := by omega
  have hloop := client_cycle_loop_eq sc.mruq flags (cycle_start sc cur flags) hs
    (sc.mruq.length - 1) 0 (by omega)
  rw [walkPos_zero _ _ _ hs, hlen] at hloop
  have hemp : sc.mruq.isEmpty = false := by
    cases hq : sc.mruq with
    | nil => exact absurd hq hne
    | cons a l => rfl
  unfold client_cycle
  rw [hemp]
  simp only [Bool.false_eq_true, if_false]
  change (match client_cycle_loop sc.mruq flags (cycle_start sc cur flags) sc.mruq.length
      (cycle_start sc cur flags) with
    | none => (none : Option CycleResult)
    | some none => some { sc := sc, ptrsave := none, ptrwarp := none }
    | some (some newcc) =>
      some { sc := { sc with altpersist := true },
             ptrsave := some (cycle_start sc cur flags), ptrwarp := some newcc }) = _
  rw [hloop]
  unfold cycle_spec cycle_candidates
  cases List.find? (eligible sc.mruq flags (cycle_start sc cur flags))
      (List.map (walkPos sc.mruq.length (cycle_start sc cur flags) flags.rcycle)
        (List.range' (0 + 1) sc.mruq.length)) <;> rfl

/-- C9: for every MRU queue that holds the start (current) client,
`client_cycle` returns and the client it selects (warps the pointer to) is
the first one after the start in cyclic MRU order, before it for reverse
cycling, that has neither the Hidden nor the Ignore flag and, for in-group
cycling, is in the start client's group. -/
theorem C9_client_cycle_first (sc : Screen) (flags : CycleFlags) (start : Nat)
    (hs : start < sc.mruq.length) :
    ∃ r : CycleResult, client_cycle sc (some start) flags = some r ∧
      r.ptrwarp = cycle_spec sc.mruq flags start := by
  have hne : sc.mruq ≠ [] := by
    intro h
    rw [h] at hs
    exact absurd hs (by simp)
  have h := client_cycle_eq sc (some start) flags hne hs
  refine ⟨_, h, ?_⟩
  change (match cycle_spec sc.mruq flags start with
    | none => ({ sc := sc, ptrsave := none, ptrwarp := none } : CycleResult)
    | some newcc =>
      { sc := { sc with altpersist := true },
        ptrsave := some start, ptrwarp := some newcc }).ptrwarp = _
  cases cycle_spec sc.mruq flags start <;> rfl

/-- C9 witness: in the queue A, B, C with nothing hidden, forward cycling
from A selects B, from B selects C, from C selects A; with B hidden,
forward cycling from A selects C. -/
theorem C9_client_cycle_first_witness :
    (0 < mruABC.mruq.length ∧
      ∃ r : CycleResult, client_cycle mruABC (some 0) {} = some r ∧
        r.ptrwarp = cycle_spec mruABC.mruq {} 0) ∧
    (client_cycle mruABC (some 0) {}).map (fun r => r.ptrwarp) = some (some 1) ∧
    (client_cycle mruABC (some 1) {}).map (fun r => r.ptrwarp) = some (some 2) ∧
    (client_cycle mruABC (some 2) {}).map (fun r => r.ptrwarp) = some (some 0) ∧
    (client_cycle mruAhiddenBC (some 0) {}).map (fun r => r.ptrwarp) = some (some 2) :=
  ⟨⟨by decide, C9_client_cycle_first mruABC {} 0 (by decide)⟩,
    by decide, by decide, by decide, by decide⟩

/-- C10: `client_cycle` returns, and it selects no client exactly when the
MRU queue is empty or every candidate of the wrapping walk, up to and
including the start client, is hidden, ignored or (for in-group cycling)
outside the start client's group. When it selects none the screen, with its
alt-persist flag, is unchanged and no pointer is saved or warped; otherwise
alt-persist is set and the pointer of the start client is saved. -/
theorem C10_client_cycle_none (sc : Screen) (cur : Option Nat) (flags : CycleFlags)
    (hcur : ∀ cc : Nat, cur = some cc → cc < sc.mruq.length) :
    ∃ r : CycleResult, client_cycle sc cur flags = some r ∧
      (r.ptrwarp = none ↔
        (sc.mruq = [] ∨
          ∀ j ∈ cycle_candidates sc.mruq.length (cycle_start sc cur flags) flags.rcycle,
            eligible sc.mruq flags (cycle_start sc cur flags) j = false)) ∧
      (r.ptrwarp = none → r.sc = sc ∧ r.ptrsave = none) ∧
      (r.ptrwarp ≠ none →
        r.sc = { sc with altpersist := true } ∧
        r.ptrsave = some (cycle_start sc cur flags)) := by
  by_cases hne : sc.mruq = []
  · refine ⟨{ sc := sc, ptrsave := none, ptrwarp := none }, ?_, ?_, ?_, ?_⟩
    · simp [client_cycle, hne]
    · exact ⟨fun _ => Or.inl hne, fun _ => rfl⟩
    · intro _; exact ⟨rfl, rfl⟩
    · intro h; exact absurd rfl h
  · have hpos : 0 < sc.mruq.length := List.length_pos.2 hne
    have hs : cycle_start sc cur flags < sc.mruq.length := by
      unfold cycle_start
      cases cur with
      | some cc => exact hcur cc rfl
      | none =>
        simp only
        split_ifs <;> omega
    have h := client_cycle_eq sc cur flags hne hs
    refine ⟨_, h, ?_⟩
    cases hspec : cycle_spec sc.mruq flags (cycle_start sc cur flags) with
    | none =>
      simp only
      refine ⟨⟨fun _ => Or.inr ?_, fun _ => trivial⟩, fun _ => ⟨trivial, trivial⟩,
        fun h => absurd rfl h⟩
      intro j hj
      have := List.find?_eq_none.1 hspec j hj
      simpa using this
    | some newcc =>
      simp only
      refine ⟨⟨fun h => absurd h (by simp), ?_⟩, fun h => absurd h (by simp),
        fun _ => ⟨trivial, trivial⟩⟩
      intro h
      rcases h with h | h
      · exact absurd h hne
      · have hmem := List.mem_of_find?_eq_some hspec
        have hel := List.find?_some hspec
        rw [h newcc hmem] at hel
        exact absurd hel (by simp)

/-- C10 witness: a queue whose two clients are hidden and ignored. -/
theorem C10_client_cycle_none_witness :
    (∀ cc : Nat, some 0 = some cc → cc < mruNoneVisible.mruq.length) ∧
    client_cycle mruNoneVisible (some 0) {}
      = some { sc := mruNoneVisible, ptrsave := none, ptrwarp := none } ∧
    client_cycle { xmax := 1000, ymax := 800 } none {}
      = some { sc := { xmax := 1000, ymax := 800 }, ptrsave := none, ptrwarp := none } ∧
    ∃ r : CycleResult, client_cycle mruNoneVisible (some 0) {} = some r ∧
      (r.ptrwarp = none ↔
        (mruNoneVisible.mruq = [] ∨
          ∀ j ∈ cycle_candidates mruNoneVisible.mruq.length
              (cycle_start mruNoneVisible (some 0) {}) false,
            eligible mruNoneVisible.mruq {} (cycle_start mruNoneVisible (some 0) {}) j
              = false)) ∧
      (r.ptrwarp = none → r.sc = mruNoneVisible ∧ r.ptrsave = none) ∧
      (r.ptrwarp ≠ none →
        r.sc = { mruNoneVisible with altpersist := true } ∧
        r.ptrsave = some (cycle_start mruNoneVisible (some 0) {})) :=
  ⟨by intro cc h; cases h; decide, by decide, by decide,
    C10_client_cycle_none mruNoneVisible (some 0) {}
      (by intro cc h; cases h; decide)⟩

/-- Before the garbage collection the queue is the old one with the fetched
name taken out, followed by the fetched name; the counter grows by one
exactly when the name was not in the queue. -/
theorem setname_cases (cap : Int) (net wm : Option String) (cc : ClientName) :
    client_setname cap net wm cc =
      (if (if fetched_name net wm ∈ cc.nameq then cc.nameqlen else cc.nameqlen + 1) > cap then
        { nameq := (cc.nameq.erase (fetched_name net wm) ++ [fetched_name net wm]).tail,
          nameqlen := (if fetched_name net wm ∈ cc.nameq then cc.nameqlen
                        else cc.nameqlen + 1) - 1,
          name := fetched_name net wm }
      else
        { nameq := cc.nameq.erase (fetched_name net wm) ++ [fetched_name net wm],
          nameqlen := (if fetched_name net wm ∈ cc.nameq then cc.nameqlen
                        else cc.nameqlen + 1),
          name := fetched_name net wm }) := by
  unfold client_setname
  by_cases h : fetched_name net wm ∈ cc.nameq
  · simp [h]
  · simp [h, List.erase_of_not_mem h]

/-- The length of the queue with one name taken out. -/
theorem length_erase_int (q : List String) (x : String) :
    ((q.erase x).length : Int) = if x ∈ q then (q.length : Int) - 1 else q.length := by
  by_cases h : x ∈ q
  · have h1 := List.length_erase_of_mem h
    have h2 : 0 < q.length := List.length_pos_of_mem h
    rw [if_pos h]
    omega
  · rw [if_neg h, List.erase_of_not_mem h]

/-- C11: for every duplicate-free name history whose counter is its length
and every fetched name X (with a cap of at least 1), after `client_setname`
the history is `rest ++ [X]` with X not in `rest` (X occurs exactly once, at
the tail), `rest` is a sublist of the old history (the other retained names
keep their relative order), and the current name is X. -/
theorem C11_setname_most_recent (cap : Int) (net wm : Option String) (cc : ClientName)
    (hcap : 1 ≤ cap) (hnd : cc.nameq.Nodup) (hlen : cc.nameqlen = cc.nameq.length) :
    ∃ rest : List String,
      (client_setname cap net wm cc).nameq = rest ++ [fetched_name net wm] ∧
      fetched_name net wm ∉ rest ∧
      rest.Sublist cc.nameq ∧
      (client_setname cap net wm cc).nameq.count (fetched_name net wm) = 1 ∧
      (client_setname cap net wm cc).name = fetched_name net wm := by
  have hx : fetched_name net wm ∉ cc.nameq.erase (fetched_name net wm) := by
    intro h
    exact ((List.Nodup.mem_erase_iff hnd).1 h).1 rfl
  have hle := length_erase_int cc.nameq (fetched_name net wm)
  rw [setname_cases]
  by_cases hgc : (if fetched_name net wm ∈ cc.nameq then cc.nameqlen
      else cc.nameqlen + 1) > cap
  · rw [if_pos hgc]
    have hne : cc.nameq.erase (fetched_name net wm) ≠ [] := by
      intro h
      rw [h] at hle
      simp only [List.length_nil, Nat.cast_zero] at hle
      split_ifs at hgc hle <;> omega
    have hx2 : fetched_name net wm ∉ (cc.nameq.erase (fetched_name net wm)).tail :=
      fun h => hx (List.mem_of_mem_tail h)
    refine ⟨(cc.nameq.erase (fetched_name net wm)).tail, ?_, hx2, ?_, ?_, rfl⟩
    · exact List.tail_append_of_ne_nil hne
    · exact (List.tail_sublist _).trans (List.erase_sublist _ _)
    · simp only [List.tail_append_of_ne_nil hne]
      rw [List.count_append, List.count_eq_zero_of_not_mem hx2]
      simp
  · rw [if_neg hgc]
    refine ⟨cc.nameq.erase (fetched_name net wm), rfl, hx, List.erase_sublist _ _, ?_, rfl⟩
    simp only
    rw [List.count_append, List.count_eq_zero_of_not_mem hx]
    simp

/-- C11 witness: from the empty history, pushing X, then Y, then X again
yields the history Y, X with current name X. -/
theorem C11_setname_most_recent_witness :
    (1 ≤ (5 : Int) ∧
      (runSetname 5 ["X", "Y"] {}).nameq.Nodup ∧
      (runSetname 5 ["X", "Y"] {}).nameqlen = (runSetname 5 ["X", "Y"] {}).nameq.length) ∧
    runSetname 5 ["X", "Y", "X"] {} = { nameq := ["Y", "X"], nameqlen := 2, name := "X" } ∧
    ∃ rest : List String,
      (client_setname 5 (some "X") none (runSetname 5 ["X", "Y"] {})).nameq
        = rest ++ [fetched_name (some "X") none] ∧
      fetched_name (some "X") none ∉ rest ∧
      rest.Sublist (runSetname 5 ["X", "Y"] {}).nameq ∧
      (client_setname 5 (some "X") none (runSetname 5 ["X", "Y"] {})).nameq.count
        (fetched_name (some "X") none) = 1 ∧
      (client_setname 5 (some "X") none (runSetname 5 ["X", "Y"] {})).name
        = fetched_name (some "X") none :=
  ⟨by decide, by decide,
    C11_setname_most_recent 5 (some "X") none (runSetname 5 ["X", "Y"] {})
      (by decide) (by decide) (by decide)⟩

/-- One `client_setname` keeps the counter equal to the length of the queue
and at most the cap. -/
theorem setname_invariant (cap : Int) (net wm : Option String) (cc : ClientName)
    (hlen : cc.nameqlen = cc.nameq.length) (hle : cc.nameqlen ≤ cap) :
    (client_setname cap net wm cc).nameqlen = (client_setname cap net wm cc).nameq.length ∧
    (client_setname cap net wm cc).nameqlen ≤ cap := by
  have he := length_erase_int cc.nameq (fetched_name net wm)
  rw [setname_cases]
  by_cases hgc : (if fetched_name net wm ∈ cc.nameq then cc.nameqlen
      else cc.nameqlen + 1) > cap
  · rw [if_pos hgc]
    simp only [List.length_tail, List.length_append, List.length_singleton]
    have h1 : (((cc.nameq.erase (fetched_name net wm)).length + 1 - 1 : Nat) : Int)
        = (cc.nameq.erase (fetched_name net wm)).length := by
      simp
    rw [h1]
    split_ifs at hgc he ⊢ <;> omega
  · rw [if_neg hgc]
    simp only [List.length_append, List.length_singleton, Nat.cast_add, Nat.cast_one]
    split_ifs at hgc he ⊢ <;> omega

/-- The counter invariant along a sequence of name changes. -/
theorem runSetname_invariant (cap : Int) (names : List String) :
    ∀ cc : ClientName, cc.nameqlen = cc.nameq.length → cc.nameqlen ≤ cap →
      (runSetname cap names cc).nameqlen = (runSetname cap names cc).nameq.length ∧
      (runSetname cap names cc).nameqlen ≤ cap := by
  induction names with
  | nil => intro cc h1 h2; exact ⟨h1, h2⟩
  | cons n ns ih =>
    intro cc h1 h2
    obtain ⟨h3, h4⟩ := setname_invariant cap (some n) none cc h1 h2
    exact ih _ h3 h4

/-- C12: with a cap of at least 1 and starting from the empty history, after
every sequence of `client_setname` calls the counter `nameqlen` is the
number of history entries and at most the cap; in a state where the counter
is the length, pushing a name that is not in a full history drops exactly
the head and keeps the others in order, and pushing a name that is in the
history (counter within the cap) leaves the length unchanged. -/
theorem C12_nameqlen_invariant (cap : Int) (hcap : 1 ≤ cap) :
    (∀ names : List String,
      (runSetname cap names {}).nameqlen = (runSetname cap names {}).nameq.length ∧
      (runSetname cap names {}).nameqlen ≤ cap) ∧
    (∀ (net wm : Option String) (cc : ClientName),
      cc.nameqlen = cc.nameq.length → cc.nameqlen = cap →
      fetched_name net wm ∉ cc.nameq →
        (client_setname cap net wm cc).nameq = cc.nameq.tail ++ [fetched_name net wm]) ∧
    (∀ (net wm : Option String) (cc : ClientName),
      cc.nameqlen = cc.nameq.length → cc.nameqlen ≤ cap →
      fetched_name net wm ∈ cc.nameq →
        (client_setname cap net wm cc).nameq.length = cc.nameq.length) := by
  refine ⟨?_, ?_, ?_⟩
  · intro names
    exact runSetname_invariant cap names {} (by simp) (by simp; omega)
  · intro net wm cc hlen hfull hx
    rw [setname_cases, if_neg hx, List.erase_of_not_mem hx, if_pos (by omega)]
    have hne : cc.nameq ≠ [] := by
      intro h
      rw [h] at hlen
      simp only [List.length_nil, Nat.cast_zero] at hlen
      omega
    exact List.tail_append_of_ne_nil hne
  · intro net wm cc hlen hle hx
    rw [setname_cases, if_pos hx, if_neg (by omega)]
    have h1 := List.length_erase_of_mem hx
    have h2 : 0 < cc.nameq.length := List.length_pos_of_mem hx
    simp only [List.length_append, List.length_singleton]
    omega

/-- C12 witness: with cap 2, pushing a, b, c from the empty history leaves
b, c with counter 2. -/
theorem C12_nameqlen_invariant_witness :
    1 ≤ (2 : Int) ∧
    runSetname 2 ["a", "b", "c"] {} = { nameq := ["b", "c"], nameqlen := 2, name := "c" } ∧
    ((runSetname 2 ["a", "b", "c"] {}).nameqlen
        = (runSetname 2 ["a", "b", "c"] {}).nameq.length ∧
      (runSetname 2 ["a", "b", "c"] {}).nameqlen ≤ 2) :=
  ⟨by decide, by decide, (C12_nameqlen_invariant 2 (by decide)).1 ["a", "b", "c"]⟩

/-- C13 (the code at the failing input): after `client_new` for window 7
the exported list and the global queue agree; deleting that client, the last
one, empties the queue and leaves the exported list at window 7, because the
property is rewritten only when a client remains (`if (i > 0)`); a client
created afterwards is appended to the stale list. -/
theorem C13_delete_last_client_list :
    clientListSynced (runRegOps [.new 7 false] {}) ∧
    (runRegOps [.new 7 false, .delete 0] {}).Clientq = [] ∧
    (runRegOps [.new 7 false, .delete 0] {}).net_client_list = [7] ∧
    ¬ clientListSynced (runRegOps [.new 7 false, .delete 0] {}) ∧
    (runRegOps [.new 7 false, .delete 0, .new 9 false] {}).net_client_list = [7, 9] ∧
    ¬ clientListSynced (runRegOps [.new 7 false, .delete 0, .new 9 false] {}) := by
  decide

/-- `client_new` keeps the exported list in step with the global queue. -/
theorem client_new_synced (wm : WM) (win : Nat) (iconic : Bool)
    (h : clientListSynced wm) : clientListSynced (client_new wm win iconic) := by
  unfold clientListSynced at h ⊢
  unfold client_new
  by_cases hw : win = 0
  · simp [hw, h]
  · simp only [hw, if_false]
    split_ifs <;> simp [client_none, h]

/-- `client_delete` brings the exported list in step with the global queue
whenever a client remains. -/
theorem client_delete_synced (wm : WM) (cc : Nat)
    (h : (client_delete wm cc).Clientq ≠ []) : clientListSynced (client_delete wm cc) := by
  have hq : (client_delete wm cc).Clientq
      = wm.Clientq.filter (fun c => decide (c.cc ≠ cc)) := by
    unfold client_delete
    split_ifs <;> rfl
  have hp : (client_delete wm cc).net_client_list
      = if (wm.Clientq.filter (fun c => decide (c.cc ≠ cc))).length > 0
        then (wm.Clientq.filter (fun c => decide (c.cc ≠ cc))).map (fun c => c.win)
        else wm.net_client_list := by
    by_cases hc : wm.curcc = some cc <;> simp [client_delete, client_none, hc]
  unfold clientListSynced
  rw [hq] at h
  rw [hp, hq, if_pos (List.length_pos.2 h)]

/-- Membership in a queue after `cc->active = v`. -/
theorem mem_setActive (q : List ClientCtx) (cc : Nat) (v : Bool) (x : ClientCtx) :
    x ∈ setActive q cc v ↔
      ∃ c ∈ q, x = if c.cc = cc then { c with active := v } else c := by
  unfold setActive
  rw [List.mem_map]
  constructor
  · rintro ⟨c, hc, rfl⟩; exact ⟨c, hc, rfl⟩
  · rintro ⟨c, hc, rfl⟩; exact ⟨c, hc, rfl⟩

/-- Membership in a queue after a change of the Hidden flag. -/
theorem mem_setHidden (q : List ClientCtx) (cc : Nat) (v : Bool) (x : ClientCtx) :
    x ∈ setHidden q cc v ↔
      ∃ c ∈ q, x = if c.cc = cc then { c with hidden := v } else c := by
  unfold setHidden
  rw [List.mem_map]
  constructor
  · rintro ⟨c, hc, rfl⟩; exact ⟨c, hc, rfl⟩
  · rintro ⟨c, hc, rfl⟩; exact ⟨c, hc, rfl⟩

/-- Assigning `active` moves no record. -/
theorem map_cc_setActive (q : List ClientCtx) (cc : Nat) (v : Bool) :
    (setActive q cc v).map (fun c => c.cc) = q.map (fun c => c.cc) := by
  unfold setActive
  rw [List.map_map]
  apply List.map_congr_left
  intro c _
  simp only [Function.comp]
  split_ifs <;> rfl

/-- Assigning the Hidden flag moves no record. -/
theorem map_cc_setHidden (q : List ClientCtx) (cc : Nat) (v : Bool) :
    (setHidden q cc v).map (fun c => c.cc) = q.map (fun c => c.cc) := by
  unfold setHidden
  rw [List.map_map]
  apply List.map_congr_left
  intro c _
  simp only [Function.comp]
  split_ifs <;> rfl

/-- Clearing `active` on a record keeps the invariant, whatever the current
client is set to afterwards. -/
theorem RegInv_setActive_false (q : List ClientCtx) (cur : Option Nat) (brk cc : Nat)
    (h : RegInv q cur brk) : RegInv (setActive q cc false) cur brk := by
  obtain ⟨h1, h2, h3⟩ := h
  refine ⟨?_, ?_, ?_⟩
  · rw [map_cc_setActive]; exact h1
  · intro x hx
    obtain ⟨c, hc, rfl⟩ := (mem_setActive q cc false x).1 hx
    have := h2 c hc
    split_ifs <;> simpa using this
  · intro x hx hact
    obtain ⟨c, hc, rfl⟩ := (mem_setActive q cc false x).1 hx
    by_cases hcc : c.cc = cc
    · simp [hcc] at hact
    · simp only [hcc, if_false] at hact ⊢
      exact h3 c hc hact

/-- Changing the Hidden flag keeps the invariant. -/
theorem RegInv_setHidden (q : List ClientCtx) (cur : Option Nat) (brk cc : Nat) (v : Bool)
    (h : RegInv q cur brk) : RegInv (setHidden q cc v) cur brk := by
  obtain ⟨h1, h2, h3⟩ := h
  refine ⟨?_, ?_, ?_⟩
  · rw [map_cc_setHidden]; exact h1
  · intro x hx
    obtain ⟨c, hc, rfl⟩ := (mem_setHidden q cc v x).1 hx
    have := h2 c hc
    split_ifs <;> simpa using this
  · intro x hx hact
    obtain ⟨c, hc, rfl⟩ := (mem_setHidden q cc v x).1 hx
    split_ifs at hact ⊢ with hcc
    · exact h3 c hc hact
    · exact h3 c hc hact

/-- Once the record of the current client is inactive, no record is active,
so the current client may be set to anything. -/
theorem RegInv_after_clear (q : List ClientCtx) (cur cur1 : Option Nat) (brk p : Nat)
    (h : RegInv q cur brk) (hp : cur = some p ∨ cur = none) :
    RegInv (setActive q p false) cur1 brk := by
  obtain ⟨h1, h2, h3⟩ := RegInv_setActive_false q cur brk p h
  refine ⟨h1, h2, ?_⟩
  intro x hx hact
  exfalso
  obtain ⟨c, hc, rfl⟩ := (mem_setActive q p false x).1 hx
  by_cases hcc : c.cc = p
  · simp [hcc] at hact
  · simp only [hcc, if_false] at hact
    have := h.2.2 c hc hact
    rcases hp with hp | hp
    · rw [hp] at this
      exact hcc (Option.some.inj this).symm
    · rw [hp] at this
      exact absurd this (by simp)

/-- With no current client no record is active, so the invariant holds for
any current client. -/
theorem RegInv_of_none (q : List ClientCtx) (cur1 : Option Nat) (brk : Nat)
    (h : RegInv q none brk) : RegInv q cur1 brk := by
  refine ⟨h.1, h.2.1, ?_⟩
  intro c hc hact
  exact absurd (h.2.2 c hc hact) (by simp)

/-- Setting `active` on the current client keeps the invariant. -/
theorem RegInv_setActive_true (q : List ClientCtx) (brk c : Nat)
    (h : RegInv q (some c) brk) : RegInv (setActive q c true) (some c) brk := by
  obtain ⟨h1, h2, h3⟩ := h
  refine ⟨?_, ?_, ?_⟩
  · rw [map_cc_setActive]; exact h1
  · intro x hx
    obtain ⟨d, hd, rfl⟩ := (mem_setActive q c true x).1 hx
    have := h2 d hd
    split_ifs <;> simpa using this
  · intro x hx hact
    obtain ⟨d, hd, rfl⟩ := (mem_setActive q c true x).1 hx
    by_cases hcc : d.cc = c
    · simp [hcc]
    · simp only [hcc, if_false] at hact ⊢
      exact h3 d hd hact

/-- What `client_setactive(cc, 1)` leaves in the global queue, the current
client and the allocation mark. -/
theorem setactive_fg_proj (wm : WM) (c : Nat) :
    (client_setactive wm (some c) true).brk = wm.brk ∧
    (client_setactive wm (some c) true).curcc = some c ∧
    (client_setactive wm (some c) true).Clientq =
      setActive
        (if wm.curcc = some c then wm.Clientq
         else match wm.curcc with
           | some p => setActive wm.Clientq p false
           | none => wm.Clientq) c true := by
  by_cases hc : wm.curcc = some c
  · cases halt : wm.altpersist <;>
      simp [client_setactive, client_mtf, client_setactive_bg, orCurrent, hc, halt]
  · cases hcur : wm.curcc with
    | none =>
      cases halt : wm.altpersist <;>
        simp [client_setactive, client_mtf, client_setactive_bg, orCurrent, hcur, halt]
    | some p =>
      have hp : ¬ p = c := by
        intro h
        rw [hcur, h] at hc
        exact hc rfl
      cases halt : wm.altpersist <;>
        simp [client_setactive, client_mtf, client_setactive_bg, orCurrent, hcur, halt, hp]

/-- `client_setactive(NULL, fg)` acts on the current client, if there is
one. -/
theorem setactive_null (wm : WM) (fg : Bool) :
    client_setactive wm none fg =
      match wm.curcc with
      | none => wm
      | some c => client_setactive wm (some c) fg := by
  cases hcur : wm.curcc <;> cases fg <;>
    simp [client_setactive, client_setactive_bg, orCurrent, hcur]

/-- `client_setactive` on a given client keeps the registry invariant. -/
theorem RegInv_setactive_some (wm : WM) (c : Nat) (fg : Bool)
    (h : RegInv wm.Clientq wm.curcc wm.brk) :
    RegInv (client_setactive wm (some c) fg).Clientq
      (client_setactive wm (some c) fg).curcc (client_setactive wm (some c) fg).brk := by
  cases fg with
  | false =>
    simp only [client_setactive, client_setactive_bg, orCurrent, Bool.false_eq_true, if_false]
    exact RegInv_setActive_false _ _ _ c h
  | true =>
    obtain ⟨e1, e2, e3⟩ := setactive_fg_proj wm c
    rw [e1, e2, e3]
    apply RegInv_setActive_true
    by_cases hc : wm.curcc = some c
    · rw [if_pos hc, ← hc]; exact h
    · rw [if_neg hc]
      cases hcur : wm.curcc with
      | none =>
        rw [hcur] at h
        exact RegInv_of_none _ _ _ h
      | some p =>
        exact RegInv_after_clear _ _ _ _ p h (Or.inl hcur)

/-- Every registry call keeps the registry invariant. -/
theorem RegInv_step (op : RegOp) (wm : WM) (h : RegInv wm.Clientq wm.curcc wm.brk) :
    RegInv (op.apply wm).Clientq (op.apply wm).curcc (op.apply wm).brk := by
  cases op with
  | new win iconic =>
    obtain ⟨h1, h2, h3⟩ := h
    by_cases hw : win = 0
    · simp only [RegOp.apply, client_new, hw, if_true]
      exact ⟨h1, h2, h3⟩
    · have hq : (client_new wm win iconic).Clientq = wm.Clientq ++
          [if iconic then { cc := wm.brk, win := win, active := false, hidden := true }
            else { cc := wm.brk, win := win, hidden := false }] := by
        simp only [client_new, hw, if_false]
        split_ifs <;> simp [client_none]
      have hb : (client_new wm win iconic).brk = wm.brk + 1 := by
        simp only [client_new, hw, if_false]
        split_ifs <;> simp [client_none]
      have hc : (client_new wm win iconic).curcc =
          if iconic = true ∧ wm.curcc = some wm.brk then none else wm.curcc := by
        simp only [client_new, hw, if_false]
        split_ifs <;> simp [client_none]
      simp only [RegOp.apply]
      rw [hq, hb, hc]
      refine ⟨?_, ?_, ?_⟩
      · rw [List.map_append, List.nodup_append]
        refine ⟨h1, by simp, ?_⟩
        intro a ha hb'
        obtain ⟨c, hc', rfl⟩ := List.mem_map.1 ha
        have hlt := h2 c hc'
        have : c.cc = wm.brk := by
          cases iconic <;> simpa using hb'
        omega
      · intro c hc'
        rcases List.mem_append.1 hc' with hc' | hc'
        · have := h2 c hc'; omega
        · cases iconic <;> simp at hc' <;> subst hc' <;> simp
      · intro c hc' hact
        rcases List.mem_append.1 hc' with hc' | hc'
        · have hcur := h3 c hc' hact
          have hlt := h2 c hc'
          rw [if_neg]
          · exact hcur
          · rintro ⟨_, h5⟩
            rw [hcur] at h5
            have := Option.some.inj h5
            omega
        · exfalso
          cases iconic <;> simp at hc' <;> subst hc' <;> simp at hact
  | setactive cc fg =>
    simp only [RegOp.apply]
    cases cc with
    | some c => exact RegInv_setactive_some wm c fg h
    | none =>
      rw [setactive_null]
      cases hcur : wm.curcc with
      | none => simp only; exact h
      | some c => simp only; exact RegInv_setactive_some wm c fg h
  | hide cc =>
    simp only [RegOp.apply, client_hide]
    by_cases hc : wm.curcc = some cc
    · simp only [hc, if_true, client_none]
      exact RegInv_setHidden _ _ _ cc true (RegInv_after_clear _ _ none _ cc h (Or.inl hc))
    · simp only [hc, if_false]
      exact RegInv_setHidden _ _ _ cc true (RegInv_setActive_false _ _ _ cc h)
  | unhide cc =>
    simp only [RegOp.apply, client_unhide]
    exact RegInv_setHidden _ _ _ cc false h
  | delete cc =>
    obtain ⟨h1, h2, h3⟩ := h
    have hq : (client_delete wm cc).Clientq
        = wm.Clientq.filter (fun c => decide (c.cc ≠ cc)) := by
      by_cases hc : wm.curcc = some cc <;> simp [client_delete, client_none, hc]
    have hb : (client_delete wm cc).brk = wm.brk := by
      by_cases hc : wm.curcc = some cc <;> simp [client_delete, client_none, hc]
    have hc : (client_delete wm cc).curcc = if wm.curcc = some cc then none else wm.curcc := by
      by_cases hc : wm.curcc = some cc <;> simp [client_delete, client_none, hc]
    simp only [RegOp.apply]
    rw [hq, hb, hc]
    refine ⟨?_, ?_, ?_⟩
    · exact List.Nodup.sublist (List.Sublist.map _ (List.filter_sublist _)) h1
    · intro c hc'
      exact h2 c (List.mem_of_mem_filter hc')
    · intro c hc' hact
      have hm := List.mem_filter.1 hc'
      have hcur := h3 c hm.1 hact
      have hne : c.cc ≠ cc := by simpa using hm.2
      rw [if_neg]
      · exact hcur
      · intro h5
        rw [hcur] at h5
        exact hne (Option.some.inj h5)

/-- The registry invariant along a sequence of calls. -/
theorem RegInv_run (ops : List RegOp) :
    ∀ wm : WM, RegInv wm.Clientq wm.curcc wm.brk →
      RegInv (runRegOps ops wm).Clientq (runRegOps ops wm).curcc (runRegOps ops wm).brk := by
  induction ops with
  | nil => intro wm h; exact h
  | cons op ops ih => intro wm h; exact ih _ (RegInv_step op wm h)

/-- Under the registry invariant at most one record is active. -/
theorem filter_active_le_one (q : List ClientCtx) (cur : Option Nat) (brk : Nat)
    (h : RegInv q cur brk) : (q.filter (fun c => c.active)).length ≤ 1 := by
  induction q with
  | nil => simp
  | cons a q ih =>
    obtain ⟨h1, h2, h3⟩ := h
    have hq : RegInv q cur brk := by
      refine ⟨(List.nodup_cons.1 (by simpa using h1)).2, ?_, ?_⟩
      · intro c hc; exact h2 c (List.mem_cons_of_mem _ hc)
      · intro c hc; exact h3 c (List.mem_cons_of_mem _ hc)
    by_cases ha : a.active = true
    · have hcur := h3 a (List.mem_cons_self _ _) ha
      have hnone : q.filter (fun c => c.active) = [] := by
        rw [List.filter_eq_nil_iff]
        intro c hc hact
        have hcc := h3 c (List.mem_cons_of_mem _ hc) hact
        rw [hcur] at hcc
        have hsame : a.cc = c.cc := Option.some.inj hcc
        have hnot : a.cc ∉ q.map (fun c => c.cc) :=
          (List.nodup_cons.1 (by simpa using h1)).1
        exact hnot (List.mem_map.2 ⟨c, hc, hsame.symm⟩)
      rw [List.filter_cons_of_pos ha, hnone]
      simp
    · rw [List.filter_cons_of_neg ha]
      exact ih hq

/-- C14: in every state reached from the empty registry by any sequence of
`client_new`, `client_setactive`, `client_hide`, `client_unhide` and
`client_delete`, at most one client has its `active` member set, every
client whose `active` member is set is the one `client_current` returns, and
setting a different client active in the foreground leaves the previous
current client with `active` cleared. -/
theorem C14_single_active (ops : List RegOp) :
    ((runRegOps ops {}).Clientq.filter (fun c => c.active)).length ≤ 1 ∧
    (∀ c ∈ (runRegOps ops {}).Clientq, c.active = true →
      client_current (runRegOps ops {}) = some c.cc) ∧
    (∀ p c : Nat, client_current (runRegOps ops {}) = some p → p ≠ c →
      client_current (client_setactive (runRegOps ops {}) (some c) true) = some c ∧
      ∀ x ∈ (client_setactive (runRegOps ops {}) (some c) true).Clientq,
        x.cc = p → x.active = false) := by
  have h0 : RegInv ({} : WM).Clientq ({} : WM).curcc ({} : WM).brk := by
    refine ⟨by simp, ?_, ?_⟩
    · intro c hc; simp at hc
    · intro c hc; simp at hc
  have h := RegInv_run ops {} h0
  refine ⟨filter_active_le_one _ _ _ h, h.2.2, ?_⟩
  intro p c hp hpc
  unfold client_current at hp ⊢
  obtain ⟨_, e2, e3⟩ := setactive_fg_proj (runRegOps ops {}) c
  refine ⟨e2, ?_⟩
  intro x hx hxp
  have hne : ¬ (runRegOps ops {}).curcc = some c := by
    rw [hp]
    intro h5
    exact hpc (Option.some.inj h5)
  rw [e3, if_neg hne, hp] at hx
  simp only at hx
  obtain ⟨d, hd, hxd⟩ := (mem_setActive _ c true x).1 hx
  obtain ⟨e, _, hde⟩ := (mem_setActive _ p false d).1 hd
  have h1 : d.cc = e.cc := by rw [hde]; split_ifs <;> rfl
  have h2 : x.cc = d.cc := by rw [hxd]; split_ifs <;> rfl
  have hep : e.cc = p := by rw [← h1, ← h2]; exact hxp
  have hdc : ¬ d.cc = c := by rw [h1, hep]; exact hpc
  rw [if_pos hep] at hde
  rw [if_neg hdc] at hxd
  rw [hxd, hde]

/-- C14 witness: two clients, the first activated and then the second; the
second is current and the only active one. -/
theorem C14_single_active_witness :
    runRegOps [.new 7 false, .new 9 false, .setactive (some 0) true] {}
      = { Clientq := [{ cc := 0, win := 7, active := true }, { cc := 1, win := 9 }],
          mruq := [0, 1], curcc := some 0, net_client_list := [7, 9],
          net_active_window := 7, brk := 2 } ∧
    (client_setactive
        (runRegOps [.new 7 false, .new 9 false, .setactive (some 0) true] {})
        (some 1) true).Clientq
      = [{ cc := 0, win := 7 }, { cc := 1, win := 9, active := true }] ∧
    (client_current (runRegOps [.new 7 false, .new 9 false, .setactive (some 0) true] {})
        = some 0 ∧ (0 : Nat) ≠ 1) ∧
    (client_current (client_setactive
        (runRegOps [.new 7 false, .new 9 false, .setactive (some 0) true] {})
        (some 1) true) = some 1 ∧
      ∀ x ∈ (client_setactive
          (runRegOps [.new 7 false, .new 9 false, .setactive (some 0) true] {})
          (some 1) true).Clientq,
        x.cc = 0 → x.active = false) :=
  ⟨by decide, by decide, by decide,
    (C14_single_active [.new 7 false, .new 9 false, .setactive (some 0) true]).2.2 0 1
      (by decide) (by decide)⟩

/-- What `client_setactive(cc, 1)` leaves in the MRU queue. -/
theorem setactive_fg_mruq (wm : WM) (c : Nat) :
    (client_setactive wm (some c) true).mruq =
      if wm.altpersist then wm.mruq else c :: wm.mruq.erase c := by
  by_cases hc : wm.curcc = some c
  · cases halt : wm.altpersist <;>
      simp [client_setactive, client_mtf, client_setactive_bg, orCurrent, hc, halt]
  · cases hcur : wm.curcc with
    | none =>
      cases halt : wm.altpersist <;>
        simp [client_setactive, client_mtf, client_setactive_bg, orCurrent, hcur, halt]
    | some p =>
      have hp : ¬ p = c := by
        intro h
        rw [hcur, h] at hc
        exact hc rfl
      cases halt : wm.altpersist <;>
        simp [client_setactive, client_mtf, client_setactive_bg, orCurrent, hcur, halt, hp]

/-- C15: with alt-persist clear, `client_setactive(cc, 1)` on a member of a
duplicate-free MRU queue puts `cc` at the head followed by all other members
in their old order, a permutation of the old queue; with alt-persist set it
leaves the MRU queue unchanged; and `client_setactive(cc, 0)` never changes
the MRU queue. -/
theorem C15_setactive_mru (wm : WM) (cc : Nat) :
    (wm.altpersist = false → cc ∈ wm.mruq → wm.mruq.Nodup →
      (client_setactive wm (some cc) true).mruq
          = cc :: wm.mruq.filter (fun c => decide (c ≠ cc)) ∧
      (client_setactive wm (some cc) true).mruq.Perm wm.mruq) ∧
    (wm.altpersist = true → (client_setactive wm (some cc) true).mruq = wm.mruq) ∧
    (∀ c : Option Nat, (client_setactive wm c false).mruq = wm.mruq) := by
  refine ⟨?_, ?_, ?_⟩
  · intro halt hmem hnd
    rw [setactive_fg_mruq, halt]
    simp only [Bool.false_eq_true, if_false]
    refine ⟨?_, (List.perm_cons_erase hmem).symm⟩
    rw [List.Nodup.erase_eq_filter hnd]
    congr 1
    apply List.filter_congr
    intro x _
    by_cases hx : x = cc <;> simp [hx]
  · intro halt
    rw [setactive_fg_mruq, halt]
    simp
  · intro c
    cases c with
    | some d => simp [client_setactive, client_setactive_bg, orCurrent]
    | none =>
      cases hcur : wm.curcc <;>
        simp [client_setactive, client_setactive_bg, orCurrent, hcur]

/-- C15 witness: activating the third of three clients moves it to the head
of the MRU queue and keeps the other two in order. -/
theorem C15_setactive_mru_witness :
    (({ mruq := [0, 1, 2] } : WM).altpersist = false ∧
      2 ∈ ({ mruq := [0, 1, 2] } : WM).mruq ∧ ({ mruq := [0, 1, 2] } : WM).mruq.Nodup) ∧
    (client_setactive { mruq := [0, 1, 2] } (some 2) true).mruq = [2, 0, 1] ∧
    (client_setactive { mruq := [0, 1, 2], altpersist := true } (some 2) true).mruq
      = [0, 1, 2] ∧
    ((client_setactive { mruq := [0, 1, 2] } (some 2) true).mruq
        = 2 :: ({ mruq := [0, 1, 2] } : WM).mruq.filter (fun c => decide (c ≠ 2)) ∧
      (client_setactive { mruq := [0, 1, 2] } (some 2) true).mruq.Perm
        ({ mruq := [0, 1, 2] } : WM).mruq) :=
  ⟨by decide, by decide, by decide,
    (C15_setactive_mru { mruq := [0, 1, 2] } 2).1 (by decide) (by decide) (by decide)⟩

/-- C16 (as stated, refuted): a 300 by 200 client is maximized to 1000 by
800, the pointer is saved at (500, 300) inside it, and the maximize is
undone; the saved pointer (500, 300) is then neither unset nor inside the
300 by 200 window. -/
theorem C16_counterexample :
    ptrValid { cc := clientBordered } ∧
    ptrValid (runPtrOps envPlain screen1000 [.maximize, .ptrsave (500, 300)]
      { cc := clientBordered }) ∧
    (runPtrOps envPlain screen1000 [.maximize, .ptrsave (500, 300), .maximize]
      { cc := clientBordered }).ptr = { x := 500, y := 300 } ∧
    (runPtrOps envPlain screen1000 [.maximize, .ptrsave (500, 300), .maximize]
      { cc := clientBordered }).cc.geom = ⟨10, 20, 300, 200⟩ ∧
    ¬ ptrValid (runPtrOps envPlain screen1000 [.maximize, .ptrsave (500, 300), .maximize]
      { cc := clientBordered }) := by
  decide

/-- Right after `client_ptrsave` the saved pointer is unset or inside the
window. -/
theorem ptrsave_valid (pos : Int × Int) (c : ClientPtr) :
    ptrValid (client_ptrsave pos c) := by
  unfold client_ptrsave
  by_cases h : client_inbound c.cc pos.1 pos.2 = true
  · rw [if_pos h]
    unfold client_inbound at h
    simp only [Bool.and_eq_true, decide_eq_true_eq] at h
    right
    exact ⟨h.1.1.2, h.1.1.1, h.2, h.1.2⟩
  · rw [if_neg h]
    left
    exact ⟨rfl, rfl⟩

/-- Every call keeps the saved pointer unset or at non-negative
coordinates. -/
theorem ptr_nonneg_step (env : XEnv) (sc : Screen) (op : PtrOp) (c : ClientPtr)
    (h : (c.ptr.x = -1 ∧ c.ptr.y = -1) ∨ (0 ≤ c.ptr.x ∧ 0 ≤ c.ptr.y)) :
    ((op.apply env sc c).ptr.x = -1 ∧ (op.apply env sc c).ptr.y = -1) ∨
    (0 ≤ (op.apply env sc c).ptr.x ∧ 0 ≤ (op.apply env sc c).ptr.y) := by
  cases op with
  | ptrsave pos =>
    rcases ptrsave_valid pos c with hv | hv
    · exact Or.inl hv
    · exact Or.inr ⟨hv.1, hv.2.2.1⟩
  | maximize => exact h
  | vertmaximize => exact h
  | horizmaximize => exact h

/-- C16 (amended): in every state reached from a client with unset pointer
through `client_ptrsave` and the three maximize toggles, the saved pointer
is the unset value (-1, -1) or has both coordinates non-negative; right
after a `client_ptrsave` it is unset or within the current window bounds;
and the maximize toggles leave it as it is, whatever the new geometry. -/
theorem C16_ptr_invariant (env : XEnv) (sc : Screen) (ops : List PtrOp) (c : ClientPtr)
    (h0 : c.ptr.x = -1 ∧ c.ptr.y = -1) :
    (((runPtrOps env sc ops c).ptr.x = -1 ∧ (runPtrOps env sc ops c).ptr.y = -1) ∨
      (0 ≤ (runPtrOps env sc ops c).ptr.x ∧ 0 ≤ (runPtrOps env sc ops c).ptr.y)) ∧
    (∀ pos : Int × Int, ptrValid (client_ptrsave pos (runPtrOps env sc ops c))) ∧
    ((PtrOp.maximize.apply env sc (runPtrOps env sc ops c)).ptr
        = (runPtrOps env sc ops c).ptr ∧
      (PtrOp.vertmaximize.apply env sc (runPtrOps env sc ops c)).ptr
        = (runPtrOps env sc ops c).ptr ∧
      (PtrOp.horizmaximize.apply env sc (runPtrOps env sc ops c)).ptr
        = (runPtrOps env sc ops c).ptr) := by
  refine ⟨?_, fun pos => ptrsave_valid pos _, rfl, rfl, rfl⟩
  have hgen : ∀ (ops : List PtrOp) (d : ClientPtr),
      ((d.ptr.x = -1 ∧ d.ptr.y = -1) ∨ (0 ≤ d.ptr.x ∧ 0 ≤ d.ptr.y)) →
      (((runPtrOps env sc ops d).ptr.x = -1 ∧ (runPtrOps env sc ops d).ptr.y = -1) ∨
        (0 ≤ (runPtrOps env sc ops d).ptr.x ∧ 0 ≤ (runPtrOps env sc ops d).ptr.y)) := by
    intro ops
    induction ops with
    | nil => intro d hd; exact hd
    | cons op ops ih => intro d hd; exact ih _ (ptr_nonneg_step env sc op d hd)
  exact hgen ops c (Or.inl h0)

/-- C16 witness: the client of the counterexample; its pointer stays at
non-negative coordinates, and saving it again after the undo unsets it. -/
theorem C16_ptr_invariant_witness :
    (({ cc := clientBordered } : ClientPtr).ptr.x = -1 ∧
      ({ cc := clientBordered } : ClientPtr).ptr.y = -1) ∧
    (client_ptrsave (500, 300)
      (runPtrOps envPlain screen1000 [.maximize, .ptrsave (500, 300), .maximize]
        { cc := clientBordered })).ptr = { x := -1, y := -1 } ∧
    (((runPtrOps envPlain screen1000 [.maximize, .ptrsave (500, 300), .maximize]
        { cc := clientBordered }).ptr.x = -1 ∧
      (runPtrOps envPlain screen1000 [.maximize, .ptrsave (500, 300), .maximize]
        { cc := clientBordered }).ptr.y = -1) ∨
     (0 ≤ (runPtrOps envPlain screen1000 [.maximize, .ptrsave (500, 300), .maximize]
        { cc := clientBordered }).ptr.x ∧
      0 ≤ (runPtrOps envPlain screen1000 [.maximize, .ptrsave (500, 300), .maximize]
        { cc := clientBordered }).ptr.y)) :=
  ⟨by decide, by decide,
    (C16_ptr_invariant envPlain screen1000 [.maximize, .ptrsave (500, 300), .maximize]
      { cc := clientBordered } (by decide)).1⟩

/-- C17: for every input with `0 < |n| ≤ snapdist` whose far edge
`n + dn + 2*bwidth` lies outside `[nmax - snapdist, nmax + snapdist]`,
`client_snapcalc` returns `-n`. -/
theorem C17_snapcalc_near_edge (n dn nmax bwidth snapdist : Int)
    (h0 : 0 < c_abs n) (h1 : c_abs n ≤ snapdist)
    (hout : n + dn + 2 * bwidth < nmax - snapdist ∨ nmax + snapdist < n + dn + 2 * bwidth) :
    client_snapcalc n dn nmax bwidth snapdist = -n := by
  have hn : n ≠ 0 := by
    intro h
    rw [h] at h0
    simp [c_abs] at h0
  have hr : ¬ (nmax - snapdist ≤ n + dn + bwidth * 2 ∧ n + dn + bwidth * 2 ≤ nmax + snapdist) := by
    intro h
    omega
  simp only [client_snapcalc, if_pos h1, if_neg hr]
  simp [hn]

/-- C17 witness: `client_snapcalc(5, 10, 100, 0, 8)` returns -5. -/
theorem C17_snapcalc_near_edge_witness :
    (0 < c_abs 5 ∧ c_abs 5 ≤ 8 ∧
      ((5 : Int) + 10 + 2 * 0 < 100 - 8 ∨ (100 : Int) + 8 < 5 + 10 + 2 * 0)) ∧
    client_snapcalc 5 10 100 0 8 = -5 :=
  ⟨by decide, C17_snapcalc_near_edge 5 10 100 0 8 (by decide) (by decide) (by decide)⟩

/-- C18 (as stated, refuted): with the near edge exactly on 0 and the far
edge 5 short of `nmax` (both in range for snap distance 8),
`client_snapcalc` returns 5, whose magnitude is not `min(|0|, |5|) = 0`. -/
theorem C18_counterexample :
    (c_abs 0 ≤ 8 ∧ (100 : Int) - 8 ≤ 0 + 95 + 2 * 0 ∧ (0 : Int) + 95 + 2 * 0 ≤ 100 + 8) ∧
    client_snapcalc 0 95 100 0 8 = 5 ∧
    ¬ (c_abs (client_snapcalc 0 95 100 0 8)
        = min (c_abs 0) (c_abs (100 - (0 + 95 + 2 * 0)))) := by
  decide

/-- C18 (amended): when both bounds are in range, the result of
`client_snapcalc` is one of the two candidate adjustments `-n` and
`nmax - (n + dn + 2*bwidth)`; when both candidates are non-zero it is the
one of smaller magnitude (the second on a tie), so that
`|result| = min(|n|, |nmax - (n + dn + 2*bwidth)|)`; when one candidate is
zero the result is the other. -/
theorem C18_snapcalc_both (n dn nmax bwidth snapdist : Int)
    (h0 : c_abs n ≤ snapdist)
    (h1 : nmax - snapdist ≤ n + dn + 2 * bwidth) (h2 : n + dn + 2 * bwidth ≤ nmax + snapdist) :
    (n ≠ 0 → nmax - (n + dn + 2 * bwidth) ≠ 0 →
      c_abs (client_snapcalc n dn nmax bwidth snapdist)
        = min (c_abs n) (c_abs (nmax - (n + dn + 2 * bwidth)))) ∧
    (n = 0 → client_snapcalc n dn nmax bwidth snapdist = nmax - (n + dn + 2 * bwidth)) ∧
    (nmax - (n + dn + 2 * bwidth) = 0 → client_snapcalc n dn nmax bwidth snapdist = -n) ∧
    (client_snapcalc n dn nmax bwidth snapdist = -n ∨
      client_snapcalc n dn nmax bwidth snapdist = nmax - (n + dn + 2 * bwidth)) := by
  have hr : nmax - snapdist ≤ n + dn + bwidth * 2 ∧ n + dn + bwidth * 2 ≤ nmax + snapdist := by
    constructor <;> omega
  have he : nmax - (n + dn + bwidth * 2) = nmax - (n + dn + 2 * bwidth) := by omega
  have hval : client_snapcalc n dn nmax bwidth snapdist =
      (if -n ≠ 0 ∧ nmax - (n + dn + 2 * bwidth) ≠ 0 then
        (if c_abs (-n) < c_abs (nmax - (n + dn + 2 * bwidth)) then -n
          else nmax - (n + dn + 2 * bwidth))
      else if -n ≠ 0 then -n
      else if nmax - (n + dn + 2 * bwidth) ≠ 0 then nmax - (n + dn + 2 * bwidth)
      else 0) := by
    simp only [client_snapcalc, if_pos h0, if_pos hr, he]
  rw [hval]
  have habs : c_abs (-n) = c_abs n := by
    unfold c_abs
    split_ifs <;> omega
  rw [habs]
  refine ⟨?_, ?_, ?_, ?_⟩
  · intro hn hs
    have hn' : -n ≠ 0 := by omega
    rw [if_pos ⟨hn', hs⟩]
    by_cases hlt : c_abs n < c_abs (nmax - (n + dn + 2 * bwidth))
    · rw [if_pos hlt, habs, min_eq_left (le_of_lt hlt)]
    · rw [if_neg hlt, min_eq_right (not_lt.1 hlt)]
  · intro hn
    subst hn
    split_ifs <;> omega
  · intro hs
    split_ifs <;> omega
  · by_cases hn : n = 0
    · right
      subst hn
      split_ifs <;> omega
    · have hn' : -n ≠ 0 := by omega
      by_cases hs : nmax - (n + dn + 2 * bwidth) = 0
      · left
        split_ifs <;> omega
      · rw [if_pos ⟨hn', hs⟩]
        by_cases hlt : c_abs n < c_abs (nmax - (n + dn + 2 * bwidth))
        · left; rw [if_pos hlt]
        · right; rw [if_neg hlt]

/-- C18 witness: near edge at 3, far edge 2 short of `nmax`: the result is
2, the candidate of smaller magnitude. -/
theorem C18_snapcalc_both_witness :
    (c_abs 3 ≤ 8 ∧ (100 : Int) - 8 ≤ 3 + 95 + 2 * 0 ∧ (3 : Int) + 95 + 2 * 0 ≤ 100 + 8) ∧
    client_snapcalc 3 95 100 0 8 = 2 ∧
    c_abs (client_snapcalc 3 95 100 0 8) = min (c_abs 3) (c_abs (100 - (3 + 95 + 2 * 0))) :=
  ⟨by decide, by decide,
    (C18_snapcalc_both 3 95 100 0 8 (by decide) (by decide) (by decide)).1
      (by decide) (by decide)⟩

/-- C19 (as stated, refuted): on the 100 by 100 screen with gaps of 10, a
75 by 50 client with hinted position (5, 200) is placed at (5, 50): x = 5 is
inside the left gap and the bottom edge 50 + 50 = 100 is inside the bottom
gap. The hinted branch never reads the gaps. -/
theorem C19_counterexample :
    (client_placecalc envPlain screenGap10 { position := true, x := 5, y := 200 } (0, 0)
      newClient75).geom = ⟨5, 50, 75, 50⟩ ∧
    ¬ ((client_placecalc envPlain screenGap10 { position := true, x := 5, y := 200 } (0, 0)
          newClient75).geom.x ≥ screenGap10.gap.left) ∧
    ¬ ((client_placecalc envPlain screenGap10 { position := true, x := 5, y := 200 } (0, 0)
          newClient75).geom.y + newClient75.geom.height + 2 * newClient75.bwidth
        ≤ screenGap10.ymax - screenGap10.gap.bottom) := by
  decide

/-- C19 (amended): for a new client whose size hints carry a position,
`client_placecalc` keeps width and height, sets x to the smaller of a
positive hinted x and `xmax - width - 2*bwidth`, so that then
`x + width + 2*bwidth ≤ xmax` and `x` is at most the hinted x, and leaves x
as it is for a hinted x that is not positive; likewise y with `ymax` and
the height. The gaps play no part. -/
theorem C19_placecalc_hinted (env : XEnv) (sc : Screen) (size : XSizeHints)
    (ptr : Int × Int) (cc : Client) (hp : size.position = true) :
    (client_placecalc env sc size ptr cc).geom.width = cc.geom.width ∧
    (client_placecalc env sc size ptr cc).geom.height = cc.geom.height ∧
    (size.x > 0 →
      (client_placecalc env sc size ptr cc).geom.x
          = min size.x (sc.xmax - cc.geom.width - cc.bwidth * 2) ∧
      (client_placecalc env sc size ptr cc).geom.x + cc.geom.width + 2 * cc.bwidth ≤ sc.xmax ∧
      (client_placecalc env sc size ptr cc).geom.x ≤ size.x) ∧
    (¬ size.x > 0 → (client_placecalc env sc size ptr cc).geom.x = cc.geom.x) ∧
    (size.y > 0 →
      (client_placecalc env sc size ptr cc).geom.y
          = min size.y (sc.ymax - cc.geom.height - cc.bwidth * 2) ∧
      (client_placecalc env sc size ptr cc).geom.y + cc.geom.height + 2 * cc.bwidth ≤ sc.ymax ∧
      (client_placecalc env sc size ptr cc).geom.y ≤ size.y) ∧
    (¬ size.y > 0 → (client_placecalc env sc size ptr cc).geom.y = cc.geom.y) := by
  have hg : (client_placecalc env sc size ptr cc).geom =
      { x := if size.x > 0 then min size.x (sc.xmax - cc.geom.width - cc.bwidth * 2)
              else cc.geom.x,
        y := if size.y > 0 then min size.y (sc.ymax - cc.geom.height - cc.bwidth * 2)
              else cc.geom.y,
        width := cc.geom.width, height := cc.geom.height } := by
    simp only [client_placecalc, hp, if_true]
    split_ifs <;> rfl
  rw [hg]
  refine ⟨rfl, rfl, ?_, ?_, ?_, ?_⟩
  · intro hx
    simp only [if_pos hx]
    have h1 := min_le_right size.x (sc.xmax - cc.geom.width - cc.bwidth * 2)
    have h2 := min_le_left size.x (sc.xmax - cc.geom.width - cc.bwidth * 2)
    exact ⟨trivial, by omega, h2⟩
  · intro hx
    simp only [if_neg hx]
  · intro hy
    simp only [if_pos hy]
    have h1 := min_le_right size.y (sc.ymax - cc.geom.height - cc.bwidth * 2)
    have h2 := min_le_left size.y (sc.ymax - cc.geom.height - cc.bwidth * 2)
    exact ⟨trivial, by omega, h2⟩
  · intro hy
    simp only [if_neg hy]

/-- C19 witness: hinted position (500, 200) on the 100 by 100 screen puts
the 75 by 50 client at (25, 50), its right and bottom edges on the screen
edge. -/
theorem C19_placecalc_hinted_witness :
    (({ position := true, x := 500, y := 200 } : XSizeHints).position = true ∧
      ({ position := true, x := 500, y := 200 } : XSizeHints).x > 0) ∧
    (client_placecalc envPlain screenGap10 { position := true, x := 500, y := 200 } (0, 0)
      newClient75).geom = ⟨25, 50, 75, 50⟩ ∧
    ((client_placecalc envPlain screenGap10 { position := true, x := 500, y := 200 } (0, 0)
        newClient75).geom.x
          = min ({ position := true, x := 500, y := 200 } : XSizeHints).x
              (screenGap10.xmax - newClient75.geom.width - newClient75.bwidth * 2) ∧
      (client_placecalc envPlain screenGap10 { position := true, x := 500, y := 200 } (0, 0)
        newClient75).geom.x + newClient75.geom.width + 2 * newClient75.bwidth
          ≤ screenGap10.xmax ∧
      (client_placecalc envPlain screenGap10 { position := true, x := 500, y := 200 } (0, 0)
        newClient75).geom.x ≤ ({ position := true, x := 500, y := 200 } : XSizeHints).x) :=
  ⟨by decide, by decide,
    (C19_placecalc_hinted envPlain screenGap10 { position := true, x := 500, y := 200 }
      (0, 0) newClient75 rfl).2.2.1 (by decide)⟩

/-- C20: for a freshly allocated client (hint record zeroed) and every raw
size-hint record that `XGetWMNormalHints` returns, `client_getsizehints`
yields base = explicit base if `PBaseSize`, else explicit min if `PMinSize`,
else 0; min = explicit min if `PMinSize`, else explicit base if
`PBaseSize`, else 0; max = explicit max if `PMaxSize`, else 0; increments
`max(1, width_inc)` and `max(1, height_inc)` if `PResizeInc`, else 1, so
both increments are at least 1 and never 0. When no hints can be read the
result is base, min and max 0 and increments 1. -/
theorem C20_getsizehints_fresh (fdiv : Int → Int → Rat) (size : XSizeHints) :
    ((client_getsizehints fdiv true size hintZero).2.basew
        = (if size.pbasesize then size.base_width
           else if size.pminsize then size.min_width else 0) ∧
     (client_getsizehints fdiv true size hintZero).2.baseh
        = (if size.pbasesize then size.base_height
           else if size.pminsize then size.min_height else 0) ∧
     (client_getsizehints fdiv true size hintZero).2.minw
        = (if size.pminsize then size.min_width
           else if size.pbasesize then size.base_width else 0) ∧
     (client_getsizehints fdiv true size hintZero).2.minh
        = (if size.pminsize then size.min_height
           else if size.pbasesize then size.base_height else 0) ∧
     (client_getsizehints fdiv true size hintZero).2.maxw
        = (if size.pmaxsize then size.max_width else 0) ∧
     (client_getsizehints fdiv true size hintZero).2.maxh
        = (if size.pmaxsize then size.max_height else 0) ∧
     (client_getsizehints fdiv true size hintZero).2.incw
        = (if size.presizeinc then max 1 size.width_inc else 1) ∧
     (client_getsizehints fdiv true size hintZero).2.inch
        = (if size.presizeinc then max 1 size.height_inc else 1)) ∧
    (∀ got : Bool,
      1 ≤ (client_getsizehints fdiv got size hintZero).2.incw ∧
      1 ≤ (client_getsizehints fdiv got size hintZero).2.inch ∧
      (client_getsizehints fdiv got size hintZero).2.incw ≠ 0 ∧
      (client_getsizehints fdiv got size hintZero).2.inch ≠ 0) ∧
    ((client_getsizehints fdiv false size hintZero).2.basew = 0 ∧
     (client_getsizehints fdiv false size hintZero).2.baseh = 0 ∧
     (client_getsizehints fdiv false size hintZero).2.minw = 0 ∧
     (client_getsizehints fdiv false size hintZero).2.minh = 0 ∧
     (client_getsizehints fdiv false size hintZero).2.maxw = 0 ∧
     (client_getsizehints fdiv false size hintZero).2.maxh = 0 ∧
     (client_getsizehints fdiv false size hintZero).2.incw = 1 ∧
     (client_getsizehints fdiv false size hintZero).2.inch = 1) := by
  obtain ⟨pos, sx, sy, pb, pmn, pmx, pri, pa, bw, bh, mnw, mnh, mxw, mxh, wi, hi,
    ax, ay, bx, bY⟩ := size
  refine ⟨?_, ?_, ?_⟩
  · cases pb <;> cases pmn <;> cases pmx <;> cases pri <;> cases pa <;>
      simp [client_getsizehints, hintZero] <;> split_ifs <;> simp
  · intro got
    have h : 1 ≤ (client_getsizehints fdiv got
          { position := pos, x := sx, y := sy, pbasesize := pb, pminsize := pmn,
            pmaxsize := pmx, presizeinc := pri, paspect := pa, base_width := bw,
            base_height := bh, min_width := mnw, min_height := mnh, max_width := mxw,
            max_height := mxh, width_inc := wi, height_inc := hi, min_aspect_x := ax,
            min_aspect_y := ay, max_aspect_x := bx, max_aspect_y := bY } hintZero).2.incw ∧
        1 ≤ (client_getsizehints fdiv got
          { position := pos, x := sx, y := sy, pbasesize := pb, pminsize := pmn,
            pmaxsize := pmx, presizeinc := pri, paspect := pa, base_width := bw,
            base_height := bh, min_width := mnw, min_height := mnh, max_width := mxw,
            max_height := mxh, width_inc := wi, height_inc := hi, min_aspect_x := ax,
            min_aspect_y := ay, max_aspect_x := bx, max_aspect_y := bY } hintZero).2.inch := by
      cases got <;> cases pb <;> cases pmn <;> cases pmx <;> cases pri <;> cases pa <;>
        simp [client_getsizehints, hintZero] <;> split_ifs <;> simp
    exact ⟨h.1, h.2, by omega, by omega⟩
  · simp [client_getsizehints, hintZero]

/-- Clearing `abort` on an entry leaves it with `abort` clear and with its
text, print text and dummy flag as they were. -/
theorem getD_setAbort (menuq : List Menu) (i : Nat) :
    ((setAbort menuq i false).getD i {}).abort = false ∧
    ((setAbort menuq i false).getD i {}).text = (menuq.getD i {}).text ∧
    ((setAbort menuq i false).getD i {}).print = (menuq.getD i {}).print ∧
    ((setAbort menuq i false).getD i {}).dummy = (menuq.getD i {}).dummy := by
  unfold setAbort
  cases h : menuq[i]? with
  | none =>
    have hlen : menuq.length ≤ i := by
      by_contra hc
      have := List.getElem?_eq_getElem (l := menuq) (n := i) (by omega)
      rw [this] at h
      exact absurd h (by simp)
    simp [List.getD_eq_getElem?_getD, h]
  | some mi =>
    have hlt : i < menuq.length := by
      by_contra hc
      have := List.getElem?_eq_none (l := menuq) (n := i) (by omega)
      rw [this] at h
      exact absurd h (by simp)
    simp [List.getD_eq_getElem?_getD, h, hlt]

/-- C21: on the confirm control code `menu_handle_key` returns the head of
a non-empty result queue, with its `abort` member cleared and the rest of
the entry and the queue as they were; on an empty result queue it returns a
new dummy entry whose text is the search string cut to `MENU_MAXENTRY`
characters, with `abort` clear; and the end of `menu_filter` turns that
dummy entry into NULL when the caller passed `dummy == 0` and keeps it when
the caller permits free text. -/
theorem C21_confirm (env : MenuEnv) (heap : Menu) (chr : Char) (mc : menu_ctx)
    (menuq : List Menu) (i : Nat) (rest : List Nat) :
    ((menu_handle_key env heap (some (.CTL_RETURN, chr)) mc menuq (i :: rest)).ret
        = some (.queued i) ∧
     (menu_handle_key env heap (some (.CTL_RETURN, chr)) mc menuq (i :: rest)).resultq
        = i :: rest ∧
     (((menu_handle_key env heap (some (.CTL_RETURN, chr)) mc menuq (i :: rest)).menuq.getD
        i {}).abort = false ∧
      ((menu_handle_key env heap (some (.CTL_RETURN, chr)) mc menuq (i :: rest)).menuq.getD
        i {}).text = (menuq.getD i {}).text)) ∧
    ((menu_handle_key env heap (some (.CTL_RETURN, chr)) mc menuq []).ret
        = some (.fresh { heap with text := ⟨mc.searchstr.data.take env.MENU_MAXENTRY⟩,
                                   dummy := true, abort := false }) ∧
     menu_filter_out false
        (menu_handle_key env heap (some (.CTL_RETURN, chr)) mc menuq []).menuq
        (.fresh { heap with text := ⟨mc.searchstr.data.take env.MENU_MAXENTRY⟩,
                            dummy := true, abort := false }) = none ∧
     menu_filter_out true
        (menu_handle_key env heap (some (.CTL_RETURN, chr)) mc menuq []).menuq
        (.fresh { heap with text := ⟨mc.searchstr.data.take env.MENU_MAXENTRY⟩,
                            dummy := true, abort := false })
      = some (.fresh { heap with text := ⟨mc.searchstr.data.take env.MENU_MAXENTRY⟩,
                                 dummy := true, abort := false })) := by
  have h := getD_setAbort menuq i
  refine ⟨⟨rfl, rfl, ?_, ?_⟩, rfl, ?_, ?_⟩
  · exact h.1
  · exact h.2.1
  · simp [menu_filter_out, MenuPtr.isDummy]
  · simp [menu_filter_out, MenuPtr.isDummy]

/-- What `menu_draw` does to the result queue and the listing flag. -/
theorem menu_draw_resultq (env : MenuEnv) (xenv : XEnv) (sc : Screen) (mc : menu_ctx)
    (menuq : List Menu) (resultq : List Nat) :
    (menu_draw env xenv sc mc menuq resultq).resultq
      = (if mc.list && resultq.isEmpty then List.range menuq.length else resultq) ∧
    (menu_draw env xenv sc mc menuq resultq).mc.listing
      = (if mc.list then
          (if resultq.isEmpty then true else if mc.changed then false else mc.listing)
         else mc.listing) ∧
    (menu_draw env xenv sc mc menuq resultq).mc.list = mc.list ∧
    (menu_draw env xenv sc mc menuq resultq).mc.searchstr = mc.searchstr := by
  unfold menu_draw
  exact ⟨rfl, rfl, rfl, rfl⟩

/-- What the list-all control code does in a turn of the event loop, where
`changed` is clear on entry: it flips `list`, and it empties the result
queue and clears `listing` when `list` is then off while `listing` was
on. -/
theorem handle_key_all (env : MenuEnv) (heap : Menu) (mc : menu_ctx)
    (menuq : List Menu) (resultq : List Nat) (hc : mc.changed = false) :
    menu_handle_key env heap (some (.CTL_ALL, Char.ofNat 0)) mc menuq resultq =
      (if mc.list = true ∧ mc.listing = true then
        { ret := none,
          mc := { mc with list := false, noresult := false, listing := false },
          menuq := menuq, resultq := [] }
       else
        { ret := none, mc := { mc with list := !mc.list, noresult := false },
          menuq := menuq, resultq := resultq }) := by
  obtain ⟨ss, ds, ps, hp, l, lg, ch, nr, pv, en, w, nm, x, y⟩ := mc
  simp only at hc
  subst hc
  cases l <;> cases lg <;> simp [menu_handle_key, menu_handle_key_tail]

/-- C22: for every caller entry list, when list-all is on and the result
queue is empty, `menu_draw` makes the result queue the complete entry list
in its original order and sets `listing`; and when list-all is then toggled
off by the list-all control code in the next turn of the event loop (no
text change), `menu_handle_key` empties the result queue and clears
`listing`, and the `menu_draw` that follows leaves it empty. -/
theorem C22_list_all (env : MenuEnv) (xenv : XEnv) (sc : Screen) (heap : Menu)
    (mc : menu_ctx) (menuq : List Menu) (hl : mc.list = true) :
    (menu_draw env xenv sc mc menuq []).resultq = List.range menuq.length ∧
    (menu_draw env xenv sc mc menuq []).mc.listing = true ∧
    (menu_handle_key env heap (some (.CTL_ALL, Char.ofNat 0))
        { (menu_draw env xenv sc mc menuq []).mc with changed := false }
        (menu_draw env xenv sc mc menuq []).menuq
        (menu_draw env xenv sc mc menuq []).resultq).resultq = [] ∧
    (menu_handle_key env heap (some (.CTL_ALL, Char.ofNat 0))
        { (menu_draw env xenv sc mc menuq []).mc with changed := false }
        (menu_draw env xenv sc mc menuq []).menuq
        (menu_draw env xenv sc mc menuq []).resultq).mc.listing = false ∧
    (menu_filter_step env xenv sc heap (.KeyPress (some (.CTL_ALL, Char.ofNat 0)))
        { mc := (menu_draw env xenv sc mc menuq []).mc,
          menuq := (menu_draw env xenv sc mc menuq []).menuq,
          resultq := (menu_draw env xenv sc mc menuq []).resultq }).resultq = [] := by
  obtain ⟨h1, h2, h3, _⟩ := menu_draw_resultq env xenv sc mc menuq []
  have hq : (menu_draw env xenv sc mc menuq []).resultq = List.range menuq.length := by
    rw [h1, hl]; rfl
  have hlg : (menu_draw env xenv sc mc menuq []).mc.listing = true := by
    rw [h2, hl]; rfl
  have hlist : (menu_draw env xenv sc mc menuq []).mc.list = true := by
    rw [h3, hl]
  have hkey := handle_key_all env heap
    { (menu_draw env xenv sc mc menuq []).mc with changed := false }
    (menu_draw env xenv sc mc menuq []).menuq
    (menu_draw env xenv sc mc menuq []).resultq rfl
  rw [if_pos ⟨hlist, hlg⟩] at hkey
  refine ⟨hq, hlg, ?_, ?_, ?_⟩
  · rw [hkey]
  · rw [hkey]
  · simp only [menu_filter_step]
    rw [hkey]
    simp only
    rw [(menu_draw_resultq env xenv sc _ _ []).1]
    simp

/-- C22 witness: the entries alpha, beta, gamma with list-all on give the
result queue alpha, beta, gamma. -/
theorem C22_list_all_witness :
    ({ list := true } : menu_ctx).list = true ∧
    ((menu_draw envMenu envPlain screen1000 { list := true } menuABG []).resultq.map
        (fun i => (menuABG.getD i {}).text)) = ["alpha", "beta", "gamma"] ∧
    (menu_draw envMenu envPlain screen1000 { list := true } menuABG []).resultq
      = List.range menuABG.length :=
  ⟨rfl, by decide, (C22_list_all envMenu envPlain screen1000 {} { list := true } menuABG rfl).1⟩

/-- C23 (as stated, refuted): in bounds 0..100 by 0..100 a menu 150 wide
anchored at (10, 10) is placed at x = -50, left of the bounds. -/
theorem C23_counterexample :
    menu_draw_layout 0 100 0 100 10 10 150 20 = (-50, 10, 20) ∧
    ¬ ((0 : Int) ≤ (menu_draw_layout 0 100 0 100 10 10 150 20).1 ∧
        (menu_draw_layout 0 100 0 100 10 10 150 20).1 + 150 ≤ 100) := by
  decide

/-- The layout step keeps the menu inside the bounds vertically, and
horizontally when the menu is not wider than the bounds; a menu wider than
the bounds is placed at `xmin` when the anchor is left of `xmin` and with
its right edge on `xmax` otherwise. -/
theorem menu_draw_layout_bounds (xmin xmax ymin ymax x y width dy : Int) :
    (ymin ≤ (menu_draw_layout xmin xmax ymin ymax x y width dy).2.1 ∧
      (menu_draw_layout xmin xmax ymin ymax x y width dy).2.1
        + (menu_draw_layout xmin xmax ymin ymax x y width dy).2.2 ≤ ymax) ∧
    (width ≤ xmax - xmin →
      xmin ≤ (menu_draw_layout xmin xmax ymin ymax x y width dy).1 ∧
      (menu_draw_layout xmin xmax ymin ymax x y width dy).1 + width ≤ xmax) ∧
    (xmin ≤ x → (menu_draw_layout xmin xmax ymin ymax x y width dy).1 + width ≤ xmax) ∧
    (xmax - xmin < width → x < xmin →
      (menu_draw_layout xmin xmax ymin ymax x y width dy).1 = xmin ∧
      xmax < (menu_draw_layout xmin xmax ymin ymax x y width dy).1 + width) ∧
    (xmax - xmin < width → xmin ≤ x →
      (menu_draw_layout xmin xmax ymin ymax x y width dy).1 = xmax - width ∧
      (menu_draw_layout xmin xmax ymin ymax x y width dy).1 + width = xmax ∧
      (menu_draw_layout xmin xmax ymin ymax x y width dy).1 < xmin) := by
  unfold menu_draw_layout
  refine ⟨?_, ?_, ?_, ?_, ?_⟩
  · simp only
    split_ifs <;> simp only <;> constructor <;> omega
  · intro hw
    simp only
    split_ifs <;> simp only <;> constructor <;> omega
  · intro hx
    simp only
    split_ifs <;> simp only <;> omega
  · intro hw hx
    simp only
    split_ifs <;> simp only <;> constructor <;> first | trivial | omega
  · intro hw hx
    simp only
    split_ifs <;> simp only <;> refine ⟨?_, ?_, ?_⟩ <;> first | trivial | omega

/-- C23 (amended): after the layout step of `menu_draw`, for every anchor,
width and row count, the menu window lies inside the monitor bounds
vertically, `ymin ≤ y` and `y + dy ≤ ymax` (the height being cut to the
monitor height when the rows do not fit); horizontally `xmin ≤ x` and
`x + width ≤ xmax` hold when the menu is not wider than the monitor, and
`x + width ≤ xmax` holds whenever the anchor is not left of `xmin`. A menu
wider than the monitor is not inside the bounds: when the anchor is left of
`xmin` it is placed at `x = xmin` and its right edge is beyond `xmax`;
otherwise it is placed at `x = xmax - width`, its right edge on `xmax` and
its left edge beyond `xmin`. -/
theorem C23_menu_layout (env : MenuEnv) (xenv : XEnv) (sc : Screen) (mc : menu_ctx)
    (menuq : List Menu) (resultq : List Nat) :
    ((menu_draw_bounds xenv sc mc.x mc.y).2.2.1
        ≤ (menu_draw env xenv sc mc menuq resultq).mc.y ∧
      (menu_draw env xenv sc mc menuq resultq).mc.y
        + (menu_draw env xenv sc mc menuq resultq).dy
        ≤ (menu_draw_bounds xenv sc mc.x mc.y).2.2.2) ∧
    ((menu_draw env xenv sc mc menuq resultq).mc.width
        ≤ (menu_draw_bounds xenv sc mc.x mc.y).2.1 - (menu_draw_bounds xenv sc mc.x mc.y).1 →
      (menu_draw_bounds xenv sc mc.x mc.y).1 ≤ (menu_draw env xenv sc mc menuq resultq).mc.x ∧
      (menu_draw env xenv sc mc menuq resultq).mc.x
        + (menu_draw env xenv sc mc menuq resultq).mc.width
        ≤ (menu_draw_bounds xenv sc mc.x mc.y).2.1) ∧
    ((menu_draw_bounds xenv sc mc.x mc.y).1 ≤ mc.x →
      (menu_draw env xenv sc mc menuq resultq).mc.x
        + (menu_draw env xenv sc mc menuq resultq).mc.width
        ≤ (menu_draw_bounds xenv sc mc.x mc.y).2.1) ∧
    ((menu_draw_bounds xenv sc mc.x mc.y).2.1 - (menu_draw_bounds xenv sc mc.x mc.y).1
        < (menu_draw env xenv sc mc menuq resultq).mc.width →
      mc.x < (menu_draw_bounds xenv sc mc.x mc.y).1 →
      (menu_draw env xenv sc mc menuq resultq).mc.x = (menu_draw_bounds xenv sc mc.x mc.y).1 ∧
      (menu_draw_bounds xenv sc mc.x mc.y).2.1
        < (menu_draw env xenv sc mc menuq resultq).mc.x
          + (menu_draw env xenv sc mc menuq resultq).mc.width) ∧
    ((menu_draw_bounds xenv sc mc.x mc.y).2.1 - (menu_draw_bounds xenv sc mc.x mc.y).1
        < (menu_draw env xenv sc mc menuq resultq).mc.width →
      (menu_draw_bounds xenv sc mc.x mc.y).1 ≤ mc.x →
      (menu_draw env xenv sc mc menuq resultq).mc.x
        = (menu_draw_bounds xenv sc mc.x mc.y).2.1
          - (menu_draw env xenv sc mc menuq resultq).mc.width ∧
      (menu_draw env xenv sc mc menuq resultq).mc.x
        + (menu_draw env xenv sc mc menuq resultq).mc.width
        = (menu_draw_bounds xenv sc mc.x mc.y).2.1 ∧
      (menu_draw env xenv sc mc menuq resultq).mc.x
        < (menu_draw_bounds xenv sc mc.x mc.y).1) := by
  have hex : ∃ dy1 : Int,
      (menu_draw env xenv sc mc menuq resultq).mc.x
        = (menu_draw_layout (menu_draw_bounds xenv sc mc.x mc.y).1
            (menu_draw_bounds xenv sc mc.x mc.y).2.1
            (menu_draw_bounds xenv sc mc.x mc.y).2.2.1
            (menu_draw_bounds xenv sc mc.x mc.y).2.2.2 mc.x mc.y
            (menu_draw env xenv sc mc menuq resultq).mc.width dy1).1 ∧
      (menu_draw env xenv sc mc menuq resultq).mc.y
        = (menu_draw_layout (menu_draw_bounds xenv sc mc.x mc.y).1
            (menu_draw_bounds xenv sc mc.x mc.y).2.1
            (menu_draw_bounds xenv sc mc.x mc.y).2.2.1
            (menu_draw_bounds xenv sc mc.x mc.y).2.2.2 mc.x mc.y
            (menu_draw env xenv sc mc menuq resultq).mc.width dy1).2.1 ∧
      (menu_draw env xenv sc mc menuq resultq).dy
        = (menu_draw_layout (menu_draw_bounds xenv sc mc.x mc.y).1
            (menu_draw_bounds xenv sc mc.x mc.y).2.1
            (menu_draw_bounds xenv sc mc.x mc.y).2.2.1
            (menu_draw_bounds xenv sc mc.x mc.y).2.2.2 mc.x mc.y
            (menu_draw env xenv sc mc menuq resultq).mc.width dy1).2.2 := by
    unfold menu_draw
    exact ⟨_, rfl, rfl, rfl⟩
  obtain ⟨dy1, hx, hy, hdy⟩ := hex
  rw [hx, hy, hdy]
  exact menu_draw_layout_bounds _ _ _ _ _ _ _ _

/-- C23 witness: the three entries, 30 wide, drawn at anchor (990, 790) on
the 1000 by 800 screen are pulled in to (970, 770), inside the bounds; on a
screen 20 wide they are placed at x = -10 from the anchor (5, 5), right edge
on 20, and at x = 0 from the anchor (-10, 5) that this leaves, right edge at
30. -/
theorem C23_menu_layout_witness :
    ((menu_draw envMenu envPlain screen1000 { list := true, x := 990, y := 790 } menuABG
        []).mc.width = 30 ∧
      (menu_draw envMenu envPlain screen1000 { list := true, x := 990, y := 790 } menuABG
        []).mc.x = 970 ∧
      (menu_draw envMenu envPlain screen1000 { list := true, x := 990, y := 790 } menuABG
        []).mc.y = 770 ∧
      ((menu_draw_bounds envPlain screen1000 990 790).1
          ≤ (menu_draw envMenu envPlain screen1000 { list := true, x := 990, y := 790 }
              menuABG []).mc.x ∧
        (menu_draw envMenu envPlain screen1000 { list := true, x := 990, y := 790 }
            menuABG []).mc.x
          + (menu_draw envMenu envPlain screen1000 { list := true, x := 990, y := 790 }
              menuABG []).mc.width
          ≤ (menu_draw_bounds envPlain screen1000 990 790).2.1)) ∧
    ((menu_draw envMenu envPlain screenNarrow { list := true, x := 5, y := 5 } menuABG
        []).mc.x = -10 ∧
      ((menu_draw envMenu envPlain screenNarrow { list := true, x := 5, y := 5 } menuABG
          []).mc.x
          = (menu_draw_bounds envPlain screenNarrow 5 5).2.1
            - (menu_draw envMenu envPlain screenNarrow { list := true, x := 5, y := 5 }
                menuABG []).mc.width ∧
        (menu_draw envMenu envPlain screenNarrow { list := true, x := 5, y := 5 } menuABG
            []).mc.x
          + (menu_draw envMenu envPlain screenNarrow { list := true, x := 5, y := 5 }
              menuABG []).mc.width
          = (menu_draw_bounds envPlain screenNarrow 5 5).2.1 ∧
        (menu_draw envMenu envPlain screenNarrow { list := true, x := 5, y := 5 } menuABG
            []).mc.x
          < (menu_draw_bounds envPlain screenNarrow 5 5).1)) ∧
    ((menu_draw envMenu envPlain screenNarrow { list := true, x := -10, y := 5 } menuABG
        []).mc.x = 0 ∧
      ((menu_draw envMenu envPlain screenNarrow { list := true, x := -10, y := 5 } menuABG
          []).mc.x = (menu_draw_bounds envPlain screenNarrow (-10) 5).1 ∧
        (menu_draw_bounds envPlain screenNarrow (-10) 5).2.1
          < (menu_draw envMenu envPlain screenNarrow { list := true, x := -10, y := 5 }
              menuABG []).mc.x
            + (menu_draw envMenu envPlain screenNarrow { list := true, x := -10, y := 5 }
                menuABG []).mc.width)) :=
  ⟨⟨by decide, by decide, by decide,
      (C23_menu_layout envMenu envPlain screen1000 { list := true, x := 990, y := 790 }
        menuABG []).2.1 (by decide)⟩,
    ⟨by decide,
      (C23_menu_layout envMenu envPlain screenNarrow { list := true, x := 5, y := 5 }
        menuABG []).2.2.2.2 (by decide) (by decide)⟩,
    ⟨by decide,
      (C23_menu_layout envMenu envPlain screenNarrow { list := true, x := -10, y := 5 }
        menuABG []).2.2.2.1 (by decide) (by decide)⟩⟩

/-- C24: for every pointer position, positive line height and menu state,
`menu_calc_entry` returns -1 or the row `y / font_height` with
`0 ≤ row < num`; it returns -1 whenever the pointer is outside the window
(`x ≤ 0`, `x > width`, `y ≤ 0` or `y > font_height * num`); and it never
returns row 0 when the menu has a prompt. -/
theorem C24_calc_entry (env : MenuEnv) (mc : menu_ctx) (x y : Int)
    (_hfh : 0 < env.font_height) :
    (menu_calc_entry env mc x y = -1 ∨
      (menu_calc_entry env mc x y = Int.tdiv y env.font_height ∧
        0 ≤ menu_calc_entry env mc x y ∧ menu_calc_entry env mc x y < mc.num)) ∧
    (x ≤ 0 ∨ x > mc.width ∨ y ≤ 0 ∨ y > env.font_height * mc.num →
      menu_calc_entry env mc x y = -1) ∧
    (mc.hasprompt = true → menu_calc_entry env mc x y ≠ 0) := by
  unfold menu_calc_entry
  simp only
  refine ⟨?_, ?_, ?_⟩
  · split_ifs with h1 h2 h3
    · left; rfl
    · left; rfl
    · left; rfl
    · right
      refine ⟨rfl, ?_, ?_⟩ <;> omega
  · intro h
    have hb : x ≤ 0 ∨ x > mc.width ∨ y ≤ 0 ∨ y > env.font_height * mc.num ∨
        Int.tdiv y env.font_height < 0 ∨ Int.tdiv y env.font_height ≥ mc.num := by
      rcases h with h | h | h | h
      · exact Or.inl h
      · exact Or.inr (Or.inl h)
      · exact Or.inr (Or.inr (Or.inl h))
      · exact Or.inr (Or.inr (Or.inr (Or.inl h)))
    rw [if_pos hb]
    split_ifs <;> rfl
  · intro hp
    split_ifs with h1 h2 h3
    · omega
    · omega
    · omega
    · intro h0
      exact h3 ⟨hp, h0⟩

/-- C24 witness: lines 10 high, three rows 30 wide, pointer at (3, 15): row
1; with a prompt, pointer at (3, 5): -1. -/
theorem C24_calc_entry_witness :
    0 < envMenu.font_height ∧
    menu_calc_entry envMenu { width := 30, num := 3 } 3 15 = 1 ∧
    menu_calc_entry envMenu { width := 30, num := 3, hasprompt := true } 3 5 = -1 ∧
    (menu_calc_entry envMenu { width := 30, num := 3 } 3 15 = -1 ∨
      (menu_calc_entry envMenu { width := 30, num := 3 } 3 15
          = Int.tdiv 15 envMenu.font_height ∧
        0 ≤ menu_calc_entry envMenu { width := 30, num := 3 } 3 15 ∧
        menu_calc_entry envMenu { width := 30, num := 3 } 3 15
          < ({ width := 30, num := 3 } : menu_ctx).num)) :=
  ⟨by decide, by decide, by decide,
    (C24_calc_entry envMenu { width := 30, num := 3 } 3 15 (by decide)).1⟩

/-- C25: for every client with the Freeze flag set, `client_maximize`,
`client_vertmaximize` and `client_horizmaximize` leave the client (geometry,
saved geometry, border width, flags) unchanged and send no resize
request. -/
theorem C25_frozen_noop (env : XEnv) (sc : Screen) (cc : Client)
    (hf : cc.flags.freeze = true) :
    (client_maximize env sc cc = cc ∧ client_vertmaximize env sc cc = cc ∧
      client_horizmaximize env sc cc = cc) ∧
    (MaxOp.maximize.requests env sc cc = [] ∧ MaxOp.vertmaximize.requests env sc cc = [] ∧
      MaxOp.horizmaximize.requests env sc cc = []) := by
  refine ⟨⟨?_, ?_, ?_⟩, ?_, ?_, ?_⟩
  · simp [client_maximize, hf]
  · simp [client_vertmaximize, hf]
  · simp [client_horizmaximize, hf]
  · simp [MaxOp.requests, hf]
  · simp [MaxOp.requests, hf]
  · simp [MaxOp.requests, hf]

/-- C25 witness: the bordered client, frozen, stays as it is under
maximize, while unfrozen it is resized to the whole screen. -/
theorem C25_frozen_noop_witness :
    (client_freeze clientBordered).flags.freeze = true ∧
    MaxOp.maximize.requests envPlain screen1000 clientBordered
      = [{ bwidth := 0, geom := ⟨0, 0, 1000, 800⟩ }] ∧
    ((client_maximize envPlain screen1000 (client_freeze clientBordered)
        = client_freeze clientBordered ∧
      client_vertmaximize envPlain screen1000 (client_freeze clientBordered)
        = client_freeze clientBordered ∧
      client_horizmaximize envPlain screen1000 (client_freeze clientBordered)
        = client_freeze clientBordered) ∧
     (MaxOp.maximize.requests envPlain screen1000 (client_freeze clientBordered) = [] ∧
      MaxOp.vertmaximize.requests envPlain screen1000 (client_freeze clientBordered) = [] ∧
      MaxOp.horizmaximize.requests envPlain screen1000 (client_freeze clientBordered) = [])) :=
  ⟨by decide, by decide,
    C25_frozen_noop envPlain screen1000 (client_freeze clientBordered) (by decide)⟩

/-- The body of the inner loop returns the adjustment against the first of
the visited clients, neither the mover nor hidden, that qualifies. -/
theorem align_entry_loop_eq (cc : Nat × Client) (movedir : MoveDir) (moveamt : Int)
    (g : List (Nat × Client)) :
    align_entry_loop cc movedir moveamt g =
      ((((g.filter (fun scc => !(decide (cc.1 = scc.1) || scc.2.flags.hidden))).map
          (fun scc => scc.2)).find?
        (fun c => (client_client_align_adjust c cc.2 movedir moveamt).1)).map
        (fun c => (client_client_align_adjust c cc.2 movedir moveamt).2)) := by
  induction g with
  | nil => rfl
  | cons scc rest ih =>
    unfold align_entry_loop
    by_cases hk : cc.1 = scc.1 ∨ scc.2.flags.hidden = true
    · rw [if_pos hk, ih]
      have hf : (!(decide (cc.1 = scc.1) || scc.2.flags.hidden)) = false := by
        rcases hk with hk | hk
        · simp [hk]
        · simp [hk]
      rw [List.filter_cons_of_neg (by simp [hf])]
    · rw [if_neg hk]
      have hf : (!(decide (cc.1 = scc.1) || scc.2.flags.hidden)) = true := by
        have h1 : ¬ cc.1 = scc.1 := fun h => hk (Or.inl h)
        have h2 : ¬ scc.2.flags.hidden = true := fun h => hk (Or.inr h)
        simp [h1, h2]
      have e : List.filter (fun scc => !(decide (cc.1 = scc.1) || scc.2.flags.hidden))
          (scc :: rest)
          = scc :: List.filter (fun scc => !(decide (cc.1 = scc.1) || scc.2.flags.hidden))
              rest := by
        rw [List.filter_cons, if_pos hf]
      rw [e, List.map_cons, List.find?_cons]
      by_cases hq : (client_client_align_adjust scc.2 cc.2 movedir moveamt).1 = true
      · rw [if_pos hq, hq]
        rfl
      · rw [if_neg hq, ih]
        have hq2 : (client_client_align_adjust scc.2 cc.2 movedir moveamt).1 = false := by
          simpa using hq
        rw [hq2]

/-- The loop over the groups returns the adjustment against the first
client that qualifies among those visited, group after group. -/
theorem align_groupq_loop_eq (Clientq : List (Nat × Client)) (cc : Nat × Client)
    (movedir : MoveDir) (moveamt : Int) (groupq : List (List Nat)) :
    align_groupq_loop Clientq cc movedir moveamt groupq =
      (((((groupq.map (align_group_walk Clientq)).flatten.filter
            (fun scc => !(decide (cc.1 = scc.1) || scc.2.flags.hidden))).map
          (fun scc => scc.2)).find?
        (fun c => (client_client_align_adjust c cc.2 movedir moveamt).1)).map
        (fun c => (client_client_align_adjust c cc.2 movedir moveamt).2)) := by
  induction groupq with
  | nil => rfl
  | cons g rest ih =>
    unfold align_groupq_loop align_group_loop
    rw [align_entry_loop_eq, ih, List.map_cons, List.flatten_cons, List.filter_append,
      List.map_append, List.find?_append]
    cases (List.find? (fun c => (client_client_align_adjust c cc.2 movedir moveamt).1)
      (List.map (fun scc => scc.2)
        (List.filter (fun scc => !(decide (cc.1 = scc.1) || scc.2.flags.hidden))
          (align_group_walk Clientq g)))) <;> rfl

/-- The first-hit policy on a list that starts with a given candidate. -/
theorem align_first_hit_cons (c : Client) (cs : List Client) (cc : Client)
    (movedir : MoveDir) (moveamt : Int) :
    align_first_hit (c :: cs) cc movedir moveamt =
      if (client_client_align_adjust c cc movedir moveamt).1 = true then
        (true, (client_client_align_adjust c cc movedir moveamt).2)
      else align_first_hit cs cc movedir moveamt := by
  unfold align_first_hit
  rw [List.find?_cons]
  by_cases hq : (client_client_align_adjust c cc movedir moveamt).1 = true
  · rw [if_pos hq, hq]
  · rw [if_neg hq]
    have hq2 : (client_client_align_adjust c cc movedir moveamt).1 = false := by
      simpa using hq
    rw [hq2]

/-- The first-hit policy on a list that starts with a candidate present
only when a gap is not 0. -/
theorem align_first_hit_gap (gap : Int) (c : Client) (cs : List Client) (cc : Client)
    (movedir : MoveDir) (moveamt : Int) :
    align_first_hit ((if gap ≠ 0 then [c] else []) ++ cs) cc movedir moveamt =
      if gap ≠ 0 ∧ (client_client_align_adjust c cc movedir moveamt).1 = true then
        (true, (client_client_align_adjust c cc movedir moveamt).2)
      else align_first_hit cs cc movedir moveamt := by
  by_cases hg : gap ≠ 0
  · rw [if_pos hg, List.singleton_append, align_first_hit_cons]
    by_cases hq : (client_client_align_adjust c cc movedir moveamt).1 = true
    · rw [if_pos hq, if_pos ⟨hg, hq⟩]
    · rw [if_neg hq, if_neg (fun h => hq h.2)]
  · rw [if_neg hg, List.nil_append, if_neg (fun h => hg h.1)]

/-- The first-hit policy on a list whose first part is the siblings. -/
theorem align_first_hit_append (l cs : List Client) (cc : Client)
    (movedir : MoveDir) (moveamt : Int) :
    align_first_hit (l ++ cs) cc movedir moveamt =
      match (l.find? (fun c => (client_client_align_adjust c cc movedir moveamt).1)).map
          (fun c => (client_client_align_adjust c cc movedir moveamt).2) with
      | some r => (true, r)
      | none => align_first_hit cs cc movedir moveamt := by
  unfold align_first_hit
  rw [List.find?_append]
  cases (List.find? (fun c => (client_client_align_adjust c cc movedir moveamt).1) l) <;> rfl

/-- `client_align_adjust` is the first-hit policy over the candidates in
the order in which the code tries them. -/
theorem client_align_adjust_eq (xenv : XEnv) (sc : Screen) (Clientq : List (Nat × Client))
    (groupq : List (List Nat)) (cc : Nat × Client) (movedir : MoveDir) (moveamt : Int) :
    client_align_adjust xenv sc Clientq groupq cc movedir moveamt
      = align_first_hit (align_scan xenv sc Clientq groupq cc) cc.2 movedir moveamt := by
  unfold client_align_adjust align_scan align_boundaries
  simp only [List.append_assoc]
  rw [align_first_hit_append, align_groupq_loop_eq]
  cases (List.find? (fun c => (client_client_align_adjust c cc.2 movedir moveamt).1)
      (List.map (fun scc => scc.2)
        (List.filter (fun scc => !(decide (cc.1 = scc.1) || scc.2.flags.hidden))
          (groupq.map (align_group_walk Clientq)).flatten))) with
  | some c => rfl
  | none =>
    simp only [Option.map_none']
    rw [align_first_hit_gap, List.singleton_append, align_first_hit_cons,
      align_first_hit_gap, List.singleton_append, align_first_hit_cons,
      align_first_hit_gap, List.singleton_append, align_first_hit_cons,
      align_first_hit_gap, align_first_hit_cons]
    rfl

/-- C26 (the code at the failing inputs): `client_align_adjust` does apply a
first-hit policy, with the boundary pseudo-windows last and in the stated
order, it leaves the amount unchanged when nothing it tries qualifies, and
its result is not minimal (8 where another sibling qualifies at 3); but the
clients it tries are not the siblings group by group in list order. The
inner loop steps through the linkage of `Clientq`, so from the first client
of each group it follows the global queue. With the groups (mover, far) and
(near) and the global queue mover, near, far the code returns 3 where the
scan group by group returns 8; and with the group (mover, near) and the
global queue near, mover the sibling is never tried and the code reports no
adjustment where the scan group by group returns 3. -/
theorem C26_align_scan_linkage :
    (∀ (xenv : XEnv) (sc : Screen) (Clientq : List (Nat × Client)) (groupq : List (List Nat))
        (cc : Nat × Client) (movedir : MoveDir) (moveamt : Int),
      client_align_adjust xenv sc Clientq groupq cc movedir moveamt
        = align_first_hit (align_scan xenv sc Clientq groupq cc) cc.2 movedir moveamt) ∧
    (∀ (xenv : XEnv) (sc : Screen) (Clientq : List (Nat × Client)) (groupq : List (List Nat))
        (cc : Nat × Client) (movedir : MoveDir) (moveamt : Int),
      (∀ c ∈ align_scan xenv sc Clientq groupq cc,
        (client_client_align_adjust c cc.2 movedir moveamt).1 = false) →
      client_align_adjust xenv sc Clientq groupq cc movedir moveamt = (false, moveamt)) ∧
    (client_align_adjust envPlain screen1000 [alignMover, alignFar, alignNear] [[0, 1, 2]]
        alignMover CWM_RIGHT 10 = (true, 8) ∧
      client_client_align_adjust alignNear.2 alignMover.2 CWM_RIGHT 10 = (true, 3)) ∧
    (group_clients [alignMover, alignNear, alignFar] [0, 1] = [alignMover, alignFar] ∧
      group_clients [alignMover, alignNear, alignFar] [2] = [alignNear] ∧
      align_group_walk [alignMover, alignNear, alignFar] [0, 1]
        = [alignMover, alignNear, alignFar] ∧
      client_align_adjust envPlain screen1000 [alignMover, alignNear, alignFar] [[0, 1], [2]]
        alignMover CWM_RIGHT 10 = (true, 3) ∧
      align_first_hit
        (align_candidates envPlain screen1000 [alignMover, alignNear, alignFar] [[0, 1], [2]]
          alignMover) alignMover.2 CWM_RIGHT 10 = (true, 8)) ∧
    (group_clients [alignNear, alignMover] [0, 2] = [alignMover, alignNear] ∧
      align_group_walk [alignNear, alignMover] [0, 2] = [alignMover] ∧
      client_align_adjust envPlain screen1000 [alignNear, alignMover] [[0, 2]]
        alignMover CWM_RIGHT 10 = (false, 10) ∧
      align_first_hit
        (align_candidates envPlain screen1000 [alignNear, alignMover] [[0, 2]]
          alignMover) alignMover.2 CWM_RIGHT 10 = (true, 3)) := by
  refine ⟨client_align_adjust_eq, ?_, by decide, by decide, by decide⟩
  intro xenv sc Clientq groupq cc movedir moveamt hnone
  rw [client_align_adjust_eq]
  unfold align_first_hit
  have : (align_scan xenv sc Clientq groupq cc).find?
      (fun c => (client_client_align_adjust c cc.2 movedir moveamt).1) = none := by
    rw [List.find?_eq_none]
    intro c hc
    rw [hnone c hc]
    simp
  rw [this]

/-- C27 (as stated, refuted): with the same raw hints, which carry no
flags, a zeroed prior hint record gives maximum 0 and increment 1, while a
prior record with maximum 500 and increment 7 keeps maximum 500 and
increment 7. -/
theorem C27_counterexample :
    (client_getsizehints fdivExact true {} hintZero).2.maxw = 0 ∧
    (client_getsizehints fdivExact true {} hintStale).2.maxw = 500 ∧
    (client_getsizehints fdivExact true {} hintZero).2.incw = 1 ∧
    (client_getsizehints fdivExact true {} hintStale).2.incw = 7 ∧
    ¬ ((client_getsizehints fdivExact true {} hintZero).2.maxw
        = (client_getsizehints fdivExact true {} hintStale).2.maxw) := by
  decide

/-- The integer fields that `client_getsizehints` leaves, for raw hints
that could be read: each group comes from the raw hints when its flag is
present and from the prior record otherwise. -/
theorem getsizehints_fields (fdiv : Int → Int → Rat) (size : XSizeHints) (h : Hint) :
    (client_getsizehints fdiv true size h).2.basew
        = (if size.pbasesize then size.base_width
           else if size.pminsize then size.min_width else h.basew) ∧
    (client_getsizehints fdiv true size h).2.baseh
        = (if size.pbasesize then size.base_height
           else if size.pminsize then size.min_height else h.baseh) ∧
    (client_getsizehints fdiv true size h).2.minw
        = (if size.pminsize then size.min_width
           else if size.pbasesize then size.base_width else h.minw) ∧
    (client_getsizehints fdiv true size h).2.minh
        = (if size.pminsize then size.min_height
           else if size.pbasesize then size.base_height else h.minh) ∧
    (client_getsizehints fdiv true size h).2.maxw
        = (if size.pmaxsize then size.max_width else h.maxw) ∧
    (client_getsizehints fdiv true size h).2.maxh
        = (if size.pmaxsize then size.max_height else h.maxh) ∧
    (client_getsizehints fdiv true size h).2.incw
        = max 1 (if size.presizeinc then size.width_inc else h.incw) ∧
    (client_getsizehints fdiv true size h).2.inch
        = max 1 (if size.presizeinc then size.height_inc else h.inch) := by
  obtain ⟨pos, sx, sy, pb, pmn, pmx, pri, pa, bw, bh, mnw, mnh, mxw, mxh, wi, hi,
    ax, ay, bx, bY⟩ := size
  obtain ⟨hbw, hbh, hmw, hmh, hxw, hxh, hiw, hih, hma, hxa⟩ := h
  cases pb <;> cases pmn <;> cases pmx <;> cases pri <;> cases pa <;>
    simp [client_getsizehints] <;> split_ifs <;> simp

/-- C27 (amended): for the same raw hints and any two prior hint records,
the resulting base values agree when the raw hints carry `PBaseSize` or
`PMinSize`, the min values likewise, the max values agree when they carry
`PMaxSize`, and the increments agree when they carry `PResizeInc`; a group
whose flag is absent keeps its prior value, the increment clamped to at
least 1. -/
theorem C27_getsizehints_prior (fdiv : Int → Int → Rat) (size : XSizeHints) (h1 h2 : Hint) :
    (size.pbasesize = true ∨ size.pminsize = true →
      (client_getsizehints fdiv true size h1).2.basew
          = (client_getsizehints fdiv true size h2).2.basew ∧
      (client_getsizehints fdiv true size h1).2.baseh
          = (client_getsizehints fdiv true size h2).2.baseh ∧
      (client_getsizehints fdiv true size h1).2.minw
          = (client_getsizehints fdiv true size h2).2.minw ∧
      (client_getsizehints fdiv true size h1).2.minh
          = (client_getsizehints fdiv true size h2).2.minh) ∧
    (size.pmaxsize = true →
      (client_getsizehints fdiv true size h1).2.maxw
          = (client_getsizehints fdiv true size h2).2.maxw ∧
      (client_getsizehints fdiv true size h1).2.maxh
          = (client_getsizehints fdiv true size h2).2.maxh) ∧
    (size.presizeinc = true →
      (client_getsizehints fdiv true size h1).2.incw
          = (client_getsizehints fdiv true size h2).2.incw ∧
      (client_getsizehints fdiv true size h1).2.inch
          = (client_getsizehints fdiv true size h2).2.inch) ∧
    (size.pbasesize = false → size.pminsize = false →
      (client_getsizehints fdiv true size h1).2.basew = h1.basew ∧
      (client_getsizehints fdiv true size h1).2.baseh = h1.baseh ∧
      (client_getsizehints fdiv true size h1).2.minw = h1.minw ∧
      (client_getsizehints fdiv true size h1).2.minh = h1.minh) ∧
    (size.pmaxsize = false →
      (client_getsizehints fdiv true size h1).2.maxw = h1.maxw ∧
      (client_getsizehints fdiv true size h1).2.maxh = h1.maxh) ∧
    (size.presizeinc = false →
      (client_getsizehints fdiv true size h1).2.incw = max 1 h1.incw ∧
      (client_getsizehints fdiv true size h1).2.inch = max 1 h1.inch) := by
  obtain ⟨a1, a2, a3, a4, a5, a6, a7, a8⟩ := getsizehints_fields fdiv size h1
  obtain ⟨b1, b2, b3, b4, b5, b6, b7, b8⟩ := getsizehints_fields fdiv size h2
  rw [a1, a2, a3, a4, a5, a6, a7, a8, b1, b2, b3, b4, b5, b6, b7, b8]
  refine ⟨?_, ?_, ?_, ?_, ?_, ?_⟩
  · intro h
    rcases h with h | h
    · cases hm : size.pminsize <;> simp [h]
    · cases hb : size.pbasesize <;> simp [h]
  · intro h; simp [h]
  · intro h; simp [h]
  · intro hb hm; simp [hb, hm]
  · intro h; simp [h]
  · intro h; simp [h]

/-- C27 witness: raw hints that carry a maximum give the same maximum from
a zeroed and from a stale prior record. -/
theorem C27_getsizehints_prior_witness :
    ({ pmaxsize := true, max_width := 640, max_height := 480 } : XSizeHints).pmaxsize = true ∧
    (client_getsizehints fdivExact true
        { pmaxsize := true, max_width := 640, max_height := 480 } hintStale).2.maxw = 640 ∧
    ((client_getsizehints fdivExact true
        { pmaxsize := true, max_width := 640, max_height := 480 } hintZero).2.maxw
      = (client_getsizehints fdivExact true
        { pmaxsize := true, max_width := 640, max_height := 480 } hintStale).2.maxw ∧
     (client_getsizehints fdivExact true
        { pmaxsize := true, max_width := 640, max_height := 480 } hintZero).2.maxh
      = (client_getsizehints fdivExact true
        { pmaxsize := true, max_width := 640, max_height := 480 } hintStale).2.maxh) :=
  ⟨rfl, by decide,
    (C27_getsizehints_prior fdivExact
      { pmaxsize := true, max_width := 640, max_height := 480 } hintZero hintStale).2.1 rfl⟩

/-- C28: for every input of `client_snapcalc` with `snapdist ≥ 0`, a
non-zero result `r` has `|r| ≤ snapdist` and puts an edge exactly on a bound
(`n + r = 0` or `n + dn + 2*bwidth + r = nmax`); and the result is 0
whenever neither edge is within `snapdist` of its bound. -/
theorem C28_snapcalc_sound (n dn nmax bwidth snapdist : Int) (_hsd : 0 ≤ snapdist) :
    (client_snapcalc n dn nmax bwidth snapdist ≠ 0 →
      c_abs (client_snapcalc n dn nmax bwidth snapdist) ≤ snapdist ∧
      (n + client_snapcalc n dn nmax bwidth snapdist = 0 ∨
        n + dn + 2 * bwidth + client_snapcalc n dn nmax bwidth snapdist = nmax)) ∧
    (c_abs n > snapdist →
      (n + dn + 2 * bwidth < nmax - snapdist ∨ nmax + snapdist < n + dn + 2 * bwidth) →
      client_snapcalc n dn nmax bwidth snapdist = 0) := by
  have hc0 : c_abs 0 = 0 := by decide
  have habs : ∀ a : Int, c_abs (-a) = c_abs a := by
    intro a
    unfold c_abs
    split_ifs <;> omega
  have hs1 : ∀ a b : Int, b - snapdist ≤ a → a ≤ b + snapdist → c_abs (b - a) ≤ snapdist := by
    intro a b h1 h2
    unfold c_abs
    split_ifs <;> omega
  have hA : c_abs (if c_abs n ≤ snapdist then -n else 0) ≤ snapdist ∧
      ((if c_abs n ≤ snapdist then -n else 0) ≠ 0 →
        n + (if c_abs n ≤ snapdist then -n else 0) = 0) ∧
      (c_abs n > snapdist → (if c_abs n ≤ snapdist then -n else 0) = 0) := by
    by_cases h0 : c_abs n ≤ snapdist
    · rw [if_pos h0, habs]
      exact ⟨h0, fun _ => by omega, fun h => by omega⟩
    · rw [if_neg h0, hc0]
      exact ⟨_hsd, fun h => absurd rfl h, fun _ => rfl⟩
  have hB : c_abs (if nmax - snapdist ≤ n + dn + bwidth * 2 ∧ n + dn + bwidth * 2 ≤ nmax + snapdist
        then nmax - (n + dn + bwidth * 2) else 0) ≤ snapdist ∧
      ((if nmax - snapdist ≤ n + dn + bwidth * 2 ∧ n + dn + bwidth * 2 ≤ nmax + snapdist
          then nmax - (n + dn + bwidth * 2) else 0) ≠ 0 →
        n + dn + 2 * bwidth +
          (if nmax - snapdist ≤ n + dn + bwidth * 2 ∧ n + dn + bwidth * 2 ≤ nmax + snapdist
            then nmax - (n + dn + bwidth * 2) else 0) = nmax) ∧
      ((n + dn + 2 * bwidth < nmax - snapdist ∨ nmax + snapdist < n + dn + 2 * bwidth) →
        (if nmax - snapdist ≤ n + dn + bwidth * 2 ∧ n + dn + bwidth * 2 ≤ nmax + snapdist
          then nmax - (n + dn + bwidth * 2) else 0) = 0) := by
    by_cases h1 : nmax - snapdist ≤ n + dn + bwidth * 2 ∧ n + dn + bwidth * 2 ≤ nmax + snapdist
    · rw [if_pos h1]
      exact ⟨hs1 _ _ h1.1 h1.2, fun _ => by omega, fun h => by omega⟩
    · rw [if_neg h1, hc0]
      exact ⟨_hsd, fun h => absurd rfl h, fun _ => rfl⟩
  have key : client_snapcalc n dn nmax bwidth snapdist =
      (if (if c_abs n ≤ snapdist then -n else 0) ≠ 0 ∧
          (if nmax - snapdist ≤ n + dn + bwidth * 2 ∧ n + dn + bwidth * 2 ≤ nmax + snapdist
            then nmax - (n + dn + bwidth * 2) else 0) ≠ 0 then
        (if c_abs (if c_abs n ≤ snapdist then -n else 0) <
            c_abs (if nmax - snapdist ≤ n + dn + bwidth * 2 ∧
              n + dn + bwidth * 2 ≤ nmax + snapdist
              then nmax - (n + dn + bwidth * 2) else 0)
          then (if c_abs n ≤ snapdist then -n else 0)
          else (if nmax - snapdist ≤ n + dn + bwidth * 2 ∧
              n + dn + bwidth * 2 ≤ nmax + snapdist
              then nmax - (n + dn + bwidth * 2) else 0))
      else if (if c_abs n ≤ snapdist then -n else 0) ≠ 0 then
        (if c_abs n ≤ snapdist then -n else 0)
      else if (if nmax - snapdist ≤ n + dn + bwidth * 2 ∧ n + dn + bwidth * 2 ≤ nmax + snapdist
            then nmax - (n + dn + bwidth * 2) else 0) ≠ 0 then
        (if nmax - snapdist ≤ n + dn + bwidth * 2 ∧ n + dn + bwidth * 2 ≤ nmax + snapdist
          then nmax - (n + dn + bwidth * 2) else 0)
      else 0) := rfl
  rw [key]
  generalize (if c_abs n ≤ snapdist then -n else 0) = s0 at hA ⊢
  generalize (if nmax - snapdist ≤ n + dn + bwidth * 2 ∧ n + dn + bwidth * 2 ≤ nmax + snapdist
      then nmax - (n + dn + bwidth * 2) else 0) = s1 at hB ⊢
  obtain ⟨a1, a2, a3⟩ := hA
  obtain ⟨b1, b2, b3⟩ := hB
  constructor
  · intro hr
    by_cases c1 : s0 ≠ 0 ∧ s1 ≠ 0
    · rw [if_pos c1] at hr ⊢
      by_cases c2 : c_abs s0 < c_abs s1
      · rw [if_pos c2]
        exact ⟨a1, Or.inl (a2 c1.1)⟩
      · rw [if_neg c2]
        exact ⟨b1, Or.inr (b2 c1.2)⟩
    · rw [if_neg c1] at hr ⊢
      by_cases c3 : s0 ≠ 0
      · rw [if_pos c3]
        exact ⟨a1, Or.inl (a2 c3)⟩
      · rw [if_neg c3] at hr ⊢
        by_cases c4 : s1 ≠ 0
        · rw [if_pos c4]
          exact ⟨b1, Or.inr (b2 c4)⟩
        · rw [if_neg c4] at hr
          exact absurd rfl hr
  · intro h0 h1
    rw [a3 h0, b3 h1]
    simp

/-- C28 witness: near edge at 3, far edge 2 short of `nmax`, snap distance
8: the result 2 is within the snap distance and puts the far edge on
`nmax`. -/
theorem C28_snapcalc_sound_witness :
    ((0 : Int) ≤ 8 ∧ client_snapcalc 3 95 100 0 8 ≠ 0) ∧
    client_snapcalc 3 95 100 0 8 = 2 ∧
    (c_abs (client_snapcalc 3 95 100 0 8) ≤ 8 ∧
      (3 + client_snapcalc 3 95 100 0 8 = 0 ∨
        3 + 95 + 2 * 0 + client_snapcalc 3 95 100 0 8 = 100)) :=
  ⟨by decide, by decide, (C28_snapcalc_sound 3 95 100 0 8 (by decide)).1 (by decide)⟩

/-- When `menu_keycode` decodes a control code it leaves the character at
0. -/
theorem menu_keycode_ctl (ks : Int) (control mod1 : Bool) (ctl : ctltype) (chr : Char)
    (h : menu_keycode ks control mod1 = some (ctl, chr)) (hc : ctl ≠ .CTL_NONE) :
    chr = Char.ofNat 0 := by
  have gen : ∀ c3 : ctltype,
      (if c3 ≠ .CTL_NONE then some (c3, Char.ofNat 0)
        else if ks < 0x20 ∨ ks > 0x07e then none
        else some (c3, Char.ofNat ks.toNat)) = some (ctl, chr) → chr = Char.ofNat 0 := by
    intro c3 h3
    by_cases hn : c3 ≠ .CTL_NONE
    · rw [if_pos hn] at h3
      exact (Prod.mk.inj (Option.some.inj h3)).2.symm
    · rw [if_neg hn] at h3
      by_cases hr : ks < 0x20 ∨ ks > 0x07e
      · rw [if_pos hr] at h3
        exact absurd h3 (by simp)
      · rw [if_neg hr] at h3
        have h4 : c3 = ctl := (Prod.mk.inj (Option.some.inj h3)).1
        exact absurd (h4 ▸ not_not.1 hn) hc
  exact gen _ h

/-- With `changed` clear on entry and `listing` set only while `list` is,
the part of `menu_handle_key` after the `switch` changes nothing but
`noresult` when no character was typed. -/
theorem handle_key_tail_idle (env : MenuEnv) (mc : menu_ctx) (menuq : List Menu)
    (resultq : List Nat) (hc : mc.changed = false)
    (hinv : mc.listing = true → mc.list = true) :
    menu_handle_key_tail env (Char.ofNat 0) mc menuq resultq =
      { ret := none, mc := { mc with noresult := false }, menuq := menuq,
        resultq := resultq } := by
  obtain ⟨ss, ds, ps, hp, l, lg, ch, nr, pv, en, w, nm, x, y⟩ := mc
  simp only at hc hinv
  subst hc
  cases l <;> cases lg <;> simp_all [menu_handle_key_tail]

/-- The move-down control code rotates the head of the result queue to its
tail. -/
theorem handle_key_down (env : MenuEnv) (heap : Menu) (mc : menu_ctx) (menuq : List Menu)
    (resultq : List Nat) (hc : mc.changed = false)
    (hinv : mc.listing = true → mc.list = true) :
    menu_handle_key env heap keyDown mc menuq resultq =
      { ret := none, mc := { mc with noresult := false }, menuq := menuq,
        resultq := resultq.rotate 1 } := by
  unfold keyDown menu_handle_key
  cases resultq with
  | nil => simp only; rw [handle_key_tail_idle env mc menuq [] hc hinv]; rfl
  | cons a rest =>
    simp only
    rw [handle_key_tail_idle env mc menuq _ hc hinv]
    simp [List.rotate_cons_succ]

/-- The move-up control code rotates the tail of the result queue to its
head. -/
theorem handle_key_up (env : MenuEnv) (heap : Menu) (mc : menu_ctx) (menuq : List Menu)
    (resultq : List Nat) (hc : mc.changed = false)
    (hinv : mc.listing = true → mc.list = true) :
    menu_handle_key env heap keyUp mc menuq resultq =
      { ret := none, mc := { mc with noresult := false }, menuq := menuq,
        resultq := match resultq.getLast? with
                   | none => resultq
                   | some mi => mi :: resultq.dropLast } := by
  unfold keyUp menu_handle_key
  cases h : resultq.getLast? with
  | none => simp only; rw [handle_key_tail_idle env mc menuq _ hc hinv]
  | some mi => simp only; rw [handle_key_tail_idle env mc menuq _ hc hinv]

/-- Repeated move-down rotates the result queue by the number of presses. -/
theorem menu_keys_down (env : MenuEnv) (heap : Menu) (menuq : List Menu) (k : Nat) :
    ∀ (mc : menu_ctx) (resultq : List Nat), mc.changed = false →
      (mc.listing = true → mc.list = true) →
      (menu_keys env heap (List.replicate k keyDown) mc menuq resultq).resultq
        = resultq.rotate k := by
  induction k with
  | zero => intro mc resultq _ _; simp [menu_keys]
  | succ k ih =>
    intro mc resultq hc hinv
    rw [List.replicate_succ, menu_keys, handle_key_down env heap mc menuq resultq hc hinv]
    simp only
    rw [ih { mc with noresult := false } (resultq.rotate 1) hc hinv, List.rotate_rotate,
      Nat.add_comm]

/-- C29: in a turn of the event loop (`changed` clear on entry, `listing`
set only while `list` is), the move-down control code rotates the head of
the result queue to the tail and the move-up control code rotates the tail
to the head; each gives a permutation of the queue and returns NULL;
move-up after move-down and move-down after move-up restore the queue;
move-down applied as many times as the queue has entries restores it; both
leave an empty queue empty; and neither changes the search string. -/
theorem C29_rotate (env : MenuEnv) (heap : Menu) (mc : menu_ctx) (menuq : List Menu)
    (resultq : List Nat) (hc : mc.changed = false)
    (hinv : mc.listing = true → mc.list = true) :
    ((menu_handle_key env heap keyDown mc menuq resultq).ret = none ∧
      (menu_handle_key env heap keyUp mc menuq resultq).ret = none) ∧
    ((menu_handle_key env heap keyDown mc menuq resultq).resultq
        = resultq.drop 1 ++ resultq.take 1 ∧
      (menu_handle_key env heap keyUp mc menuq resultq).resultq
        = resultq.getLast?.toList ++ resultq.dropLast) ∧
    ((menu_handle_key env heap keyDown mc menuq resultq).resultq.Perm resultq ∧
      (menu_handle_key env heap keyUp mc menuq resultq).resultq.Perm resultq) ∧
    ((menu_handle_key env heap keyUp
        (menu_handle_key env heap keyDown mc menuq resultq).mc
        (menu_handle_key env heap keyDown mc menuq resultq).menuq
        (menu_handle_key env heap keyDown mc menuq resultq).resultq).resultq = resultq ∧
      (menu_handle_key env heap keyDown
        (menu_handle_key env heap keyUp mc menuq resultq).mc
        (menu_handle_key env heap keyUp mc menuq resultq).menuq
        (menu_handle_key env heap keyUp mc menuq resultq).resultq).resultq = resultq) ∧
    (menu_keys env heap (List.replicate resultq.length keyDown) mc menuq resultq).resultq
      = resultq ∧
    ((menu_handle_key env heap keyDown mc menuq []).resultq = [] ∧
      (menu_handle_key env heap keyUp mc menuq []).resultq = []) ∧
    ((menu_handle_key env heap keyDown mc menuq resultq).mc.searchstr = mc.searchstr ∧
      (menu_handle_key env heap keyUp mc menuq resultq).mc.searchstr = mc.searchstr) := by
  have hD := handle_key_down env heap mc menuq resultq hc hinv
  have hU := handle_key_up env heap mc menuq resultq hc hinv
  have hUval : (match resultq.getLast? with
      | none => resultq
      | some mi => mi :: resultq.dropLast) = resultq.getLast?.toList ++ resultq.dropLast := by
    cases h : resultq.getLast? with
    | none =>
      have : resultq = [] := List.getLast?_eq_none_iff.1 h
      subst this
      rfl
    | some mi => rfl
  have hD1 : resultq.rotate 1 = resultq.drop 1 ++ resultq.take 1 := by
    cases resultq with
    | nil => rfl
    | cons a rest => simp [List.rotate_cons_succ]
  have hUperm : (resultq.getLast?.toList ++ resultq.dropLast).Perm resultq := by
    cases h : resultq.getLast? with
    | none =>
      have : resultq = [] := List.getLast?_eq_none_iff.1 h
      subst this
      simp
    | some mi =>
      have e := List.dropLast_append_getLast? mi h
      simp only [Option.toList]
      have hp : ([mi] ++ resultq.dropLast).Perm (resultq.dropLast ++ [mi]) :=
        List.perm_append_comm
      rw [e] at hp
      exact hp
  have hc' : ({ mc with noresult := false } : menu_ctx).changed = false := hc
  have hinv' : ({ mc with noresult := false } : menu_ctx).listing = true →
      ({ mc with noresult := false } : menu_ctx).list = true := hinv
  refine ⟨⟨?_, ?_⟩, ⟨?_, ?_⟩, ⟨?_, ?_⟩, ⟨?_, ?_⟩, ?_, ⟨?_, ?_⟩, ⟨?_, ?_⟩⟩
  · rw [hD]
  · rw [hU]
  · rw [hD]; exact hD1
  · rw [hU]; exact hUval
  · rw [hD]; exact List.rotate_perm _ _
  · rw [hU]; simp only; rw [hUval]; exact hUperm
  · rw [hD]
    simp only
    rw [handle_key_up env heap _ menuq _ hc' hinv']
    simp only
    cases resultq with
    | nil => rfl
    | cons a rest =>
      simp [List.rotate_cons_succ]
  · rw [hU]
    simp only
    rw [handle_key_down env heap _ menuq _ hc' hinv']
    simp only
    cases h : resultq.getLast? with
    | none =>
      have : resultq = [] := List.getLast?_eq_none_iff.1 h
      subst this
      rfl
    | some mi =>
      simp only [List.rotate_cons_succ, List.rotate_zero]
      exact List.dropLast_append_getLast? mi h
  · rw [menu_keys_down env heap menuq _ mc resultq hc hinv, List.rotate_length]
  · rw [handle_key_down env heap mc menuq [] hc hinv]; rfl
  · rw [handle_key_up env heap mc menuq [] hc hinv]; rfl
  · rw [hD]
  · rw [hU]

/-- C29 witness: move-down on the queue 0, 1, 2 gives 1, 2, 0, and three
presses restore it. -/
theorem C29_rotate_witness :
    (({} : menu_ctx).changed = false ∧
      (({} : menu_ctx).listing = true → ({} : menu_ctx).list = true)) ∧
    (menu_handle_key envMenu {} keyDown {} menuABG [0, 1, 2]).resultq = [1, 2, 0] ∧
    (menu_handle_key envMenu {} keyUp {} menuABG [0, 1, 2]).resultq = [2, 0, 1] ∧
    (menu_keys envMenu {} (List.replicate ([0, 1, 2] : List Nat).length keyDown) {} menuABG
      [0, 1, 2]).resultq = [0, 1, 2] :=
  ⟨by decide, by decide, by decide,
    (C29_rotate envMenu {} {} menuABG [0, 1, 2] rfl (by decide)).2.2.2.2.1⟩

/-- C30 (the code at the failing inputs): lines 10 high, entries alpha,
beta, gamma. Without a prompt and with all three in the result queue, the
pointer over row 1 makes `menu_handle_move` highlight row 1 with the text
of alpha, while `menu_handle_release` returns beta, and over row 0 nothing
is highlighted while alpha is returned: `menu_handle_move` takes the text
at `entry - 1` whether or not there is a prompt. With a prompt and the
result queue gamma, alpha, the pointer over row 2 makes `menu_handle_move`
ask for the entry after gamma in the caller's queue, which does not exist,
while `menu_handle_release` returns alpha: `menu_get_entry_text` steps
through the `entry` linkage, not `resultentry`. -/
theorem C30_highlight_vs_release :
    (menu_calc_entry envMenu { width := 30, num := 3 } 3 15 = 1 ∧
      (menu_handle_move envMenu { width := 30, num := 3 } menuABG [0, 1, 2] 3 15).highlight
        = some (1, some "alpha") ∧
      menu_handle_release envMenu {} { width := 30, num := 3 } [0, 1, 2] 3 15 = .queued 1 ∧
      (menu_handle_release envMenu {} { width := 30, num := 3 } [0, 1, 2] 3 15).text menuABG
        = "beta") ∧
    (menu_calc_entry envMenu { width := 30, num := 3 } 3 5 = 0 ∧
      (menu_handle_move envMenu { width := 30, num := 3 } menuABG [0, 1, 2] 3 5).highlight
        = none ∧
      menu_handle_release envMenu {} { width := 30, num := 3 } [0, 1, 2] 3 5 = .queued 0) ∧
    (menu_calc_entry envMenu { hasprompt := true, width := 30, num := 3 } 3 25 = 2 ∧
      (menu_handle_move envMenu { hasprompt := true, width := 30, num := 3 } menuABG [2, 0]
        3 25).highlight = some (2, none) ∧
      menu_handle_release envMenu {} { hasprompt := true, width := 30, num := 3 } [2, 0] 3 25
        = .queued 0 ∧
      (menu_handle_release envMenu {} { hasprompt := true, width := 30, num := 3 } [2, 0]
        3 25).text menuABG = "alpha") := by
  decide

end Cwm
